import Mathlib

/-!
# Liturgical calendar engine (Cruz1986/Bible): shallow embedding

The JavaScript sources `EasterCalculator.js`, `LiturgicalDataParser.js`,
`LiturgicalCalendar.js`, `FixedFeastDays.js`, `LiturgicalColors.js`,
`RomanCalendarRanks.js` and the function `generateMonthData` of
`calendarViewController.js` are embedded as pure Lean functions.

Conventions of the embedding:

* JavaScript numbers that hold integers are `Int`; `%` is the truncating
  remainder `jsMod`, `Math.floor(a / b)` is `floorDiv`.
* A luxon `DateTime` is taken at day granularity (local midnight): it is the
  civil triple `year, month, day`; its timestamp `valueOf` is the day number
  since 1970-01-01, so `<`, `<=` on `DateTime`s are comparisons of day numbers.
  `weekday` follows luxon: 1 = Monday .. 7 = Sunday.
* `toFormat('yyyy-MM-dd')` is kept as the `DateTime` itself: equality of the
  formatted strings is equality of the civil triples, and the lexicographic
  order of the formatted strings of four-digit years is the order of day numbers.
* The numeric ranks of the source have one decimal digit (`13.4`, `3.1`, ...);
  they are stored in tenths (`134`, `31`, ...), which keeps every comparison.
-/

/-- JavaScript `a % b` on integers: the remainder has the sign of the dividend. -/
def jsMod (a b : Int) : Int := Int.tmod a b

/-- JavaScript `Math.floor(a / b)` on integers. -/
def floorDiv (a b : Int) : Int := Int.fdiv a b

/-- A luxon `DateTime` at day granularity: the civil fields `c.year`, `c.month`, `c.day`. -/
structure DateTime where
  year : Int
  month : Int
  day : Int
deriving DecidableEq, Repr

namespace DateTime

/-- `DateTime.local(year, month, day)`. -/
def «local» (year month day : Int) : DateTime := ⟨year, month, day⟩

/-- Day number of a civil date in the proleptic Gregorian calendar
(days since 1970-01-01); the timestamp of the `DateTime` in units of days.
January and February count as months 10 and 11 of the preceding year. -/
def valueOf (dt : DateTime) : Int :=
  let y := if dt.month ≤ 2 then dt.year - 1 else dt.year
  let mp := if dt.month > 2 then dt.month - 3 else dt.month + 9
  365 * y + y / 4 - y / 100 + y / 400 + (153 * mp + 2) / 5 + dt.day - 719469

/-- Civil date of a day number: year and month by the 400-year era
decomposition, day as the offset from the first of that month. -/
def ofDays (n : Int) : DateTime :=
  let z := n + 719468
  let era := z / 146097
  let doe := z - era * 146097
  let yoe := (doe - doe / 1460 + doe / 36524 - doe / 146096) / 365
  let y := yoe + era * 400
  let doy := doe - (365 * yoe + yoe / 4 - yoe / 100)
  let mp := (5 * doy + 2) / 153
  let m := if mp < 10 then mp + 3 else mp - 9
  let year := if m ≤ 2 then y + 1 else y
  ⟨year, m, n - valueOf ⟨year, m, 1⟩ + 1⟩

/-- `dt.plus({ days })`. -/
def plus (dt : DateTime) (days : Int) : DateTime := ofDays (dt.valueOf + days)

/-- `dt.minus({ days })`. -/
def minus (dt : DateTime) (days : Int) : DateTime := ofDays (dt.valueOf - days)

/-- `dt.weekday` of luxon: 1 is Monday and 7 is Sunday (1970-01-01 was a Thursday). -/
def weekday (dt : DateTime) : Int := (dt.valueOf + 3) % 7 + 1

/-- `Math.floor(a.diff(b, 'weeks').weeks)`: whole weeks from `b` to `a`. -/
def diffWeeksFloor (a b : DateTime) : Int := floorDiv (a.valueOf - b.valueOf) 7

/-- `Math.floor(a.diff(b, 'days').days)`: days from `b` to `a`. -/
def diffDays (a b : DateTime) : Int := a.valueOf - b.valueOf

end DateTime

/-- Number of days of a month of the Gregorian calendar. -/
def daysInMonth (year month : Int) : Int :=
  if month = 2 then
    (if year % 4 = 0 ∧ (year % 100 ≠ 0 ∨ year % 400 = 0) then 29 else 28)
  else if month = 4 ∨ month = 6 ∨ month = 9 ∨ month = 11 then 30
  else 31

/-- A civil date that exists: month 1..12 and day 1..length of the month. -/
def DateTime.isValid (dt : DateTime) : Prop :=
  1 ≤ dt.month ∧ dt.month ≤ 12 ∧ 1 ≤ dt.day ∧ dt.day ≤ daysInMonth dt.year dt.month

instance (dt : DateTime) : Decidable dt.isValid := by
  unfold DateTime.isValid; infer_instance

namespace EasterCalculator

/-- `EasterCalculator.getEasterDate(year)`: Meeus/Jones/Butcher. -/
def getEasterDate (year : Int) : DateTime :=
  let a := jsMod year 19
  let b := floorDiv year 100
  let c := jsMod year 100
  let d := floorDiv b 4
  let e := jsMod b 4
  let f := floorDiv (b + 8) 25
  let g := floorDiv (b - f + 1) 3
  let h := jsMod (19 * a + b - d - g + 15) 30
  let i := floorDiv c 4
  let k := jsMod c 4
  let l := jsMod (32 + 2 * e + 2 * i - h - k) 7
  let m := floorDiv (a + 11 * h + 22 * l) 451
  let month := floorDiv (h + l - 7 * m + 114) 31
  let day := jsMod (h + l - 7 * m + 114) 31 + 1
  DateTime.local year month day

end EasterCalculator


/-! ## JavaScript string primitives -/

/-- `s.startsWith(p)`. -/
def jsStartsWith (s p : String) : Bool := p.data.isPrefixOf s.data

/-- `s.includes(p)` on character lists. -/
def includesChars : List Char → List Char → Bool
  | [], p => p.isEmpty
  | c :: cs, p => p.isPrefixOf (c :: cs) || includesChars cs p

/-- `s.includes(p)`. -/
def jsIncludes (s p : String) : Bool := includesChars s.data p.data

/-- `s.toLowerCase()`; the feast tables are ASCII. -/
def jsToLowerCase (s : String) : String := ⟨s.data.map Char.toLower⟩

/-- `s.toUpperCase()`; the season names are ASCII. -/
def jsToUpperCase (s : String) : String := ⟨s.data.map Char.toUpper⟩

/-- `s.substring(0, n)`. -/
def jsSubstring0 (s : String) (n : Nat) : String := ⟨s.data.take n⟩

/-- `n.toString()` of an integer number. -/
def jsNumToString (n : Int) : String := toString n

/-- `s.padStart(2, '0')`. -/
def padStart2 (s : String) : String := ⟨List.replicate (2 - s.data.length) '0' ++ s.data⟩

/-- The longest run of decimal digits at the head of a character list: `(\d+)`. -/
def takeDigits : List Char → List Char
  | [] => []
  | c :: cs => if c.isDigit then c :: takeDigits cs else []

/-- The rest of a character list after its leading run of decimal digits. -/
def dropDigits : List Char → List Char
  | [] => []
  | c :: cs => if c.isDigit then dropDigits cs else c :: cs

/-- `parseInt` of a run of decimal digits. -/
def parseDigits (ds : List Char) : Int :=
  ds.foldl (fun acc c => 10 * acc + ((c.toNat : Int) - 48)) 0

/-- First match of the regular expression `/W(\d+)/`: its capture group. -/
def matchWeekDigits : List Char → Option (List Char)
  | [] => none
  | c :: cs =>
    if c = 'W' ∧ takeDigits cs ≠ [] then some (takeDigits cs) else matchWeekDigits cs

/-! ## LiturgicalDataParser -/

/-- A row of the feast tables. `feast_month` and `feast_date` hold decimal
strings in the source and are only read through `parseInt`; they are stored as
the integers they denote. The Tamil label `feast_ta` is never read. -/
structure FeastRecord where
  feast_month : Int
  feast_date : Int
  feast_code : String
  feast_type : String
deriving DecidableEq, Repr

/-- An occurrence returned by the parser: `{ code, rank, type, color }`;
`rank` is in tenths, `type` is absent on the season indicator. -/
structure FeastInfo where
  code : String
  rank : Nat
  type : Option String
  color : String
deriving DecidableEq, Repr

/-- The object returned by `getLiturgicalSeasonInfo`. -/
structure SeasonInfo where
  name : String
  abbreviation : String
  seasonCode : String
  color : String
  week : Int
deriving DecidableEq, Repr

/-- The object returned by `getLiturgicalSeason` and `getCalculatedSeason`. -/
structure Season where
  name : String
  abbreviation : String
  color : String
deriving DecidableEq, Repr

/-- The object returned by `processFeast`; `rank` is the importance 0..5. -/
structure ProcessedFeast where
  name : String
  rank : Nat
  type : String
  color : String
  isIndianFeast : Bool
deriving DecidableEq, Repr

/-- The instance state of `LiturgicalDataParser`. -/
structure LiturgicalDataParser where
  region : String
  indiaFeasts : List FeastRecord
  fixedFeasts : List FeastRecord
deriving Repr

namespace LiturgicalDataParser

/-- `getDayAbbreviation(weekday)`: `days[weekday] || ''`. -/
def getDayAbbreviation (weekday : Int) : String :=
  if weekday = 0 then "Sun" else if weekday = 1 then "Mon" else if weekday = 2 then "Tue"
  else if weekday = 3 then "Wed" else if weekday = 4 then "Thu" else if weekday = 5 then "Fri"
  else if weekday = 6 then "Sat" else ""

/-- The season code template
`XW${weekNum.toString().padStart(2, '0')}-${date.weekday}${getDayAbbreviation(date.weekday)}`. -/
def seasonCodeOf (letters : String) (weekNum weekday : Int) : String :=
  letters ++ padStart2 (jsNumToString weekNum) ++ "-" ++ jsNumToString weekday ++
    getDayAbbreviation weekday

/-- Local `ashWednesday` of `getLiturgicalSeasonInfo`. -/
def ashWednesday (easterDate : DateTime) : DateTime := easterDate.minus 46

/-- Local `pentecost` of `getLiturgicalSeasonInfo`. -/
def pentecost (easterDate : DateTime) : DateTime := easterDate.plus 49

/-- Local `christmas` of `getLiturgicalSeasonInfo`. -/
def christmas (year : Int) : DateTime := DateTime.local year 12 25

/-- Local `daysUntilSunday` of `getLiturgicalSeasonInfo`. -/
def daysUntilSunday (year : Int) : Int := jsMod (7 - (christmas year).weekday) 7

/-- Local `fourthSundayOfAdvent` of `getLiturgicalSeasonInfo`. -/
def fourthSundayOfAdvent (year : Int) : DateTime := (christmas year).minus (daysUntilSunday year)

/-- Local `firstSundayOfAdvent` of `getLiturgicalSeasonInfo`. -/
def firstSundayOfAdvent (year : Int) : DateTime := (fourthSundayOfAdvent year).minus 21

/-- Local `epiphany` of `getLiturgicalSeasonInfo`. -/
def epiphany (year : Int) : DateTime := DateTime.local year 1 6

/-- Local `baptismOfLord` of `getLiturgicalSeasonInfo`. -/
def baptismOfLord (year : Int) : DateTime :=
  if (epiphany year).weekday = 6 ∨ (epiphany year).weekday = 0 then
    (epiphany year).plus (if (epiphany year).weekday = 6 then 2 else 1)
  else
    (epiphany year).plus (7 - (epiphany year).weekday)

/-- First branch condition: `date < ashWednesday && date >= baptismOfLord`. -/
def isOrdinaryTimeBeforeLent (date easterDate : DateTime) : Prop :=
  date.valueOf < (ashWednesday easterDate).valueOf ∧
    date.valueOf ≥ (baptismOfLord date.year).valueOf

/-- Second branch condition: `date >= ashWednesday && date < easterDate`. -/
def isLent (date easterDate : DateTime) : Prop :=
  date.valueOf ≥ (ashWednesday easterDate).valueOf ∧ date.valueOf < easterDate.valueOf

/-- Third branch condition: `date >= easterDate && date < pentecost`. -/
def isEaster (date easterDate : DateTime) : Prop :=
  date.valueOf ≥ easterDate.valueOf ∧ date.valueOf < (pentecost easterDate).valueOf

/-- Fourth branch condition: `date >= pentecost && date < firstSundayOfAdvent`. -/
def isOrdinaryTimeAfterPentecost (date easterDate : DateTime) : Prop :=
  date.valueOf ≥ (pentecost easterDate).valueOf ∧
    date.valueOf < (firstSundayOfAdvent date.year).valueOf

/-- Fifth branch condition: `date >= firstSundayOfAdvent && date < christmas`. -/
def isAdvent (date : DateTime) : Prop :=
  date.valueOf ≥ (firstSundayOfAdvent date.year).valueOf ∧
    date.valueOf < (christmas date.year).valueOf

/-- Sixth branch condition: 25..31 December, or 1 January up to Baptism of the Lord. -/
def isChristmas (date : DateTime) : Prop :=
  (date.valueOf ≥ (christmas date.year).valueOf ∧
      date.valueOf ≤ (DateTime.local date.year 12 31).valueOf) ∨
    (date.valueOf ≥ (DateTime.local date.year 1 1).valueOf ∧
      date.valueOf < (baptismOfLord date.year).valueOf)

instance (date easterDate : DateTime) : Decidable (isOrdinaryTimeBeforeLent date easterDate) := by
  unfold isOrdinaryTimeBeforeLent; infer_instance

instance (date easterDate : DateTime) : Decidable (isLent date easterDate) := by
  unfold isLent; infer_instance

instance (date easterDate : DateTime) : Decidable (isEaster date easterDate) := by
  unfold isEaster; infer_instance

instance (date easterDate : DateTime) :
    Decidable (isOrdinaryTimeAfterPentecost date easterDate) := by
  unfold isOrdinaryTimeAfterPentecost; infer_instance

instance (date : DateTime) : Decidable (isAdvent date) := by
  unfold isAdvent; infer_instance

instance (date : DateTime) : Decidable (isChristmas date) := by
  unfold isChristmas; infer_instance

/-- The `if / else if` chain of `getLiturgicalSeasonInfo`: the values of
`seasonName`, `seasonCode` and `color` after it, `none` when no branch assigns them. -/
def seasonBranch (date easterDate : DateTime) : Option (String × String × String) :=
  if isOrdinaryTimeBeforeLent date easterDate then
    let weeksSinceBaptism := date.diffWeeksFloor (baptismOfLord date.year)
    let weekNum := weeksSinceBaptism + 1
    some ("Ordinary Time", seasonCodeOf "OW" weekNum date.weekday, "green")
  else if isLent date easterDate then
    let weeksSinceAshWednesday := date.diffWeeksFloor (ashWednesday easterDate)
    let weekNum := weeksSinceAshWednesday
    some ("Lent", seasonCodeOf "LW" weekNum date.weekday,
      if date.weekday = 0 ∧ weekNum = 3 then "rose" else "purple")
  else if isEaster date easterDate then
    let weeksSinceEaster := date.diffWeeksFloor easterDate
    let weekNum := weeksSinceEaster + 1
    some ("Easter", seasonCodeOf "EW" weekNum date.weekday, "white")
  else if isOrdinaryTimeAfterPentecost date easterDate then
    let weeksSincePentecost := date.diffWeeksFloor (pentecost easterDate)
    let weekNum := weeksSincePentecost + 10
    some ("Ordinary Time", seasonCodeOf "OW" weekNum date.weekday, "green")
  else if isAdvent date then
    let weeksSinceAdvent := date.diffWeeksFloor (firstSundayOfAdvent date.year)
    let weekNum := weeksSinceAdvent + 1
    some ("Advent", seasonCodeOf "AW" weekNum date.weekday,
      if date.weekday = 0 ∧ weekNum = 3 then "rose" else "purple")
  else if isChristmas date then
    let weekNum : Int := if date.month = 12 then 1 else 2
    some ("Christmas", seasonCodeOf "CW" weekNum date.weekday, "white")
  else none

/-- `getLiturgicalSeasonInfo(date, easterDate)`. The result is `none` when the
JavaScript throws: `seasonName.substring` on an undefined season name, or
`seasonCode.match(/W(\d+)/)[1]` on a failed match. -/
def getLiturgicalSeasonInfo (date easterDate : DateTime) : Option SeasonInfo :=
  match seasonBranch date easterDate with
  | none => none
  | some (seasonName, seasonCode, color) =>
    match matchWeekDigits seasonCode.data with
    | none => none
    | some digits =>
      some { name := seasonName
             abbreviation := jsToUpperCase (jsSubstring0 seasonName 2)
             seasonCode := seasonCode
             color := color
             week := parseDigits digits }

end LiturgicalDataParser

namespace LiturgicalDataParser

/-- `getEasterRelatedFeast(date, easterDate)`; the comparisons of the
`yyyy-MM-dd` strings are comparisons of the civil dates. -/
def getEasterRelatedFeast (date easterDate : DateTime) : Option FeastInfo :=
  if date = easterDate then
    some ⟨"Easter Sunday", 10, some "Solemnity", "white"⟩
  else if date = easterDate.minus 46 then
    some ⟨"Ash Wednesday", 22, some "Special", "purple"⟩
  else if date = easterDate.minus 7 then
    some ⟨"Palm Sunday", 23, some "Feast", "red"⟩
  else if date = easterDate.minus 3 then
    some ⟨"Holy Thursday", 11, some "Solemnity", "white"⟩
  else if date = easterDate.minus 2 then
    some ⟨"Good Friday", 11, some "Solemnity", "red"⟩
  else if date = easterDate.minus 1 then
    some ⟨"Holy Saturday", 11, some "Solemnity", "white"⟩
  else if date = easterDate.plus 7 then
    some ⟨"Divine Mercy Sunday", 50, some "Feast", "white"⟩
  else if date = easterDate.plus 39 then
    some ⟨"Ascension of the Lord", 20, some "Solemnity", "white"⟩
  else if date = easterDate.plus 49 then
    some ⟨"Pentecost", 20, some "Solemnity", "red"⟩
  else none

/-- `getRankFromType(type)`, in tenths: 3.1, 7, 10.2, 12. -/
def getRankFromType (type : String) : Nat :=
  if jsIncludes type "Solemnity" then 31
  else if jsIncludes type "Feast" then 70
  else if type = "Mem" then 102
  else 120

/-- `getColorFromType(type, code)`. -/
def getColorFromType (type code : String) : String :=
  if code ≠ "" ∧ (jsIncludes (jsToLowerCase code) "martyr" ∨
      jsIncludes (jsToLowerCase code) "cross" ∨
      jsIncludes (jsToLowerCase code) "passion" ∨
      jsIncludes (jsToLowerCase code) "blood") then "red"
  else if code ≠ "" ∧ (jsIncludes (jsToLowerCase code) "apostle" ∧
      ¬ jsIncludes (jsToLowerCase code) "virgin") then "red"
  else if code ≠ "" ∧ jsIncludes (jsToLowerCase code) "pentecost" then "red"
  else if type ≠ "" ∧ (jsIncludes type "Solemnity" ∨ jsIncludes type "Feast" ∨
      jsIncludes type "Mem") then "white"
  else if code ≠ "" ∧ (jsStartsWith code "AW" ∨ jsStartsWith code "LW") then
    (if jsStartsWith code "AW03-0" ∨ jsStartsWith code "LW04-0" then "rose" else "purple")
  else if code ≠ "" ∧ (jsStartsWith code "CW" ∨ jsStartsWith code "EW") then "white"
  else "green"

/-- The loop shared by `getFixedFeast` and `getIndiaFeast`: the first row of
the table with the month and the day, as an occurrence. -/
def lookupFeast (table : List FeastRecord) (month day : Int) : Option FeastInfo :=
  match table with
  | [] => none
  | feast :: rest =>
    if feast.feast_month = month ∧ feast.feast_date = day then
      some { code := feast.feast_code
             rank := getRankFromType feast.feast_type
             type := some feast.feast_type
             color := getColorFromType feast.feast_type feast.feast_code }
    else lookupFeast rest month day

/-- `getFixedFeast(month, day)`. -/
def getFixedFeast (self : LiturgicalDataParser) (month day : Int) : Option FeastInfo :=
  lookupFeast self.fixedFeasts month day

/-- `getIndiaFeast(month, day)`. -/
def getIndiaFeast (self : LiturgicalDataParser) (month day : Int) : Option FeastInfo :=
  lookupFeast self.indiaFeasts month day

/-- `loadIndiaFeasts()`. -/
def loadIndiaFeasts : List FeastRecord :=
  [
    ⟨1, 3, "IN Saint Kuriakose Elias Chavara, priest", "OpMem"⟩,
    ⟨1, 14, "IN Saint Devasahayam Pillai, martyr", "OpMem"⟩,
    ⟨1, 16, "IN Saint Joseph Vaz, priest", "Mem"⟩,
    ⟨2, 4, "IN Saint John de Brito, priest and martyr", "Mem"⟩,
    ⟨2, 6, "IN Saint Gonsalo Garcia, martyr", "Mem"⟩,
    ⟨2, 25, "IN Blessed Rani Maria, virgin, martyr", "OpMem"⟩,
    ⟨6, 8, "IN Blessed Maria Theresa Chiramel, virgin", "OpMem"⟩,
    ⟨7, 3, "IN Saint Thomas the Apostle", "Solemnity-PrincipalPartron-Place"⟩,
    ⟨7, 28, "IN Saint Alphonsa of the Immaculate Conception (Alphonsa Muttathupadathu), virgin", "Mem"⟩,
    ⟨8, 30, "IN Saint Euphrasia, virgin", "OpMem"⟩,
    ⟨9, 5, "IN Saint Teresa of Calcutta, virgin", "Mem"⟩,
    ⟨10, 16, "IN Blessed Augustine Thevarparambil, priest", "OpMem"⟩,
    ⟨12, 3, "IN Saint Francis Xavier, priest", "Solemnity-PrincipalPartron-Place"⟩
  ]

/-- `loadFixedFeasts()`. -/
def loadFixedFeasts : List FeastRecord :=
  [
    ⟨1, 1, "Blessed Virgin Mary, the Mother of God", "Solemnity"⟩,
    ⟨1, 6, "Epiphany", "Solemnity"⟩,
    ⟨1, 2, "Saints Basil the Great and Gregory Nazianzen, bishops and doctors", "Mem"⟩,
    ⟨1, 7, "Saint Raymond of Penyafort, priest", "OpMem"⟩,
    ⟨1, 13, "Saint Hilary of Poitiers, bishop and doctor", "OpMem"⟩,
    ⟨1, 17, "Saint Anthony of Egypt, abbot", "Mem"⟩,
    ⟨1, 20, "Saint Fabian, pope and martyr", "OpMem"⟩,
    ⟨1, 21, "Saint Agnes, virgin and martyr", "Mem"⟩,
    ⟨1, 22, "Saint Vincent, deacon and martyr", "OpMem"⟩,
    ⟨1, 24, "Saint Francis de Sales, bishop and doctor", "Mem"⟩,
    ⟨1, 25, "The Conversion of Saint Paul, apostle", "Feast"⟩,
    ⟨1, 26, "Saints Timothy and Titus, bishops", "Mem"⟩,
    ⟨1, 27, "Saint Angela Merici, virgin", "OpMem"⟩,
    ⟨1, 28, "Saint Thomas Aquinas, priest and doctor", "Mem"⟩,
    ⟨1, 31, "Saint John Bosco, priest", "Mem"⟩,
    ⟨2, 2, "Presentation of the Lord", "Feast-Lord"⟩,
    ⟨2, 3, "Saint Blase, bishop and martyr", "OpMem"⟩,
    ⟨2, 5, "Saint Agatha, virgin and martyr", "Mem"⟩,
    ⟨2, 6, "Saints Paul Miki and companions, martyrs", "Mem"⟩,
    ⟨2, 10, "Saint Scholastica, virgin", "Mem"⟩,
    ⟨2, 11, "Our Lady of Lourdes", "OpMem"⟩,
    ⟨2, 22, "Chair of Saint Peter, apostle", "Feast"⟩,
    ⟨2, 23, "Saint Polycarp, bishop and martyr", "Mem"⟩,
    ⟨3, 19, "Saint Joseph Husband of the Blessed Virgin Mary", "Solemnity"⟩,
    ⟨3, 25, "Annunciation of the Lord", "Solemnity"⟩,
    ⟨4, 25, "Saint Mark the Evangelist", "Feast"⟩,
    ⟨5, 1, "Saint Joseph the Worker", "OpMem"⟩,
    ⟨5, 3, "Saints Philip and James, Apostles", "Feast"⟩,
    ⟨5, 14, "Saint Matthias the Apostle", "Feast"⟩,
    ⟨5, 31, "Visitation of the Blessed Virgin Mary", "Feast"⟩,
    ⟨6, 24, "Birth of Saint John the Baptist", "Solemnity"⟩,
    ⟨6, 29, "Saints Peter and Paul, Apostles", "Solemnity"⟩,
    ⟨7, 3, "Saint Thomas the Apostle", "Feast"⟩,
    ⟨7, 22, "Saint Mary Magdalene", "Feast"⟩,
    ⟨7, 25, "Saint James, apostle", "Feast"⟩,
    ⟨7, 26, "Saints Joachim and Anne", "Mem"⟩,
    ⟨8, 6, "Transfiguration of the Lord", "Feast-Lord"⟩,
    ⟨8, 10, "Saint Lawrence, deacon and martyr", "Feast"⟩,
    ⟨8, 15, "Assumption of the Blessed Virgin Mary", "Solemnity"⟩,
    ⟨8, 24, "Saint Bartholomew the Apostle", "Feast"⟩,
    ⟨9, 8, "Birth of the Blessed Virgin Mary", "Feast"⟩,
    ⟨9, 14, "Exaltation of the Holy Cross", "Feast-Lord"⟩,
    ⟨9, 21, "Saint Matthew the Evangelist, Apostle, Evangelist", "Feast"⟩,
    ⟨9, 29, "Saints Michael, Gabriel and Raphael, Archangels", "Feast"⟩,
    ⟨10, 18, "Saint Luke the Evangelist", "Feast"⟩,
    ⟨10, 28, "Saint Simon and Saint Jude, apostles", "Feast"⟩,
    ⟨11, 1, "All Saints", "Solemnity"⟩,
    ⟨11, 2, "All Souls", "Solemnity"⟩,
    ⟨11, 9, "Dedication of the Lateran basilica", "Feast-Lord"⟩,
    ⟨11, 30, "Saint Andrew the Apostle", "Feast"⟩,
    ⟨12, 8, "Immaculate Conception of the Blessed Virgin Mary", "Solemnity"⟩,
    ⟨12, 25, "Nativity of the Lord", "Solemnity"⟩,
    ⟨12, 26, "Saint Stephen, the first martyr", "Feast"⟩,
    ⟨12, 27, "Saint John the Apostle and evangelist", "Feast"⟩,
    ⟨12, 28, "Holy Innocents, martyrs", "Feast"⟩
  ]

/-- `new LiturgicalDataParser(region)`. -/
def create (region : String) : LiturgicalDataParser :=
  { region := region, indiaFeasts := loadIndiaFeasts, fixedFeasts := loadFixedFeasts }

/-- The season indicator `{ code: season.seasonCode, rank: 13.4, color: season.color }`. -/
def seasonIndicator (season : SeasonInfo) : FeastInfo :=
  { code := season.seasonCode, rank := 134, type := none, color := season.color }

/-- `getFeastForDate(date)`; `none` is the `null` of the `catch` block, reached
when `getLiturgicalSeasonInfo` throws. -/
def getFeastForDate (self : LiturgicalDataParser) (date : DateTime) : Option FeastInfo :=
  let year := date.year
  let easterDate := EasterCalculator.getEasterDate year
  let easterFeast := getEasterRelatedFeast date easterDate
  let month := date.month
  let day := date.day
  let fixedFeast := self.getFixedFeast month day
  let indiaFeast := if self.region = "india" then self.getIndiaFeast month day else none
  match getLiturgicalSeasonInfo date easterDate with
  | none => none
  | some season =>
    match easterFeast with
    | some f => some f
    | none =>
      match indiaFeast with
      | some f => some f
      | none =>
        match fixedFeast with
        | some f => some f
        | none => some (seasonIndicator season)

/-- `getAllFeastsForDate(date)`; the empty list is the result of the `catch` block. -/
def getAllFeastsForDate (self : LiturgicalDataParser) (date : DateTime) : List FeastInfo :=
  let year := date.year
  let month := date.month
  let day := date.day
  let easterDate := EasterCalculator.getEasterDate year
  match getLiturgicalSeasonInfo date easterDate with
  | none => []
  | some season =>
    [seasonIndicator season]
      ++ (getEasterRelatedFeast date easterDate).toList
      ++ (self.getFixedFeast month day).toList
      ++ (if self.region = "india" then (self.getIndiaFeast month day).toList else [])

/-- `getLiturgicalSeason(date)`, with the fallback of its `catch` block. -/
def getLiturgicalSeason (date : DateTime) : Season :=
  match getLiturgicalSeasonInfo date (EasterCalculator.getEasterDate date.year) with
  | some seasonInfo =>
    { name := seasonInfo.name, abbreviation := seasonInfo.abbreviation, color := seasonInfo.color }
  | none => { name := "Ordinary Time", abbreviation := "OT", color := "green" }

/-- The longest run of characters satisfying `p` at the head of a list. -/
def takeRun (p : Char → Bool) : List Char → List Char
  | [] => []
  | c :: cs => if p c then c :: takeRun p cs else []

/-- The rest of a list after its leading run of characters satisfying `p`. -/
def dropRun (p : Char → Bool) : List Char → List Char
  | [] => []
  | c :: cs => if p c then dropRun p cs else c :: cs

/-- A match of `([A-Z]+)(\d+)-(\d+)([A-Za-z]+)` anchored at the head of the
list: the captures 2 and 3. Each greedy run is followed by a character outside
its class, so the greedy split is the only one. -/
def matchCodeHere (s : List Char) : Option (List Char × List Char) :=
  let letters := takeRun Char.isUpper s
  let s1 := dropRun Char.isUpper s
  let week := takeRun Char.isDigit s1
  let s2 := dropRun Char.isDigit s1
  match s2 with
  | '-' :: s3 =>
    let weekday := takeRun Char.isDigit s3
    let s4 := dropRun Char.isDigit s3
    if letters ≠ [] ∧ week ≠ [] ∧ weekday ≠ [] ∧ takeRun Char.isAlpha s4 ≠ [] then
      some (week, weekday)
    else none
  | _ => none

/-- The leftmost match of `/([A-Z]+)(\d+)-(\d+)([A-Za-z]+)/` in a list. -/
def matchCode : List Char → Option (List Char × List Char)
  | [] => none
  | c :: cs =>
    match matchCodeHere (c :: cs) with
    | some r => some r
    | none => matchCode cs

/-- `parseWeekInfo(code)`: the pair `{ week, weekday }`. -/
def parseWeekInfo (code : String) : Int × Int :=
  if code = "" then (0, 0)
  else
    match matchCode code.data with
    | some (week, weekday) => (parseDigits week, parseDigits weekday)
    | none => (0, 0)

/-- `processFeast(feast)` on a non-null occurrence. -/
def processFeast (feast : FeastInfo) : ProcessedFeast :=
  let name := feast.code
  let color := if feast.color = "" then "green" else feast.color
  let rankType : Nat × String :=
    if feast.rank ≠ 0 then
      let rankNum := feast.rank
      if rankNum ≤ 32 then (5, "Solemnity")
      else if rankNum ≤ 50 then (4, "Solemnity")
      else if rankNum ≤ 70 then (3, "Feast")
      else if rankNum ≤ 102 then (2, "Mem")
      else (1, "OpMem")
    else
      match feast.type with
      | some type =>
        if type ≠ "" then
          if jsIncludes type "Solemnity" then (4, type)
          else if jsIncludes type "Feast" then (3, type)
          else if jsIncludes type "Mem" ∧ ¬ jsIncludes type "OpMem" then (2, type)
          else (1, type)
        else (0, "")
      | none => (0, "")
  { name := name
    rank := rankType.1
    type := rankType.2
    color := color
    isIndianFeast := jsIncludes name "IN " }

end LiturgicalDataParser

/-! ## LiturgicalCalendar -/

/-- The object returned by `getLiturgicalWeek`. -/
structure WeekInfo where
  week : Int
  weekday : Int
  dayOfSeason : Int
deriving DecidableEq, Repr

/-- The object returned by `getLiturgicalDayInfo`; `date` is the day whose
`yyyy-MM-dd` string the source stores. -/
structure LiturgicalDayInfo where
  date : DateTime
  season : Season
  feastDay : Option ProcessedFeast
  color : String
  week : Int
  weekday : Int
  dayOfSeason : Int
  isHolyDay : Bool
  isSolemnity : Bool
  allFeastsForDate : List ProcessedFeast
deriving DecidableEq, Repr

/-- A season window of `getLiturgicalSeasons`; the two dates stand for their
`yyyy-MM-dd` strings. -/
structure SeasonWindow where
  name : String
  startDate : DateTime
  endDate : DateTime
deriving DecidableEq, Repr

/-- An entry of `getFeastDays`: `{ name, date, rank, type, color }`. -/
structure FeastDayEntry where
  name : String
  date : DateTime
  rank : Nat
  type : String
  color : String
deriving DecidableEq, Repr

/-- The instance state of `LiturgicalCalendar` read by the methods below:
the region and the data parser. -/
structure LiturgicalCalendar where
  region : String
  dataParser : LiturgicalDataParser
deriving Repr

/-- A date lies in a season window: `startDate <= date <= endDate`. -/
def SeasonWindow.contains (w : SeasonWindow) (date : DateTime) : Bool :=
  decide (w.startDate.valueOf ≤ date.valueOf ∧ date.valueOf ≤ w.endDate.valueOf)

namespace LiturgicalCalendar

/-- `new LiturgicalCalendar(region)`: the parser is built by
`new LiturgicalDataParser()`, whose region parameter defaults to `'general'`. -/
def create (region : String) : LiturgicalCalendar :=
  { region := region, dataParser := LiturgicalDataParser.create "general" }

/-- `getFirstSundayOfAdvent(year)`. -/
def getFirstSundayOfAdvent (year : Int) : DateTime :=
  let nov30 := DateTime.local year 11 30
  let weekday := nov30.weekday
  if weekday = 0 then nov30
  else
    let daysToSunday := weekday
    nov30.minus daysToSunday

/-- `getBaptismOfLord(year)`. -/
def getBaptismOfLord (year : Int) : DateTime :=
  let epiphany := DateTime.local year 1 6
  if epiphany.weekday = 6 then epiphany.plus 2
  else if epiphany.weekday = 0 then epiphany.plus 1
  else epiphany.plus (7 - epiphany.weekday)

/-- `getCalculatedSeason(dt, easterDate)`. -/
def getCalculatedSeason (dt easterDate : DateTime) : Season :=
  let year := dt.year
  let ashWednesday := easterDate.minus 46
  let pentecost := easterDate.plus 49
  let christmasDay := DateTime.local year 12 25
  let daysUntilSunday := jsMod (7 - christmasDay.weekday) 7
  let fourthSundayOfAdvent := christmasDay.minus daysUntilSunday
  let firstSundayOfAdvent := fourthSundayOfAdvent.minus 21
  let epiphany := DateTime.local year 1 6
  let baptismOfLord :=
    if epiphany.weekday = 6 ∨ epiphany.weekday = 0 then
      epiphany.plus (if epiphany.weekday = 6 then 2 else 1)
    else epiphany.plus (7 - epiphany.weekday)
  if dt.valueOf < ashWednesday.valueOf ∧ dt.valueOf ≥ baptismOfLord.valueOf then
    ⟨"Ordinary Time (Pre-Lent)", "OT", "green"⟩
  else if dt.valueOf ≥ ashWednesday.valueOf ∧ dt.valueOf < easterDate.valueOf then
    ⟨"Lent", "LT", "purple"⟩
  else if dt.valueOf ≥ easterDate.valueOf ∧ dt.valueOf < pentecost.valueOf then
    ⟨"Easter", "ET", "white"⟩
  else if dt.valueOf ≥ pentecost.valueOf ∧ dt.valueOf < firstSundayOfAdvent.valueOf then
    ⟨"Ordinary Time (Post-Pentecost)", "OT", "green"⟩
  else if dt.valueOf ≥ firstSundayOfAdvent.valueOf ∧
      dt.valueOf ≤ (DateTime.local year 12 25).valueOf then
    ⟨"Advent", "AV", "purple"⟩
  else if (dt.valueOf ≥ (DateTime.local year 12 26).valueOf ∧
        dt.valueOf ≤ (DateTime.local year 12 31).valueOf) ∨
      (dt.valueOf ≥ (DateTime.local year 1 1).valueOf ∧ dt.valueOf < baptismOfLord.valueOf) then
    ⟨"Christmas", "CT", "white"⟩
  else ⟨"Ordinary Time", "OT", "green"⟩

/-- `getLiturgicalWeek(dt, easterDate, season)`. -/
def getLiturgicalWeek (dt easterDate : DateTime) (season : Season) : WeekInfo :=
  let year := dt.year
  let weekDay : Int × Int :=
    if jsIncludes season.name "Ordinary Time" then
      let firstSundayOT := (getBaptismOfLord year).plus 7
      if dt.valueOf ≥ firstSundayOT.valueOf ∧ dt.valueOf < (easterDate.minus 46).valueOf then
        let daysDiff := dt.diffDays firstSundayOT
        (floorDiv daysDiff 7 + 1, daysDiff + 1)
      else
        let pentecost := easterDate.plus 49
        let mondayAfterPentecost := pentecost.plus 1
        let baptismOfLord := getBaptismOfLord year
        let ashWednesday := easterDate.minus 46
        let preOTWeeks := ashWednesday.diffWeeksFloor baptismOfLord
        let daysDiff := dt.diffDays mondayAfterPentecost
        (floorDiv daysDiff 7 + preOTWeeks + 1, daysDiff + 1 + preOTWeeks * 7)
    else if season.name = "Advent" then
      let firstSundayOfAdvent := getFirstSundayOfAdvent year
      let daysDiff := dt.diffDays firstSundayOfAdvent
      (floorDiv daysDiff 7 + 1, daysDiff + 1)
    else if season.name = "Christmas" then
      let dayOfSeason :=
        if dt.month = 12 then dt.day - 24
        else
          let daysInDec := (DateTime.local (year - 1) 12 31).day - 24
          daysInDec + dt.day
      (floorDiv (dayOfSeason - 1) 7 + 1, dayOfSeason)
    else if season.name = "Lent" then
      let ashWednesday := easterDate.minus 46
      let daysDiff := dt.diffDays ashWednesday
      (floorDiv (daysDiff + 3) 7 + 1, daysDiff + 1)
    else if season.name = "Easter" then
      let daysDiff := dt.diffDays easterDate
      (floorDiv daysDiff 7 + 1, daysDiff + 1)
    else (0, 0)
  { week := weekDay.1, weekday := dt.weekday, dayOfSeason := weekDay.2 }

/-- The test of the `find` callback in `getLiturgicalDayInfo`: the code starts
with one of the season letters. -/
def isSeasonFeast (feast : FeastInfo) : Bool :=
  feast.code ≠ "" &&
    (jsStartsWith feast.code "OW" || jsStartsWith feast.code "AW" ||
     jsStartsWith feast.code "CW" || jsStartsWith feast.code "LW" ||
     jsStartsWith feast.code "EW")

/-- `getLiturgicalDayInfo(date)`, with `dt = DateTime.fromJSDate(date)`. -/
def getLiturgicalDayInfo (self : LiturgicalCalendar) (dt : DateTime) : LiturgicalDayInfo :=
  let year := dt.year
  let feastInfo := self.dataParser.getFeastForDate dt
  let allFeastsForDate := self.dataParser.getAllFeastsForDate dt
  let season := LiturgicalDataParser.getLiturgicalSeason dt
  let feastDay := feastInfo.map LiturgicalDataParser.processFeast
  let color :=
    match feastDay with
    | some f => if f.color = "" then season.color else f.color
    | none => season.color
  let parsedWeek : Int :=
    match allFeastsForDate.find? isSeasonFeast with
    | some seasonFeast => (LiturgicalDataParser.parseWeekInfo seasonFeast.code).1
    | none => 0
  let weekInfo : WeekInfo :=
    if parsedWeek = 0 then
      let easterDate := EasterCalculator.getEasterDate year
      let calculatedSeason := getCalculatedSeason dt easterDate
      getLiturgicalWeek dt easterDate calculatedSeason
    else { week := parsedWeek, weekday := dt.weekday, dayOfSeason := 0 }
  { date := dt
    season := season
    feastDay := feastDay
    color := color
    week := weekInfo.week
    weekday := weekInfo.weekday
    dayOfSeason := weekInfo.dayOfSeason
    isHolyDay := match feastDay with
      | some f => decide (f.rank ≥ 3)
      | none => false
    isSolemnity := match feastDay with
      | some f => decide (f.rank ≥ 4)
      | none => false
    allFeastsForDate := allFeastsForDate.map LiturgicalDataParser.processFeast }

/-- `getLiturgicalSeasons(year)`. -/
def getLiturgicalSeasons (year : Int) : List SeasonWindow :=
  let easterDate := EasterCalculator.getEasterDate year
  let ashWednesday := easterDate.minus 46
  let pentecost := easterDate.plus 49
  let baptismOfLord := getBaptismOfLord year
  let firstSundayOfAdvent := getFirstSundayOfAdvent year
  let christmas := DateTime.local year 12 25
  [ ⟨"Christmas", DateTime.local (year - 1) 12 25, baptismOfLord.minus 1⟩,
    ⟨"Ordinary Time (Pre-Lent)", baptismOfLord, ashWednesday.minus 1⟩,
    ⟨"Lent", ashWednesday, easterDate.minus 1⟩,
    ⟨"Easter", easterDate, pentecost⟩,
    ⟨"Ordinary Time (Post-Pentecost)", pentecost.plus 1, firstSundayOfAdvent.minus 1⟩,
    ⟨"Advent", firstSundayOfAdvent, christmas.minus 1⟩,
    ⟨"Christmas", christmas, DateTime.local year 12 31⟩ ]

/-- The values of `currentDate` over the iterations of
`while (currentDate <= endDate) { ...; currentDate = currentDate.plus({ days: 1 }) }`,
with at most `fuel` iterations. -/
def daysLoop : Nat → DateTime → DateTime → List DateTime
  | 0, _, _ => []
  | fuel + 1, currentDate, endDate =>
    if currentDate.valueOf ≤ endDate.valueOf then
      currentDate :: daysLoop fuel (currentDate.plus 1) endDate
    else []

/-- The loop body of `getFeastDays`: the entry pushed for a day, if any. -/
def feastDayEntry (self : LiturgicalCalendar) (currentDate : DateTime) : Option FeastDayEntry :=
  let liturgicalInfo := self.getLiturgicalDayInfo currentDate
  match liturgicalInfo.feastDay with
  | some feastDay =>
    some { name := feastDay.name, date := currentDate, rank := feastDay.rank,
           type := feastDay.type, color := feastDay.color }
  | none => none

/-- `getFeastDays(year)`: the loop over the days of the year, then the stable
sort by date string. A year has at most 366 days, so 367 iterations are enough. -/
def getFeastDays (self : LiturgicalCalendar) (year : Int) : List FeastDayEntry :=
  let startDate := DateTime.local year 1 1
  let endDate := DateTime.local year 12 31
  let feastDays := (daysLoop 367 startDate endDate).filterMap self.feastDayEntry
  feastDays.mergeSort (fun a b => decide (a.date.valueOf ≤ b.date.valueOf))

/-- `getFullYearData(year)`. A year has at most 366 days, so 367 iterations are enough. -/
def getFullYearData (self : LiturgicalCalendar) (year : Int) : List LiturgicalDayInfo :=
  let startDate := DateTime.local year 1 1
  let endDate := DateTime.local year 12 31
  (daysLoop 367 startDate endDate).map self.getLiturgicalDayInfo

end LiturgicalCalendar

/-! ## Checks run year by year -/

/-- Check for year `1900 + k`: Easter Sunday as computed is a Sunday between
22 March and 25 April of that year. -/
def easterCheck (k : Nat) : Bool :=
  let E := EasterCalculator.getEasterDate (1900 + (k : Int))
  decide (E.year = 1900 + (k : Int) ∧
    ((E.month = 3 ∧ 22 ≤ E.day ∧ E.day ≤ 31) ∨ (E.month = 4 ∧ 1 ≤ E.day ∧ E.day ≤ 25)) ∧
    E.weekday = 7)


/-! ## The moveable feast table of the specification -/

/-- The table of Easter-relative feasts as the specification words it: the
name of the feast at a signed day offset from Easter, if any. -/
def moveableFeastName (offset : Int) : Option String :=
  if offset = -46 then some "Ash Wednesday"
  else if offset = -7 then some "Palm Sunday"
  else if offset = -3 then some "Holy Thursday"
  else if offset = -2 then some "Good Friday"
  else if offset = -1 then some "Holy Saturday"
  else if offset = 0 then some "Easter Sunday"
  else if offset = 7 then some "Divine Mercy Sunday"
  else if offset = 39 then some "Ascension of the Lord"
  else if offset = 49 then some "Pentecost"
  else none

/-! ## FixedFeastDays -/

/-- A row of the JSON tables read by `FixedFeastDays`; the tables themselves
are not part of the sources and are parameters below. `feast_month` and
`feast_date` are stored as the integers `parseInt` reads from them. -/
structure FeastRow where
  feast_month : Int
  feast_date : Int
  feast_code : String
  feast_ta : Option String
  feast_type : String
deriving DecidableEq, Repr

/-- A record of the map of `FixedFeastDays`; the fields that `getMinimalFeasts`
leaves undefined are optional. -/
structure FixedFeast where
  name : String
  nameLocal : Option String
  rank : Nat
  color : Option String
  type : Option String
  isRegionalFeast : Option Bool
deriving DecidableEq, Repr

/-- The object `feasts`: a record for a month and a day, if any. -/
def FeastMap : Type := Int → Int → Option FixedFeast

/-- The assignment `feasts[month][day] = record`. -/
def FeastMap.set (feasts : FeastMap) (month day : Int) (record : FixedFeast) : FeastMap :=
  fun m d => if m = month ∧ d = day then some record else feasts m d

/-- The empty object `{}`. -/
def FeastMap.empty : FeastMap := fun _ _ => none

namespace FixedFeastDays

/-- `getDefaultColorByRank(rank)`. -/
def getDefaultColorByRank (rank : Nat) : Option String :=
  if rank = 3 ∨ rank = 4 ∨ rank = 5 then some "white" else none

/-- The record that the callback of `processFeastData` stores for a row. -/
def feastRecord (feast : FeastRow) : FixedFeast :=
  let isRegionalFeast := jsStartsWith feast.feast_code "IN "
  let feastName : String :=
    if isRegionalFeast then ⟨feast.feast_code.data.drop 3⟩ else feast.feast_code
  let rankColor : Nat × Option String :=
    if feast.feast_type = "Solemnity" ∨ feast.feast_type = "Solemnity-PrincipalPartron-Place" then
      (4, some "white")
    else if feast.feast_type = "Feast" ∨ feast.feast_type = "Feast-Lord" then (3, some "white")
    else if feast.feast_type = "Mem" ∨ feast.feast_type = "Mem-Mary" then (2, none)
    else if feast.feast_type = "OpMem" then (1, none)
    else (1, none)
  let rank := rankColor.1
  let color : Option String :=
    if jsIncludes (jsToLowerCase feastName) "martyr" then some "red" else rankColor.2
  { name := feastName
    nameLocal := some (match feast.feast_ta with
      | some ta => if ta = "" then "" else ta
      | none => "")
    rank := rank
    color := match color with
      | some c => if c = "" then getDefaultColorByRank rank else some c
      | none => getDefaultColorByRank rank
    type := some feast.feast_type
    isRegionalFeast := some isRegionalFeast }

/-- `processFeastData(feastData, feasts)`: the rows are stored in order. -/
def processFeastData (feastData : List FeastRow) (feasts : FeastMap) : FeastMap :=
  feastData.foldl
    (fun acc feast => acc.set feast.feast_month feast.feast_date (feastRecord feast)) feasts

/-- The helper `addFeast` of `getMinimalFeasts`. -/
def addFeast (feasts : FeastMap) (month day : Int) (name : String) (rank : Nat)
    (color : Option String) : FeastMap :=
  feasts.set month day
    { name := name, nameLocal := none, rank := rank
      color := match color with
        | some c => if c = "" then getDefaultColorByRank rank else some c
        | none => getDefaultColorByRank rank
      type := none, isRegionalFeast := none }

/-- `getMinimalFeasts()`. -/
def getMinimalFeasts (region : String) : FeastMap :=
  let feasts := FeastMap.empty
  let feasts := addFeast feasts 1 1 "Solemnity of Mary, Mother of God" 4 (some "white")
  let feasts := addFeast feasts 3 19 "Solemnity of Saint Joseph" 4 (some "white")
  let feasts := addFeast feasts 3 25 "Annunciation of the Lord" 4 (some "white")
  let feasts := addFeast feasts 6 24 "Birth of Saint John the Baptist" 4 (some "white")
  let feasts := addFeast feasts 6 29 "Saints Peter and Paul" 4 (some "red")
  let feasts := addFeast feasts 8 15 "Assumption of the Blessed Virgin Mary" 4 (some "white")
  let feasts := addFeast feasts 11 1 "All Saints" 4 (some "white")
  let feasts := addFeast feasts 12 8 "Immaculate Conception" 4 (some "white")
  let feasts := addFeast feasts 12 25 "Nativity of the Lord (Christmas)" 5 (some "white")
  if region = "india" then
    let feasts := addFeast feasts 7 3 "Saint Thomas the Apostle" 4 (some "white")
    addFeast feasts 12 3 "Saint Francis Xavier" 4 (some "white")
  else feasts

/-- `initializeFeastDays()`. The two JSON tables are parameters; `none` stands
for a `require` that throws. -/
def initializeFeastDays (region : String) (generalFeastData indiaFeastData : Option (List FeastRow)) :
    FeastMap :=
  match generalFeastData with
  | none => getMinimalFeasts region
  | some general =>
    let feasts := processFeastData general FeastMap.empty
    if region = "india" then
      match indiaFeastData with
      | some india => processFeastData india feasts
      | none => feasts
    else feasts

/-- `getFeast(month, day)` on the map built by the constructor. -/
def getFeast (feastDays : FeastMap) (month day : Int) : Option FixedFeast := feastDays month day

end FixedFeastDays

/-! ## LiturgicalColors -/

namespace LiturgicalColors

/-- `getColor(dt, season, feastDay)`; `feastDay` is `none` for `null`, and an
empty `color` is the falsy one. The parameter `dt` is not read by the source. -/
def getColor (_dt : DateTime) (season : Season) (feastDay : Option ProcessedFeast) : String :=
  let seasonColor :=
    if season.name = "Advent" then "violet"
    else if season.name = "Christmas" then "white"
    else if season.name = "Lent" then "violet"
    else if season.name = "Easter" then "white"
    else if season.name = "Ordinary Time (Pre-Lent)" ∨
        season.name = "Ordinary Time (Post-Pentecost)" ∨
        season.name = "Ordinary Time" then "green"
    else "green"
  match feastDay with
  | some f => if f.color ≠ "" then f.color else seasonColor
  | none => seasonColor

end LiturgicalColors

/-! ## calendarViewController -/

/-- A cell of the calendar grid of `generateMonthData`; `fullDate` is the day
whose `yyyy-MM-dd` string the source stores. -/
structure CalendarCell where
  date : Int
  fullDate : DateTime
  month : Int
  year : Int
  isCurrentMonth : Bool
  liturgicalInfo : LiturgicalDayInfo
deriving DecidableEq, Repr

/-- The object returned by `generateMonthData`. -/
structure MonthData where
  monthName : String
  calendarGrid : List (List CalendarCell)
deriving DecidableEq, Repr

namespace calendarViewController

/-- `toFormat('MMMM')` of a first day of a month: the English month name. -/
def monthLong (month : Int) : String :=
  if month = 1 then "January" else if month = 2 then "February"
  else if month = 3 then "March" else if month = 4 then "April"
  else if month = 5 then "May" else if month = 6 then "June"
  else if month = 7 then "July" else if month = 8 then "August"
  else if month = 9 then "September" else if month = 10 then "October"
  else if month = 11 then "November" else if month = 12 then "December"
  else ""

/-- The inner loop `for (let i = 0; i < 7; i++)` of `generateMonthData`, with
`n` iterations left: the cells pushed and the value of `currentDate` at the end. -/
def weekLoop (calendarInstance : LiturgicalCalendar) (month : Int) :
    Nat → DateTime → List CalendarCell × DateTime
  | 0, currentDate => ([], currentDate)
  | n + 1, currentDate =>
    let date := currentDate
    let liturgicalInfo := calendarInstance.getLiturgicalDayInfo date
    let cell : CalendarCell :=
      { date := date.day
        fullDate := date
        month := date.month
        year := date.year
        isCurrentMonth := decide (date.month = month)
        liturgicalInfo := liturgicalInfo }
    let rest := weekLoop calendarInstance month n (currentDate.plus 1)
    (cell :: rest.1, rest.2)

/-- The outer loop `while (currentDate <= endDate)` of `generateMonthData`,
with at most `fuel` iterations: the rows pushed to `calendarGrid`. -/
def gridLoop (calendarInstance : LiturgicalCalendar) (month : Int) :
    Nat → DateTime → DateTime → List (List CalendarCell)
  | 0, _, _ => []
  | fuel + 1, currentDate, endDate =>
    if currentDate.valueOf ≤ endDate.valueOf then
      let week := weekLoop calendarInstance month 7 currentDate
      week.1 :: gridLoop calendarInstance month fuel week.2 endDate
    else []

/-- `generateMonthData(year, month, calendarInstance)`. The first cell is at
most 7 days before the first day of the month and the last cell at most 5 days
after its last day, so the loop runs at most 7 times. -/
def generateMonthData (year month : Int) (calendarInstance : LiturgicalCalendar) : MonthData :=
  let firstDay := DateTime.local year month 1
  let lastDay := DateTime.local year month (daysInMonth year month)
  let startDate := if firstDay.weekday ≠ 0 then firstDay.minus firstDay.weekday else firstDay
  let endDate := if lastDay.weekday ≠ 6 then lastDay.plus (6 - lastDay.weekday) else lastDay
  { monthName := monthLong month
    calendarGrid := gridLoop calendarInstance month 7 startDate endDate }

end calendarViewController

/-! ## RomanCalendarRanks -/

namespace RomanCalendarRanks

/-- The object `RomanCalendarRanks` of `getRank`, as the list of its keys in
the order of the `for ... in` loop, with the ranks in tenths. -/
def ranks : List (String × Nat) :=
  [ ("EW01-0Sun", 10),
    ("LW06-6Sat", 11),
    ("LW06-5Fri", 11),
    ("LW06-4Thu", 11),
    ("Nativity of the Lord", 20),
    ("Epiphany", 20),
    ("Ascension of the Lord", 20),
    ("Pentecost", 20),
    ("AW", 21),
    ("LW", 21),
    ("EW", 21),
    ("Ash Wednesday", 22),
    ("Holy Monday", 23),
    ("Holy Tuesday", 23),
    ("Holy Wednesday", 23),
    ("Holy Thursday", 23),
    ("Easter Octave", 24),
    ("Solemnity", 31),
    ("All Souls", 32),
    ("Feast-Lord", 50),
    ("OW", 60),
    ("CW", 60),
    ("Feast", 70),
    ("Mem", 102),
    ("OpMem", 120) ]

/-- `RomanCalendarRanks.getRank(dayCode)`: the rank of the first key that the
day code starts with or equals, and 99 when no key matches. -/
def getRank (dayCode : String) : Nat :=
  match ranks.find? (fun entry => jsStartsWith dayCode entry.1 || dayCode == entry.1) with
  | some entry => entry.2
  | none => 990

end RomanCalendarRanks

/-! ## Day numbers -/

theorem DateTime.valueOf_ofDays (n : Int) : (DateTime.ofDays n).valueOf = n := by
  simp only [DateTime.ofDays, DateTime.valueOf]
  omega

theorem DateTime.valueOf_plus (dt : DateTime) (k : Int) :
    (dt.plus k).valueOf = dt.valueOf + k := by
  simp only [DateTime.plus, DateTime.valueOf_ofDays]

theorem DateTime.valueOf_minus (dt : DateTime) (k : Int) :
    (dt.minus k).valueOf = dt.valueOf - k := by
  simp only [DateTime.minus, DateTime.valueOf_ofDays]

theorem DateTime.weekday_bounds (dt : DateTime) : 1 ≤ dt.weekday ∧ dt.weekday ≤ 7 := by
  simp only [DateTime.weekday]
  omega

theorem DateTime.weekday_ne_zero (dt : DateTime) : dt.weekday ≠ 0 := by
  have := dt.weekday_bounds
  omega

theorem floorDiv_eq (a b : Int) (hb : 0 ≤ b) : floorDiv a b = a / b :=
  Int.fdiv_eq_ediv a hb

theorem jsMod_eq (a b : Int) (ha : 0 ≤ a) (hb : 0 ≤ b) : jsMod a b = a % b :=
  Int.tmod_eq_emod ha hb

/-- Day number of a date of January or February from that of 1 January. -/
theorem DateTime.valueOf_janfeb (Y m d : Int) (hm : m = 1 ∨ m = 2) :
    (DateTime.mk Y m d).valueOf = (DateTime.local Y 1 1).valueOf + 31 * (m - 1) + d - 1 := by
  rcases hm with rfl | rfl <;> simp [DateTime.valueOf, DateTime.local] <;> omega

/-- Day number of a date of March..December from that of 1 March. -/
theorem DateTime.valueOf_march (Y m d : Int) (h3 : 3 ≤ m) (h12 : m ≤ 12) :
    (DateTime.mk Y m d).valueOf =
      (DateTime.local Y 3 1).valueOf + (153 * (m - 3) + 2) / 5 + d - 1 := by
  have h1 : ¬ m ≤ 2 := by omega
  have h2 : m > 2 := by omega
  simp [DateTime.valueOf, DateTime.local, h1, h2]
  omega

/-- 1 March is day 59 or 60 of the year. -/
theorem DateTime.valueOf_march1 (Y : Int) :
    (DateTime.local Y 3 1).valueOf = (DateTime.local Y 1 1).valueOf + 59 +
      (if Y % 4 = 0 ∧ (Y % 100 ≠ 0 ∨ Y % 400 = 0) then 1 else 0) := by
  simp [DateTime.valueOf, DateTime.local]
  split_ifs <;> omega

/-- A valid date lies between 1 January and 31 December of its year. -/
theorem DateTime.valueOf_bounds (Y m d : Int) (h : (DateTime.mk Y m d).isValid) :
    (DateTime.local Y 1 1).valueOf ≤ (DateTime.mk Y m d).valueOf ∧
    (DateTime.mk Y m d).valueOf ≤ (DateTime.local Y 12 31).valueOf := by
  have h' : 1 ≤ m ∧ m ≤ 12 ∧ 1 ≤ d ∧ d ≤ daysInMonth Y m := h
  obtain ⟨h1, h2, h3, h4⟩ := h'
  simp only [daysInMonth] at h4
  have hd : d ≤ 31 := by split_ifs at h4 <;> omega
  by_cases hm : m ≤ 2
  · have e1 := DateTime.valueOf_janfeb Y m d (by omega)
    have e2 := DateTime.valueOf_march Y 12 31 (by omega) (by omega)
    have e3 := DateTime.valueOf_march1 Y
    simp only [DateTime.local] at e1 e2 e3 ⊢
    have hm2 : m = 2 → d ≤ 29 := by
      intro hm2
      rw [if_pos hm2] at h4
      split_ifs at h4 <;> omega
    split_ifs at e3 <;> omega
  · have e1 := DateTime.valueOf_march Y m d (by omega) h2
    have e2 := DateTime.valueOf_march Y 12 31 (by omega) (by omega)
    have e3 := DateTime.valueOf_march1 Y
    simp only [DateTime.local] at e1 e2 e3 ⊢
    have hm' : m = 3 ∨ m = 4 ∨ m = 5 ∨ m = 6 ∨ m = 7 ∨ m = 8 ∨ m = 9 ∨ m = 10 ∨ m = 11 ∨ m = 12 := by
      omega
    rcases hm' with rfl | rfl | rfl | rfl | rfl | rfl | rfl | rfl | rfl | rfl <;>
      simp at h4 <;> split_ifs at e3 <;> omega

theorem easterCheck_all : ∀ k, k < 201 → easterCheck k = true := by
  decide!

theorem easter_facts (Y : Int) (h1 : 1900 ≤ Y) (h2 : Y ≤ 2100) :
    (EasterCalculator.getEasterDate Y).year = Y ∧
    (((EasterCalculator.getEasterDate Y).month = 3 ∧ 22 ≤ (EasterCalculator.getEasterDate Y).day ∧
        (EasterCalculator.getEasterDate Y).day ≤ 31) ∨
      ((EasterCalculator.getEasterDate Y).month = 4 ∧ 1 ≤ (EasterCalculator.getEasterDate Y).day ∧
        (EasterCalculator.getEasterDate Y).day ≤ 25)) ∧
    (EasterCalculator.getEasterDate Y).weekday = 7 := by
  obtain ⟨k, hk⟩ : ∃ k : Nat, Y = 1900 + (k : Int) := ⟨(Y - 1900).toNat, by omega⟩
  have hk201 : k < 201 := by omega
  have := easterCheck_all k hk201
  simp only [easterCheck, decide_eq_true_eq] at this
  rw [hk]
  exact this

/-! ## The week number of a season code -/

theorem padStart2_data (w : Nat) (hw : w < 100) :
    (padStart2 (jsNumToString (w : Int))).data
      = [Nat.digitChar (w / 10), Nat.digitChar (w % 10)] := by
  revert w
  decide!

theorem digitChar_isDigit (k : Nat) (hk : k < 10) : (Nat.digitChar k).isDigit = true := by
  revert k
  decide

theorem digitChar_toNat (k : Nat) (hk : k < 10) : (((Nat.digitChar k).toNat : Nat) : Int) - 48 = k := by
  revert k
  decide

theorem matchWeekDigits_two (c a b : Char) (rest : List Char) (hc : c ≠ 'W')
    (ha : a.isDigit = true) (hb : b.isDigit = true) :
    matchWeekDigits (c :: 'W' :: a :: b :: '-' :: rest) = some [a, b] := by
  have h1 : ('-' : Char).isDigit = false := by decide
  simp [matchWeekDigits, takeDigits, hc, ha, hb, h1]

/-- The regular expression `/W(\d+)/` finds the week number written into a
season code, for week numbers 0..99 and two season letters ending in `W`. -/
theorem matchWeekDigits_seasonCodeOf (c : Char) (hc : c ≠ 'W') (w weekday : Int)
    (h0 : 0 ≤ w) (h99 : w ≤ 99) :
    ∃ ds, matchWeekDigits (LiturgicalDataParser.seasonCodeOf ⟨[c, 'W']⟩ w weekday).data = some ds ∧
      parseDigits ds = w := by
  obtain ⟨n, rfl⟩ : ∃ n : Nat, w = (n : Int) := ⟨w.toNat, by omega⟩
  have hn : n < 100 := by omega
  refine ⟨[Nat.digitChar (n / 10), Nat.digitChar (n % 10)], ?_, ?_⟩
  · simp only [LiturgicalDataParser.seasonCodeOf, String.data_append, padStart2_data n hn]
    have := matchWeekDigits_two c (Nat.digitChar (n / 10)) (Nat.digitChar (n % 10))
      ((jsNumToString weekday).data ++ (LiturgicalDataParser.getDayAbbreviation weekday).data) hc
      (digitChar_isDigit _ (by omega)) (digitChar_isDigit _ (by omega))
    simpa using this
  · have h1 := digitChar_toNat (n / 10) (by omega)
    have h2 := digitChar_toNat (n % 10) (by omega)
    simp only [parseDigits, List.foldl]
    omega

/-! ## Anchor dates of a year -/

open LiturgicalDataParser in
/-- Baptism of the Lord as computed by the parser: 6..12 January. -/
theorem baptismOfLord_bounds (Y : Int) :
    (DateTime.local Y 1 1).valueOf + 5 ≤ (baptismOfLord Y).valueOf ∧
    (baptismOfLord Y).valueOf ≤ (DateTime.local Y 1 1).valueOf + 11 := by
  have hw := (epiphany Y).weekday_bounds
  have he : (epiphany Y).valueOf = (DateTime.local Y 1 1).valueOf + 5 := by
    have := DateTime.valueOf_janfeb Y 1 6 (Or.inl rfl)
    simp only [epiphany, DateTime.local] at this ⊢
    omega
  unfold baptismOfLord
  split_ifs <;> simp only [DateTime.valueOf_plus] <;> omega

/-- Day numbers of 25 and 31 December from that of 1 January. -/
theorem december_valueOf (Y : Int) :
    ((DateTime.local Y 12 25).valueOf = (DateTime.local Y 1 1).valueOf + 358 ∧
      (DateTime.local Y 12 31).valueOf = (DateTime.local Y 1 1).valueOf + 364) ∨
    ((DateTime.local Y 12 25).valueOf = (DateTime.local Y 1 1).valueOf + 359 ∧
      (DateTime.local Y 12 31).valueOf = (DateTime.local Y 1 1).valueOf + 365) := by
  have e1 := DateTime.valueOf_march Y 12 25 (by omega) (by omega)
  have e2 := DateTime.valueOf_march Y 12 31 (by omega) (by omega)
  have e3 := DateTime.valueOf_march1 Y
  simp only [DateTime.local] at e1 e2 e3 ⊢
  split_ifs at e3 <;> omega

open LiturgicalDataParser in
/-- The Advent start of the parser lies 21..27 days before Christmas. -/
theorem firstSundayOfAdvent_bounds (Y : Int) :
    (christmas Y).valueOf - 27 ≤ (firstSundayOfAdvent Y).valueOf ∧
    (firstSundayOfAdvent Y).valueOf ≤ (christmas Y).valueOf - 21 := by
  have hw := (christmas Y).weekday_bounds
  have hd : daysUntilSunday Y = (7 - (christmas Y).weekday) % 7 := by
    unfold daysUntilSunday
    exact jsMod_eq _ _ (by omega) (by omega)
  simp only [firstSundayOfAdvent, fourthSundayOfAdvent, DateTime.valueOf_minus, hd]
  omega

/-- Easter of a year in 1900..2100 is day 80..115 after 1 January. -/
theorem easter_valueOf_bounds (Y : Int) (h1 : 1900 ≤ Y) (h2 : Y ≤ 2100) :
    (DateTime.local Y 1 1).valueOf + 80 ≤ (EasterCalculator.getEasterDate Y).valueOf ∧
    (EasterCalculator.getEasterDate Y).valueOf ≤ (DateTime.local Y 1 1).valueOf + 115 := by
  obtain ⟨hy, hmd, _⟩ := easter_facts Y h1 h2
  generalize EasterCalculator.getEasterDate Y = E at hy hmd ⊢
  obtain ⟨y, m, d⟩ := E
  simp only at hy hmd
  subst hy
  have e1 := DateTime.valueOf_march y m d (by omega) (by omega)
  have e3 := DateTime.valueOf_march1 y
  simp only [DateTime.local] at e1 e3 ⊢
  rcases hmd with ⟨rfl, h3, h4⟩ | ⟨rfl, h3, h4⟩ <;> simp at e1 <;> split_ifs at e3 <;> omega

/-! ## The season of a date -/

/-- When a branch of the season chain applies with a week number 0..99,
`getLiturgicalSeasonInfo` returns its season, with that week number. -/
theorem getLiturgicalSeasonInfo_of_branch (date easterDate : DateTime) (name color : String)
    (c : Char) (w weekday : Int) (hc : c ≠ 'W') (h0 : 0 ≤ w) (h99 : w ≤ 99)
    (hb : LiturgicalDataParser.seasonBranch date easterDate
      = some (name, LiturgicalDataParser.seasonCodeOf ⟨[c, 'W']⟩ w weekday, color)) :
    LiturgicalDataParser.getLiturgicalSeasonInfo date easterDate =
      some { name := name
             abbreviation := jsToUpperCase (jsSubstring0 name 2)
             seasonCode := LiturgicalDataParser.seasonCodeOf ⟨[c, 'W']⟩ w weekday
             color := color
             week := w } := by
  obtain ⟨ds, hds, hp⟩ := matchWeekDigits_seasonCodeOf c hc w weekday h0 h99
  unfold LiturgicalDataParser.getLiturgicalSeasonInfo
  rw [hb]
  simp only []
  rw [hds]
  simp only [hp]

theorem count_true_eq_one (p1 p2 p3 p4 p5 p6 : Prop) [Decidable p1] [Decidable p2]
    [Decidable p3] [Decidable p4] [Decidable p5] [Decidable p6]
    (h : (p1 ∧ ¬p2 ∧ ¬p3 ∧ ¬p4 ∧ ¬p5 ∧ ¬p6) ∨ (¬p1 ∧ p2 ∧ ¬p3 ∧ ¬p4 ∧ ¬p5 ∧ ¬p6) ∨
      (¬p1 ∧ ¬p2 ∧ p3 ∧ ¬p4 ∧ ¬p5 ∧ ¬p6) ∨ (¬p1 ∧ ¬p2 ∧ ¬p3 ∧ p4 ∧ ¬p5 ∧ ¬p6) ∨
      (¬p1 ∧ ¬p2 ∧ ¬p3 ∧ ¬p4 ∧ p5 ∧ ¬p6) ∨ (¬p1 ∧ ¬p2 ∧ ¬p3 ∧ ¬p4 ∧ ¬p5 ∧ p6)) :
    [decide p1, decide p2, decide p3, decide p4, decide p5, decide p6].count true = 1 := by
  rcases h with h | h | h | h | h | h <;> obtain ⟨a1, a2, a3, a4, a5, a6⟩ := h <;>
    simp [a1, a2, a3, a4, a5, a6]

namespace LiturgicalDataParser

theorem seasonBranch_ordinaryBeforeLent (date easterDate : DateTime)
    (h : isOrdinaryTimeBeforeLent date easterDate) :
    seasonBranch date easterDate = some ("Ordinary Time",
      seasonCodeOf ⟨['O', 'W']⟩ (date.diffWeeksFloor (baptismOfLord date.year) + 1) date.weekday,
      "green") := by
  simp only [seasonBranch, if_pos h]

theorem seasonBranch_lent (date easterDate : DateTime)
    (h1 : ¬ isOrdinaryTimeBeforeLent date easterDate) (h : isLent date easterDate) :
    seasonBranch date easterDate = some ("Lent",
      seasonCodeOf ⟨['L', 'W']⟩ (date.diffWeeksFloor (ashWednesday easterDate)) date.weekday,
      if date.weekday = 0 ∧ date.diffWeeksFloor (ashWednesday easterDate) = 3
        then "rose" else "purple") := by
  simp only [seasonBranch, if_pos h, if_neg h1]

theorem seasonBranch_easter (date easterDate : DateTime)
    (h1 : ¬ isOrdinaryTimeBeforeLent date easterDate) (h2 : ¬ isLent date easterDate)
    (h : isEaster date easterDate) :
    seasonBranch date easterDate = some ("Easter",
      seasonCodeOf ⟨['E', 'W']⟩ (date.diffWeeksFloor easterDate + 1) date.weekday, "white") := by
  simp only [seasonBranch, if_pos h, if_neg h1, if_neg h2]

theorem seasonBranch_ordinaryAfterPentecost (date easterDate : DateTime)
    (h1 : ¬ isOrdinaryTimeBeforeLent date easterDate) (h2 : ¬ isLent date easterDate)
    (h3 : ¬ isEaster date easterDate) (h : isOrdinaryTimeAfterPentecost date easterDate) :
    seasonBranch date easterDate = some ("Ordinary Time",
      seasonCodeOf ⟨['O', 'W']⟩ (date.diffWeeksFloor (pentecost easterDate) + 10) date.weekday,
      "green") := by
  simp only [seasonBranch, if_pos h, if_neg h1, if_neg h2, if_neg h3]

theorem seasonBranch_advent (date easterDate : DateTime)
    (h1 : ¬ isOrdinaryTimeBeforeLent date easterDate) (h2 : ¬ isLent date easterDate)
    (h3 : ¬ isEaster date easterDate) (h4 : ¬ isOrdinaryTimeAfterPentecost date easterDate)
    (h : isAdvent date) :
    seasonBranch date easterDate = some ("Advent",
      seasonCodeOf ⟨['A', 'W']⟩ (date.diffWeeksFloor (firstSundayOfAdvent date.year) + 1)
        date.weekday,
      if date.weekday = 0 ∧ date.diffWeeksFloor (firstSundayOfAdvent date.year) + 1 = 3
        then "rose" else "purple") := by
  simp only [seasonBranch, if_pos h, if_neg h1, if_neg h2, if_neg h3, if_neg h4]

theorem seasonBranch_christmas (date easterDate : DateTime)
    (h1 : ¬ isOrdinaryTimeBeforeLent date easterDate) (h2 : ¬ isLent date easterDate)
    (h3 : ¬ isEaster date easterDate) (h4 : ¬ isOrdinaryTimeAfterPentecost date easterDate)
    (h5 : ¬ isAdvent date) (h : isChristmas date) :
    seasonBranch date easterDate = some ("Christmas",
      seasonCodeOf ⟨['C', 'W']⟩ (if date.month = 12 then 1 else 2) date.weekday, "white") := by
  simp only [seasonBranch, if_pos h, if_neg h1, if_neg h2, if_neg h3, if_neg h4, if_neg h5]

end LiturgicalDataParser

open LiturgicalDataParser EasterCalculator in
/-- The position of a date of a year in 1900..2100 among the anchors of the
season chain: exactly one branch condition holds. -/
theorem season_conditions_exactly_one (Y m d : Int) (h1 : 1900 ≤ Y) (h2 : Y ≤ 2100)
    (hv : (DateTime.mk Y m d).isValid) :
    (isOrdinaryTimeBeforeLent ⟨Y, m, d⟩ (getEasterDate Y) ∧ ¬ isLent ⟨Y, m, d⟩ (getEasterDate Y) ∧
      ¬ isEaster ⟨Y, m, d⟩ (getEasterDate Y) ∧
      ¬ isOrdinaryTimeAfterPentecost ⟨Y, m, d⟩ (getEasterDate Y) ∧
      ¬ isAdvent ⟨Y, m, d⟩ ∧ ¬ isChristmas ⟨Y, m, d⟩) ∨
    (¬ isOrdinaryTimeBeforeLent ⟨Y, m, d⟩ (getEasterDate Y) ∧ isLent ⟨Y, m, d⟩ (getEasterDate Y) ∧
      ¬ isEaster ⟨Y, m, d⟩ (getEasterDate Y) ∧
      ¬ isOrdinaryTimeAfterPentecost ⟨Y, m, d⟩ (getEasterDate Y) ∧
      ¬ isAdvent ⟨Y, m, d⟩ ∧ ¬ isChristmas ⟨Y, m, d⟩) ∨
    (¬ isOrdinaryTimeBeforeLent ⟨Y, m, d⟩ (getEasterDate Y) ∧ ¬ isLent ⟨Y, m, d⟩ (getEasterDate Y) ∧
      isEaster ⟨Y, m, d⟩ (getEasterDate Y) ∧
      ¬ isOrdinaryTimeAfterPentecost ⟨Y, m, d⟩ (getEasterDate Y) ∧
      ¬ isAdvent ⟨Y, m, d⟩ ∧ ¬ isChristmas ⟨Y, m, d⟩) ∨
    (¬ isOrdinaryTimeBeforeLent ⟨Y, m, d⟩ (getEasterDate Y) ∧ ¬ isLent ⟨Y, m, d⟩ (getEasterDate Y) ∧
      ¬ isEaster ⟨Y, m, d⟩ (getEasterDate Y) ∧
      isOrdinaryTimeAfterPentecost ⟨Y, m, d⟩ (getEasterDate Y) ∧
      ¬ isAdvent ⟨Y, m, d⟩ ∧ ¬ isChristmas ⟨Y, m, d⟩) ∨
    (¬ isOrdinaryTimeBeforeLent ⟨Y, m, d⟩ (getEasterDate Y) ∧ ¬ isLent ⟨Y, m, d⟩ (getEasterDate Y) ∧
      ¬ isEaster ⟨Y, m, d⟩ (getEasterDate Y) ∧
      ¬ isOrdinaryTimeAfterPentecost ⟨Y, m, d⟩ (getEasterDate Y) ∧
      isAdvent ⟨Y, m, d⟩ ∧ ¬ isChristmas ⟨Y, m, d⟩) ∨
    (¬ isOrdinaryTimeBeforeLent ⟨Y, m, d⟩ (getEasterDate Y) ∧ ¬ isLent ⟨Y, m, d⟩ (getEasterDate Y) ∧
      ¬ isEaster ⟨Y, m, d⟩ (getEasterDate Y) ∧
      ¬ isOrdinaryTimeAfterPentecost ⟨Y, m, d⟩ (getEasterDate Y) ∧
      ¬ isAdvent ⟨Y, m, d⟩ ∧ isChristmas ⟨Y, m, d⟩) := by
  have hb := baptismOfLord_bounds Y
  have hdec := december_valueOf Y
  have hadv := firstSundayOfAdvent_bounds Y
  have hE := easter_valueOf_bounds Y h1 h2
  have hvb := DateTime.valueOf_bounds Y m d hv
  simp only [isOrdinaryTimeBeforeLent, isLent, isEaster, isOrdinaryTimeAfterPentecost,
    isAdvent, isChristmas, ashWednesday, pentecost, DateTime.valueOf_minus,
    DateTime.valueOf_plus]
  simp only [christmas] at hadv ⊢
  generalize (DateTime.local Y 1 1).valueOf = J at *
  generalize (baptismOfLord Y).valueOf = B at *
  generalize (getEasterDate Y).valueOf = E at *
  generalize (firstSundayOfAdvent Y).valueOf = A at *
  generalize (DateTime.local Y 12 25).valueOf = X at *
  generalize (DateTime.local Y 12 31).valueOf = Z at *
  generalize (DateTime.mk Y m d).valueOf = v at *
  have hreg : v < B ∨ (B ≤ v ∧ v < E - 46) ∨ (E - 46 ≤ v ∧ v < E) ∨ (E ≤ v ∧ v < E + 49) ∨
      (E + 49 ≤ v ∧ v < A) ∨ (A ≤ v ∧ v < X) ∨ X ≤ v := by omega
  rcases hreg with r | r | r | r | r | r | r
  · refine Or.inr (Or.inr (Or.inr (Or.inr (Or.inr ⟨?_, ?_, ?_, ?_, ?_, ?_⟩)))) <;> omega
  · refine Or.inl ⟨?_, ?_, ?_, ?_, ?_, ?_⟩ <;> omega
  · refine Or.inr (Or.inl ⟨?_, ?_, ?_, ?_, ?_, ?_⟩) <;> omega
  · refine Or.inr (Or.inr (Or.inl ⟨?_, ?_, ?_, ?_, ?_, ?_⟩)) <;> omega
  · refine Or.inr (Or.inr (Or.inr (Or.inl ⟨?_, ?_, ?_, ?_, ?_, ?_⟩))) <;> omega
  · refine Or.inr (Or.inr (Or.inr (Or.inr (Or.inl ⟨?_, ?_, ?_, ?_, ?_, ?_⟩)))) <;> omega
  · refine Or.inr (Or.inr (Or.inr (Or.inr (Or.inr ⟨?_, ?_, ?_, ?_, ?_, ?_⟩)))) <;> omega

theorem DateTime.diffWeeksFloor_eq (a b : DateTime) :
    a.diffWeeksFloor b = (a.valueOf - b.valueOf) / 7 :=
  floorDiv_eq _ 7 (by omega)

open LiturgicalDataParser EasterCalculator in
/-- The week numbers written by the season chain stay within 0..99 for the
dates of a year in 1900..2100. -/
theorem season_week_bounds (Y m d : Int) (h1 : 1900 ≤ Y) (h2 : Y ≤ 2100)
    (hv : (DateTime.mk Y m d).isValid) :
    (isOrdinaryTimeBeforeLent ⟨Y, m, d⟩ (getEasterDate Y) →
      0 ≤ (DateTime.mk Y m d).diffWeeksFloor (baptismOfLord Y) + 1 ∧
      (DateTime.mk Y m d).diffWeeksFloor (baptismOfLord Y) + 1 ≤ 99) ∧
    (isLent ⟨Y, m, d⟩ (getEasterDate Y) →
      0 ≤ (DateTime.mk Y m d).diffWeeksFloor (ashWednesday (getEasterDate Y)) ∧
      (DateTime.mk Y m d).diffWeeksFloor (ashWednesday (getEasterDate Y)) ≤ 99) ∧
    (isEaster ⟨Y, m, d⟩ (getEasterDate Y) →
      0 ≤ (DateTime.mk Y m d).diffWeeksFloor (getEasterDate Y) + 1 ∧
      (DateTime.mk Y m d).diffWeeksFloor (getEasterDate Y) + 1 ≤ 99) ∧
    (isOrdinaryTimeAfterPentecost ⟨Y, m, d⟩ (getEasterDate Y) →
      0 ≤ (DateTime.mk Y m d).diffWeeksFloor (pentecost (getEasterDate Y)) + 10 ∧
      (DateTime.mk Y m d).diffWeeksFloor (pentecost (getEasterDate Y)) + 10 ≤ 99) ∧
    (isAdvent ⟨Y, m, d⟩ →
      0 ≤ (DateTime.mk Y m d).diffWeeksFloor (firstSundayOfAdvent Y) + 1 ∧
      (DateTime.mk Y m d).diffWeeksFloor (firstSundayOfAdvent Y) + 1 ≤ 99) := by
  have hb := baptismOfLord_bounds Y
  have hdec := december_valueOf Y
  have hadv := firstSundayOfAdvent_bounds Y
  have hE := easter_valueOf_bounds Y h1 h2
  have hvb := DateTime.valueOf_bounds Y m d hv
  simp only [isOrdinaryTimeBeforeLent, isLent, isEaster, isOrdinaryTimeAfterPentecost,
    isAdvent, ashWednesday, pentecost, DateTime.valueOf_minus,
    DateTime.valueOf_plus, DateTime.diffWeeksFloor_eq]
  simp only [christmas] at hadv ⊢
  generalize (DateTime.local Y 1 1).valueOf = J at *
  generalize (baptismOfLord Y).valueOf = B at *
  generalize (getEasterDate Y).valueOf = E at *
  generalize (firstSundayOfAdvent Y).valueOf = A at *
  generalize (DateTime.local Y 12 25).valueOf = X at *
  generalize (DateTime.local Y 12 31).valueOf = Z at *
  generalize (DateTime.mk Y m d).valueOf = v at *
  refine ⟨?_, ?_, ?_, ?_, ?_⟩ <;> intro h <;> omega

open LiturgicalDataParser EasterCalculator in
/-- For a calendar date of a year in 1900..2100 the season chain returns a
season, named by one of the five season names. -/
theorem getLiturgicalSeasonInfo_defined (Y m d : Int) (h1 : 1900 ≤ Y) (h2 : Y ≤ 2100)
    (hv : (DateTime.mk Y m d).isValid) :
    ∃ info, getLiturgicalSeasonInfo ⟨Y, m, d⟩ (getEasterDate Y) = some info ∧
      info.name ∈ ["Ordinary Time", "Lent", "Easter", "Advent", "Christmas"] := by
  have hex := season_conditions_exactly_one Y m d h1 h2 hv
  obtain ⟨w1, w2, w3, w4, w5⟩ := season_week_bounds Y m d h1 h2 hv
  rcases hex with h | h | h | h | h | h <;> obtain ⟨a1, a2, a3, a4, a5, a6⟩ := h
  · exact ⟨_, getLiturgicalSeasonInfo_of_branch _ _ _ _ 'O' _ _ (by decide) (w1 a1).1 (w1 a1).2
      (seasonBranch_ordinaryBeforeLent _ _ a1), by simp⟩
  · exact ⟨_, getLiturgicalSeasonInfo_of_branch _ _ _ _ 'L' _ _ (by decide) (w2 a2).1 (w2 a2).2
      (seasonBranch_lent _ _ a1 a2), by simp⟩
  · exact ⟨_, getLiturgicalSeasonInfo_of_branch _ _ _ _ 'E' _ _ (by decide) (w3 a3).1 (w3 a3).2
      (seasonBranch_easter _ _ a1 a2 a3), by simp⟩
  · exact ⟨_, getLiturgicalSeasonInfo_of_branch _ _ _ _ 'O' _ _ (by decide) (w4 a4).1 (w4 a4).2
      (seasonBranch_ordinaryAfterPentecost _ _ a1 a2 a3 a4), by simp⟩
  · exact ⟨_, getLiturgicalSeasonInfo_of_branch _ _ _ _ 'A' _ _ (by decide) (w5 a5).1 (w5 a5).2
      (seasonBranch_advent _ _ a1 a2 a3 a4 a5), by simp⟩
  · exact ⟨_, getLiturgicalSeasonInfo_of_branch _ _ _ _ 'C' _ _ (by decide)
      (by split_ifs <;> omega) (by split_ifs <;> omega)
      (seasonBranch_christmas _ _ a1 a2 a3 a4 a5 a6), by simp⟩

open LiturgicalDataParser EasterCalculator in
/-- C2: for every calendar date of every year in 1900..2100 exactly one of the
six branch conditions of `getLiturgicalSeasonInfo` holds, and the function
returns a season: its name and its season code are defined. -/
theorem getLiturgicalSeasonInfo_exhaustive (Y m d : Int) (h1 : 1900 ≤ Y) (h2 : Y ≤ 2100)
    (hv : (DateTime.mk Y m d).isValid) :
    [decide (isOrdinaryTimeBeforeLent ⟨Y, m, d⟩ (getEasterDate Y)),
      decide (isLent ⟨Y, m, d⟩ (getEasterDate Y)),
      decide (isEaster ⟨Y, m, d⟩ (getEasterDate Y)),
      decide (isOrdinaryTimeAfterPentecost ⟨Y, m, d⟩ (getEasterDate Y)),
      decide (isAdvent ⟨Y, m, d⟩),
      decide (isChristmas ⟨Y, m, d⟩)].count true = 1 ∧
    ∃ info, getLiturgicalSeasonInfo ⟨Y, m, d⟩ (getEasterDate Y) = some info ∧
      info.name ∈ ["Ordinary Time", "Lent", "Easter", "Advent", "Christmas"] :=
  ⟨count_true_eq_one _ _ _ _ _ _ (season_conditions_exactly_one Y m d h1 h2 hv),
    getLiturgicalSeasonInfo_defined Y m d h1 h2 hv⟩

/-! ## Season windows -/

open LiturgicalCalendar in
/-- Baptism of the Lord as computed by the calendar: 6..12 January. -/
theorem getBaptismOfLord_bounds (Y : Int) :
    (DateTime.local Y 1 1).valueOf + 5 ≤ (getBaptismOfLord Y).valueOf ∧
    (getBaptismOfLord Y).valueOf ≤ (DateTime.local Y 1 1).valueOf + 11 := by
  have hw := (DateTime.local Y 1 6).weekday_bounds
  have he : (DateTime.local Y 1 6).valueOf = (DateTime.local Y 1 1).valueOf + 5 := by
    have := DateTime.valueOf_janfeb Y 1 6 (Or.inl rfl)
    simp only [DateTime.local] at this ⊢
    omega
  unfold getBaptismOfLord
  simp only []
  split_ifs <;> simp only [DateTime.valueOf_plus] <;> omega

/-- Day number of 30 November from that of 25 December. -/
theorem november30_valueOf (Y : Int) :
    (DateTime.local Y 11 30).valueOf = (DateTime.local Y 12 25).valueOf - 25 := by
  have e1 := DateTime.valueOf_march Y 12 25 (by omega) (by omega)
  have e2 := DateTime.valueOf_march Y 11 30 (by omega) (by omega)
  simp only [DateTime.local] at e1 e2 ⊢
  omega

/-- Day number of 25 December of the preceding year. -/
theorem previous_christmas_valueOf (Y : Int) :
    (DateTime.local (Y - 1) 12 25).valueOf = (DateTime.local Y 1 1).valueOf - 7 := by
  simp [DateTime.valueOf, DateTime.local]
  omega

open LiturgicalCalendar in
/-- The Advent start of the calendar lies 1..7 days before 30 November. -/
theorem getFirstSundayOfAdvent_bounds (Y : Int) :
    (DateTime.local Y 12 25).valueOf - 32 ≤ (getFirstSundayOfAdvent Y).valueOf ∧
    (getFirstSundayOfAdvent Y).valueOf ≤ (DateTime.local Y 12 25).valueOf - 26 := by
  have hw := (DateTime.local Y 11 30).weekday_bounds
  have hn := november30_valueOf Y
  unfold getFirstSundayOfAdvent
  simp only []
  split_ifs <;> (try simp only [DateTime.valueOf_minus]) <;> omega

theorem countP_seven_eq_one {α : Type} (p : α → Bool) (a1 a2 a3 a4 a5 a6 a7 : α)
    (h : (p a1 = true ∧ p a2 = false ∧ p a3 = false ∧ p a4 = false ∧ p a5 = false ∧
        p a6 = false ∧ p a7 = false) ∨
      (p a1 = false ∧ p a2 = true ∧ p a3 = false ∧ p a4 = false ∧ p a5 = false ∧
        p a6 = false ∧ p a7 = false) ∨
      (p a1 = false ∧ p a2 = false ∧ p a3 = true ∧ p a4 = false ∧ p a5 = false ∧
        p a6 = false ∧ p a7 = false) ∨
      (p a1 = false ∧ p a2 = false ∧ p a3 = false ∧ p a4 = true ∧ p a5 = false ∧
        p a6 = false ∧ p a7 = false) ∨
      (p a1 = false ∧ p a2 = false ∧ p a3 = false ∧ p a4 = false ∧ p a5 = true ∧
        p a6 = false ∧ p a7 = false) ∨
      (p a1 = false ∧ p a2 = false ∧ p a3 = false ∧ p a4 = false ∧ p a5 = false ∧
        p a6 = true ∧ p a7 = false) ∨
      (p a1 = false ∧ p a2 = false ∧ p a3 = false ∧ p a4 = false ∧ p a5 = false ∧
        p a6 = false ∧ p a7 = true)) :
    [a1, a2, a3, a4, a5, a6, a7].countP p = 1 := by
  rcases h with h | h | h | h | h | h | h <;> obtain ⟨b1, b2, b3, b4, b5, b6, b7⟩ := h <;>
    simp [List.countP_cons, b1, b2, b3, b4, b5, b6, b7]

open LiturgicalCalendar EasterCalculator in
/-- C3: for every year in 1900..2100 every date of the civil year lies in
exactly one of the season windows of `getLiturgicalSeasons`. -/
theorem getLiturgicalSeasons_partition (Y m d : Int) (h1 : 1900 ≤ Y) (h2 : Y ≤ 2100)
    (hv : (DateTime.mk Y m d).isValid) :
    (getLiturgicalSeasons Y).countP (fun w => w.contains ⟨Y, m, d⟩) = 1 := by
  have hb := getBaptismOfLord_bounds Y
  have hdec := december_valueOf Y
  have hadv := getFirstSundayOfAdvent_bounds Y
  have hE := easter_valueOf_bounds Y h1 h2
  have hvb := DateTime.valueOf_bounds Y m d hv
  have hprev := previous_christmas_valueOf Y
  unfold getLiturgicalSeasons
  simp only []
  apply countP_seven_eq_one
  simp only [SeasonWindow.contains, DateTime.valueOf_minus, DateTime.valueOf_plus,
    decide_eq_true_eq, decide_eq_false_iff_not]
  generalize (DateTime.local Y 1 1).valueOf = J at *
  generalize (getBaptismOfLord Y).valueOf = B at *
  generalize (getEasterDate Y).valueOf = E at *
  generalize (getFirstSundayOfAdvent Y).valueOf = A at *
  generalize (DateTime.local Y 12 25).valueOf = X at *
  generalize (DateTime.local Y 12 31).valueOf = Z at *
  generalize (DateTime.local (Y - 1) 12 25).valueOf = P at *
  generalize (DateTime.mk Y m d).valueOf = v at *
  have hreg : v < B ∨ (B ≤ v ∧ v < E - 46) ∨ (E - 46 ≤ v ∧ v < E) ∨ (E ≤ v ∧ v ≤ E + 49) ∨
      (E + 49 < v ∧ v < A) ∨ (A ≤ v ∧ v < X) ∨ X ≤ v := by omega
  rcases hreg with r | r | r | r | r | r | r
  · refine Or.inl ⟨?_, ?_, ?_, ?_, ?_, ?_, ?_⟩ <;> omega
  · refine Or.inr (Or.inl ⟨?_, ?_, ?_, ?_, ?_, ?_, ?_⟩) <;> omega
  · refine Or.inr (Or.inr (Or.inl ⟨?_, ?_, ?_, ?_, ?_, ?_, ?_⟩)) <;> omega
  · refine Or.inr (Or.inr (Or.inr (Or.inl ⟨?_, ?_, ?_, ?_, ?_, ?_, ?_⟩))) <;> omega
  · refine Or.inr (Or.inr (Or.inr (Or.inr (Or.inl ⟨?_, ?_, ?_, ?_, ?_, ?_, ?_⟩)))) <;> omega
  · refine Or.inr (Or.inr (Or.inr (Or.inr (Or.inr (Or.inl ⟨?_, ?_, ?_, ?_, ?_, ?_, ?_⟩))))) <;>
      omega
  · refine Or.inr (Or.inr (Or.inr (Or.inr (Or.inr (Or.inr ⟨?_, ?_, ?_, ?_, ?_, ?_, ?_⟩))))) <;>
      omega

/-! ## Ranks of the candidates of a day -/

namespace LiturgicalDataParser

theorem getRankFromType_values (type : String) :
    getRankFromType type = 31 ∨ getRankFromType type = 70 ∨
    getRankFromType type = 102 ∨ getRankFromType type = 120 := by
  unfold getRankFromType
  split_ifs <;> simp

/-- A feast found in a table comes from a row of the table for that month and day. -/
theorem lookupFeast_some (table : List FeastRecord) (month day : Int) (f : FeastInfo)
    (h : lookupFeast table month day = some f) :
    ∃ r ∈ table, r.feast_month = month ∧ r.feast_date = day ∧
      f = { code := r.feast_code
            rank := getRankFromType r.feast_type
            type := some r.feast_type
            color := getColorFromType r.feast_type r.feast_code } := by
  induction table with
  | nil => simp [lookupFeast] at h
  | cons r rest ih =>
    unfold lookupFeast at h
    split_ifs at h with hc
    · refine ⟨r, List.mem_cons_self _ _, hc.1, hc.2, ?_⟩
      exact (Option.some.inj h).symm
    · obtain ⟨r', hr', hrest⟩ := ih h
      exact ⟨r', List.mem_cons_of_mem _ hr', hrest⟩

theorem lookupFeast_rank (table : List FeastRecord) (month day : Int) (f : FeastInfo)
    (h : lookupFeast table month day = some f) : 31 ≤ f.rank ∧ f.rank ≤ 120 := by
  obtain ⟨r, _, _, _, rfl⟩ := lookupFeast_some table month day f h
  have := getRankFromType_values r.feast_type
  simp only
  omega

/-- The moveable feasts rank at most 3.1, except Divine Mercy Sunday (rank 5)
on the seventh day after Easter. -/
theorem getEasterRelatedFeast_rank (date easterDate : DateTime) (f : FeastInfo)
    (h : getEasterRelatedFeast date easterDate = some f) :
    f.rank ≤ 31 ∨ (f.rank = 50 ∧ date = easterDate.plus 7) := by
  unfold getEasterRelatedFeast at h
  split_ifs at h with c1 c2 c3 c4 c5 c6 c7 c8 c9 <;>
    first
    | (have h' := (Option.some.inj h).symm; subst h'; simp; done)
    | (have h' := (Option.some.inj h).symm; subst h'; exact Or.inr ⟨rfl, c7⟩)

end LiturgicalDataParser

namespace LiturgicalDataParser

/-- Every row of the two tables that ranks as a solemnity lies before
26 March or after May. -/
theorem solemnity_rows :
    ∀ r ∈ loadFixedFeasts ++ loadIndiaFeasts, getRankFromType r.feast_type < 50 →
      (r.feast_month ≤ 3 ∧ r.feast_date ≤ 25) ∨ 6 ≤ r.feast_month := by
  decide!

/-- Every row of the tables has a month 1..12 and a day 1..31. -/
theorem rows_valid :
    ∀ r ∈ loadFixedFeasts ++ loadIndiaFeasts,
      1 ≤ r.feast_month ∧ r.feast_month ≤ 12 ∧ 1 ≤ r.feast_date ∧ r.feast_date ≤ 31 := by
  decide!

/-- On a slot of both tables the India row ranks at least as high as the general row. -/
theorem india_rows_rank :
    ∀ r ∈ loadIndiaFeasts, ∀ s ∈ loadFixedFeasts,
      r.feast_month = s.feast_month → r.feast_date = s.feast_date →
      getRankFromType r.feast_type ≤ getRankFromType s.feast_type := by
  decide!

end LiturgicalDataParser

/-- The seventh day after Easter cannot be a day before 26 March or after May. -/
theorem divine_mercy_slot (Y m d : Int) (h1 : 1900 ≤ Y) (h2 : Y ≤ 2100)
    (hm : 1 ≤ m ∧ m ≤ 12 ∧ 1 ≤ d ∧ d ≤ 31)
    (hs : (m ≤ 3 ∧ d ≤ 25) ∨ 6 ≤ m) :
    DateTime.mk Y m d ≠ (EasterCalculator.getEasterDate Y).plus 7 := by
  intro heq
  have hv : (DateTime.mk Y m d).valueOf = (EasterCalculator.getEasterDate Y).valueOf + 7 := by
    rw [heq, DateTime.valueOf_plus]
  have hE := easter_valueOf_bounds Y h1 h2
  have e3 := DateTime.valueOf_march1 Y
  by_cases hm2 : m ≤ 2
  · have e1 := DateTime.valueOf_janfeb Y m d (by omega)
    simp only [DateTime.local] at e1 e3 hE hv
    split_ifs at e3 <;> omega
  · have e1 := DateTime.valueOf_march Y m d (by omega) (by omega)
    simp only [DateTime.local] at e1 e3 hE hv
    split_ifs at e3 <;> omega

namespace LiturgicalDataParser

theorem create_region (region : String) : (create region).region = region := rfl

theorem create_indiaFeasts (region : String) : (create region).indiaFeasts = loadIndiaFeasts := rfl

theorem create_fixedFeasts (region : String) : (create region).fixedFeasts = loadFixedFeasts := rfl

end LiturgicalDataParser

open LiturgicalDataParser EasterCalculator in
/-- A table feast on the day of a moveable feast does not outrank it. -/
theorem moveable_le_table (Y m d : Int) (h1 : 1900 ≤ Y) (h2 : Y ≤ 2100)
    (table : List FeastRecord) (ht : ∀ r ∈ table, r ∈ loadFixedFeasts ++ loadIndiaFeasts)
    (e f : FeastInfo) (he : getEasterRelatedFeast ⟨Y, m, d⟩ (getEasterDate Y) = some e)
    (hf : lookupFeast table m d = some f) : e.rank ≤ f.rank := by
  have hfr := lookupFeast_rank table m d f hf
  rcases getEasterRelatedFeast_rank _ _ e he with h | ⟨h, hd⟩
  · omega
  · obtain ⟨r, hr, hrm, hrd, rfl⟩ := lookupFeast_some table m d f hf
    have hrow := rows_valid r (ht r hr)
    have hsol := solemnity_rows r (ht r hr)
    simp only
    by_contra hlt
    have hs := hsol (by omega)
    rw [hrm, hrd] at hs hrow
    exact divine_mercy_slot Y m d h1 h2 hrow hs hd

open LiturgicalDataParser EasterCalculator in
/-- C4: for every date of every year in 1900..2100 and for the regions
`general` and `india`, the occurrence returned by `getFeastForDate` is one of
the occurrences of `getAllFeastsForDate` for the same date, and its rank is
less than or equal to the rank of every occurrence of that list. -/
theorem getFeastForDate_lowest_rank (Y m d : Int) (h1 : 1900 ≤ Y) (h2 : Y ≤ 2100)
    (hv : (DateTime.mk Y m d).isValid) (region : String)
    (hr : region = "general" ∨ region = "india") :
    ∃ p, (create region).getFeastForDate ⟨Y, m, d⟩ = some p ∧
      p ∈ (create region).getAllFeastsForDate ⟨Y, m, d⟩ ∧
      ∀ q ∈ (create region).getAllFeastsForDate ⟨Y, m, d⟩, p.rank ≤ q.rank := by
  obtain ⟨info, hinfo, _⟩ := getLiturgicalSeasonInfo_defined Y m d h1 h2 hv
  have hfix : ∀ r ∈ loadFixedFeasts, r ∈ loadFixedFeasts ++ loadIndiaFeasts :=
    fun r hr => List.mem_append_left _ hr
  have hind : ∀ r ∈ loadIndiaFeasts, r ∈ loadFixedFeasts ++ loadIndiaFeasts :=
    fun r hr => List.mem_append_right _ hr
  unfold getFeastForDate getAllFeastsForDate
  simp only []
  rw [hinfo]
  simp only [getFixedFeast, getIndiaFeast, create_region, create_indiaFeasts, create_fixedFeasts]
  cases he : getEasterRelatedFeast ⟨Y, m, d⟩ (getEasterDate Y) with
  | some e =>
    refine ⟨e, rfl, by simp [Option.toList], ?_⟩
    intro q hq
    have her := getEasterRelatedFeast_rank _ _ e he
    simp only [Option.toList, List.mem_append, List.mem_singleton] at hq
    rcases hq with ((hq | hq) | hq) | hq
    · subst hq; simp only [seasonIndicator]; omega
    · subst hq; exact le_refl _
    · cases hf : lookupFeast loadFixedFeasts m d with
      | none => rw [hf] at hq; simp at hq
      | some f =>
        rw [hf] at hq
        simp only [List.mem_singleton] at hq
        subst hq
        exact moveable_le_table Y m d h1 h2 _ hfix e q he hf
    · split_ifs at hq
      · cases hf : lookupFeast loadIndiaFeasts m d with
        | none => rw [hf] at hq; simp at hq
        | some f =>
          rw [hf] at hq
          simp only [List.mem_singleton] at hq
          subst hq
          exact moveable_le_table Y m d h1 h2 _ hind e q he hf
      · simp at hq
  | none =>
    cases hi : lookupFeast loadIndiaFeasts m d with
    | none =>
      cases hf : lookupFeast loadFixedFeasts m d with
      | none =>
        refine ⟨seasonIndicator info, by split_ifs <;> rfl, by simp [Option.toList], ?_⟩
        intro q hq
        simp at hq
        subst hq
        exact le_refl _
      | some f =>
        have hfr := lookupFeast_rank _ _ _ f hf
        refine ⟨f, by split_ifs <;> rfl, by simp [Option.toList], ?_⟩
        intro q hq
        simp at hq
        rcases hq with hq | hq <;> subst hq
        · simp only [seasonIndicator]; omega
        · exact le_refl _
    | some i =>
      have hir := lookupFeast_rank _ _ _ i hi
      rcases hr with rfl | rfl
      · have hne : ¬ ("general" = "india") := by decide
        simp only [hne, if_false]
        cases hf : lookupFeast loadFixedFeasts m d with
        | none =>
          refine ⟨seasonIndicator info, rfl, by simp [Option.toList], ?_⟩
          intro q hq
          simp at hq
          subst hq
          exact le_refl _
        | some f =>
          have hfr := lookupFeast_rank _ _ _ f hf
          refine ⟨f, rfl, by simp [Option.toList], ?_⟩
          intro q hq
          simp at hq
          rcases hq with hq | hq <;> subst hq
          · simp only [seasonIndicator]; omega
          · exact le_refl _
      · simp only [if_true]
        refine ⟨i, rfl, by simp [Option.toList], ?_⟩
        intro q hq
        cases hf : lookupFeast loadFixedFeasts m d with
        | none =>
          rw [hf] at hq
          simp at hq
          rcases hq with hq | hq <;> subst hq
          · simp only [seasonIndicator]; omega
          · exact le_refl _
        | some f =>
          rw [hf] at hq
          simp at hq
          obtain ⟨ri, hri, hmi, hdi, rfl⟩ := lookupFeast_some _ _ _ i hi
          obtain ⟨rf, hrf, hmf, hdf, rfl⟩ := lookupFeast_some _ _ _ f hf
          have := india_rows_rank ri hri rf hrf (by rw [hmi, hmf]) (by rw [hdi, hdf])
          simp only at hir
          rcases hq with hq | hq | hq <;> subst hq
          · simp only [seasonIndicator]; omega
          · simpa using this
          · exact le_refl _

/-! ## Claims -/

/-- C1: `getEasterDate` returns 9 April 2023, 31 March 2024, 20 April 2025 and
23 April 2000, each in the given year. -/
theorem getEasterDate_reference_values :
    EasterCalculator.getEasterDate 2023 = DateTime.local 2023 4 9 ∧
    EasterCalculator.getEasterDate 2024 = DateTime.local 2024 3 31 ∧
    EasterCalculator.getEasterDate 2025 = DateTime.local 2025 4 20 ∧
    EasterCalculator.getEasterDate 2000 = DateTime.local 2000 4 23 := by
  decide

open LiturgicalDataParser EasterCalculator in
theorem getLiturgicalSeasonInfo_exhaustive_witness :
    (1900 : Int) ≤ 2024 ∧ (2024 : Int) ≤ 2100 ∧ (DateTime.mk 2024 5 19).isValid ∧
    ([decide (isOrdinaryTimeBeforeLent ⟨2024, 5, 19⟩ (getEasterDate 2024)),
      decide (isLent ⟨2024, 5, 19⟩ (getEasterDate 2024)),
      decide (isEaster ⟨2024, 5, 19⟩ (getEasterDate 2024)),
      decide (isOrdinaryTimeAfterPentecost ⟨2024, 5, 19⟩ (getEasterDate 2024)),
      decide (isAdvent ⟨2024, 5, 19⟩),
      decide (isChristmas ⟨2024, 5, 19⟩)].count true = 1 ∧
    ∃ info, getLiturgicalSeasonInfo ⟨2024, 5, 19⟩ (getEasterDate 2024) = some info ∧
      info.name ∈ ["Ordinary Time", "Lent", "Easter", "Advent", "Christmas"]) :=
  ⟨by decide, by decide, by decide,
    getLiturgicalSeasonInfo_exhaustive 2024 5 19 (by decide) (by decide) (by decide)⟩

open LiturgicalDataParser EasterCalculator in
/-- Witness of `getFeastForDate_lowest_rank`: 3 July 2024 in region `india`. -/
theorem getFeastForDate_lowest_rank_witness :
    (1900 : Int) ≤ 2024 ∧ (2024 : Int) ≤ 2100 ∧ (DateTime.mk 2024 7 3).isValid ∧
    ∃ p, (create "india").getFeastForDate ⟨2024, 7, 3⟩ = some p ∧
      p ∈ (create "india").getAllFeastsForDate ⟨2024, 7, 3⟩ ∧
      ∀ q ∈ (create "india").getAllFeastsForDate ⟨2024, 7, 3⟩, p.rank ≤ q.rank :=
  ⟨by decide, by decide, by decide,
    getFeastForDate_lowest_rank 2024 7 3 (by decide) (by decide) (by decide) "india"
      (Or.inr rfl)⟩

open LiturgicalCalendar in
/-- Witness of `getLiturgicalSeasons_partition`: 19 May 2024. -/
theorem getLiturgicalSeasons_partition_witness :
    (1900 : Int) ≤ 2024 ∧ (2024 : Int) ≤ 2100 ∧ (DateTime.mk 2024 5 19).isValid ∧
    (getLiturgicalSeasons 2024).countP (fun w => w.contains ⟨2024, 5, 19⟩) = 1 :=
  ⟨by decide, by decide, by decide,
    getLiturgicalSeasons_partition 2024 5 19 (by decide) (by decide) (by decide)⟩

/-- C5: a calendar built for region `india` answers 3 July 2024 with the entry
of the general table (the Feast, importance 3), although the India table has
its own row for 3 July (the Solemnity `IN Saint Thomas the Apostle`): the
constructor builds the parser without the region. -/
theorem getLiturgicalDayInfo_india_july3 :
    ((LiturgicalCalendar.create "india").getLiturgicalDayInfo ⟨2024, 7, 3⟩).feastDay
      = some { name := "Saint Thomas the Apostle", rank := 3, type := "Feast", color := "red",
               isIndianFeast := false } ∧
    (LiturgicalCalendar.create "india").dataParser.region = "general" ∧
    (LiturgicalDataParser.create "india").getIndiaFeast 7 3
      = some ⟨"IN Saint Thomas the Apostle", 31, some "Solemnity-PrincipalPartron-Place", "red"⟩ ∧
    (LiturgicalDataParser.create "india").getFeastForDate ⟨2024, 7, 3⟩
      = some ⟨"IN Saint Thomas the Apostle", 31, some "Solemnity-PrincipalPartron-Place", "red"⟩ := by
  decide!

open LiturgicalDataParser EasterCalculator in
/-- C6: the season colour is never `rose`: luxon numbers Sunday 7, so the test
`date.weekday === 0` fails on every date. On the 4th Sunday of Lent of 2024
(10 March, 21 days before Easter) and on the Sunday of Advent week 3 of 2024
(15 December) the colour is `purple`. -/
theorem season_color_never_rose :
    (∀ date easterDate : DateTime,
      (getLiturgicalSeasonInfo date easterDate).map SeasonInfo.color ≠ some "rose") ∧
    getLiturgicalSeasonInfo ⟨2024, 3, 10⟩ (getEasterDate 2024)
      = some ⟨"Lent", "LE", "LW03-7", "purple", 3⟩ ∧
    DateTime.mk 2024 3 10 = (getEasterDate 2024).minus 21 ∧
    (DateTime.mk 2024 3 10).weekday = 7 ∧
    getLiturgicalSeasonInfo ⟨2024, 12, 15⟩ (getEasterDate 2024)
      = some ⟨"Advent", "AD", "AW03-7", "purple", 3⟩ ∧
    (DateTime.mk 2024 12 15).weekday = 7 := by
  refine ⟨?_, by decide!, by decide!, by decide!, by decide!, by decide!⟩
  intro date easterDate
  have hw := date.weekday_ne_zero
  unfold getLiturgicalSeasonInfo
  cases hb : seasonBranch date easterDate with
  | none => simp
  | some r =>
    obtain ⟨name, code, color⟩ := r
    have hcol : color ≠ "rose" := by
      unfold seasonBranch at hb
      simp only [hw, false_and, if_false] at hb
      split_ifs at hb <;>
        (have h' := (Option.some.inj hb); simp only [Prod.mk.injEq] at h'
         obtain ⟨_, _, h3⟩ := h'; subst h3; decide)
    simp only
    cases matchWeekDigits code.data with
    | none => simp
    | some ds => simpa using hcol

/-- C7: on 10 January 2023, a Tuesday whose only candidate is the season
indicator, `feastDay` is not null: it is the processed season indicator. -/
theorem getLiturgicalDayInfo_plain_day :
    (LiturgicalDataParser.create "general").getAllFeastsForDate ⟨2023, 1, 10⟩
      = [⟨"OW01-2Tue", 134, none, "green"⟩] ∧
    ((LiturgicalCalendar.create "general").getLiturgicalDayInfo ⟨2023, 1, 10⟩).feastDay
      = some { name := "OW01-2Tue", rank := 1, type := "OpMem", color := "green",
               isIndianFeast := false } := by
  decide!

open LiturgicalDataParser EasterCalculator in
/-- C8: Pentecost 2024 (19 May, Easter + 49 days) is classified as Ordinary
Time by `getLiturgicalSeasonInfo` and by `getCalculatedSeason`, while the Easter
window of `getLiturgicalSeasons` ends on that day. -/
theorem pentecost_not_in_easter_season :
    DateTime.mk 2024 5 19 = (getEasterDate 2024).plus 49 ∧
    getLiturgicalSeasonInfo ⟨2024, 5, 19⟩ (getEasterDate 2024)
      = some ⟨"Ordinary Time", "OR", "OW10-7", "green", 10⟩ ∧
    LiturgicalCalendar.getCalculatedSeason ⟨2024, 5, 19⟩ (getEasterDate 2024)
      = ⟨"Ordinary Time (Post-Pentecost)", "OT", "green"⟩ ∧
    (LiturgicalCalendar.getLiturgicalSeasons 2024).get? 3
      = some ⟨"Easter", ⟨2024, 3, 31⟩, ⟨2024, 5, 19⟩⟩ := by
  decide!

/-- C9: 6 January 2019 is a Sunday (luxon weekday 7) and `getBaptismOfLord(2019)`
returns 6 January itself, not Monday 7 January. -/
theorem getBaptismOfLord_epiphany_sunday :
    (DateTime.local 2019 1 6).weekday = 7 ∧
    LiturgicalCalendar.getBaptismOfLord 2019 = DateTime.local 2019 1 6 ∧
    LiturgicalDataParser.baptismOfLord 2019 = DateTime.local 2019 1 6 := by
  decide!

open LiturgicalDataParser in
/-- C10: in 2023 Christmas is a Monday; the `fourthSundayOfAdvent` of the
parser is Tuesday 19 December and its `firstSundayOfAdvent` Tuesday 28 November,
while the Sunday on or before 25 December is 24 December. -/
theorem firstSundayOfAdvent_not_sunday :
    (christmas 2023).weekday = 1 ∧
    fourthSundayOfAdvent 2023 = DateTime.local 2023 12 19 ∧
    (fourthSundayOfAdvent 2023).weekday = 2 ∧
    firstSundayOfAdvent 2023 = DateTime.local 2023 11 28 ∧
    (firstSundayOfAdvent 2023).weekday = 2 ∧
    (DateTime.local 2023 12 24).weekday = 7 := by
  decide!

/-! ## Moveable feasts -/

theorem DateTime.ne_of_valueOf_ne (a b : DateTime) (h : a.valueOf ≠ b.valueOf) : a ≠ b := by
  intro hab
  exact h (by rw [hab])

namespace LiturgicalDataParser

/-- The moveable feast of a date is Ash Wednesday exactly on the 46th day before Easter. -/
theorem getEasterRelatedFeast_ashWednesday (date easterDate : DateTime) :
    (getEasterRelatedFeast date easterDate).map FeastInfo.code = some "Ash Wednesday" ↔
      date = easterDate.minus 46 := by
  constructor
  · intro h
    unfold getEasterRelatedFeast at h
    by_cases c1 : date = easterDate
    · rw [if_pos c1] at h; exact absurd h (by decide)
    rw [if_neg c1] at h
    by_cases c2 : date = easterDate.minus 46
    · exact c2
    rw [if_neg c2] at h
    by_cases c3 : date = easterDate.minus 7
    · rw [if_pos c3] at h; exact absurd h (by decide)
    rw [if_neg c3] at h
    by_cases c4 : date = easterDate.minus 3
    · rw [if_pos c4] at h; exact absurd h (by decide)
    rw [if_neg c4] at h
    by_cases c5 : date = easterDate.minus 2
    · rw [if_pos c5] at h; exact absurd h (by decide)
    rw [if_neg c5] at h
    by_cases c6 : date = easterDate.minus 1
    · rw [if_pos c6] at h; exact absurd h (by decide)
    rw [if_neg c6] at h
    by_cases c7 : date = easterDate.plus 7
    · rw [if_pos c7] at h; exact absurd h (by decide)
    rw [if_neg c7] at h
    by_cases c8 : date = easterDate.plus 39
    · rw [if_pos c8] at h; exact absurd h (by decide)
    rw [if_neg c8] at h
    by_cases c9 : date = easterDate.plus 49
    · rw [if_pos c9] at h; exact absurd h (by decide)
    rw [if_neg c9] at h
    exact absurd h (by decide)
  · intro h
    have n1 : date ≠ easterDate := by
      apply DateTime.ne_of_valueOf_ne
      rw [h, DateTime.valueOf_minus]
      omega
    unfold getEasterRelatedFeast
    rw [if_neg n1, if_pos h]
    rfl

/-- The moveable feast of a date is Pentecost exactly on the 49th day after Easter. -/
theorem getEasterRelatedFeast_pentecost (date easterDate : DateTime) :
    (getEasterRelatedFeast date easterDate).map FeastInfo.code = some "Pentecost" ↔
      date = easterDate.plus 49 := by
  constructor
  · intro h
    unfold getEasterRelatedFeast at h
    by_cases c1 : date = easterDate
    · rw [if_pos c1] at h; exact absurd h (by decide)
    rw [if_neg c1] at h
    by_cases c2 : date = easterDate.minus 46
    · rw [if_pos c2] at h; exact absurd h (by decide)
    rw [if_neg c2] at h
    by_cases c3 : date = easterDate.minus 7
    · rw [if_pos c3] at h; exact absurd h (by decide)
    rw [if_neg c3] at h
    by_cases c4 : date = easterDate.minus 3
    · rw [if_pos c4] at h; exact absurd h (by decide)
    rw [if_neg c4] at h
    by_cases c5 : date = easterDate.minus 2
    · rw [if_pos c5] at h; exact absurd h (by decide)
    rw [if_neg c5] at h
    by_cases c6 : date = easterDate.minus 1
    · rw [if_pos c6] at h; exact absurd h (by decide)
    rw [if_neg c6] at h
    by_cases c7 : date = easterDate.plus 7
    · rw [if_pos c7] at h; exact absurd h (by decide)
    rw [if_neg c7] at h
    by_cases c8 : date = easterDate.plus 39
    · rw [if_pos c8] at h; exact absurd h (by decide)
    rw [if_neg c8] at h
    by_cases c9 : date = easterDate.plus 49
    · exact c9
    rw [if_neg c9] at h
    exact absurd h (by decide)
  · intro h
    have hv : date.valueOf = easterDate.valueOf + 49 := by rw [h, DateTime.valueOf_plus]
    have n1 : date ≠ easterDate := DateTime.ne_of_valueOf_ne _ _ (by omega)
    have n2 : date ≠ easterDate.minus 46 :=
      DateTime.ne_of_valueOf_ne _ _ (by rw [DateTime.valueOf_minus]; omega)
    have n3 : date ≠ easterDate.minus 7 :=
      DateTime.ne_of_valueOf_ne _ _ (by rw [DateTime.valueOf_minus]; omega)
    have n4 : date ≠ easterDate.minus 3 :=
      DateTime.ne_of_valueOf_ne _ _ (by rw [DateTime.valueOf_minus]; omega)
    have n5 : date ≠ easterDate.minus 2 :=
      DateTime.ne_of_valueOf_ne _ _ (by rw [DateTime.valueOf_minus]; omega)
    have n6 : date ≠ easterDate.minus 1 :=
      DateTime.ne_of_valueOf_ne _ _ (by rw [DateTime.valueOf_minus]; omega)
    have n7 : date ≠ easterDate.plus 7 :=
      DateTime.ne_of_valueOf_ne _ _ (by rw [DateTime.valueOf_plus]; omega)
    have n8 : date ≠ easterDate.plus 39 :=
      DateTime.ne_of_valueOf_ne _ _ (by rw [DateTime.valueOf_plus]; omega)
    unfold getEasterRelatedFeast
    rw [if_neg n1, if_neg n2, if_neg n3, if_neg n4, if_neg n5, if_neg n6, if_neg n7, if_neg n8,
      if_pos h]
    rfl

end LiturgicalDataParser

open LiturgicalDataParser EasterCalculator in
/-- C11: for every year in 1900..2100, `getEasterRelatedFeast` reports
`Ash Wednesday` exactly on the date 46 days before `getEasterDate(Y)`, and that
date is a Wednesday (luxon weekday 3). -/
theorem ashWednesday_date (Y : Int) (h1 : 1900 ≤ Y) (h2 : Y ≤ 2100) :
    (∀ date : DateTime,
      (getEasterRelatedFeast date (getEasterDate Y)).map FeastInfo.code = some "Ash Wednesday" ↔
        date = (getEasterDate Y).minus 46) ∧
    ((getEasterDate Y).minus 46).valueOf = (getEasterDate Y).valueOf - 46 ∧
    ((getEasterDate Y).minus 46).weekday = 3 := by
  obtain ⟨_, _, hw⟩ := easter_facts Y h1 h2
  refine ⟨fun date => getEasterRelatedFeast_ashWednesday date _, DateTime.valueOf_minus _ _, ?_⟩
  simp only [DateTime.weekday, DateTime.valueOf_minus] at hw ⊢
  omega

open LiturgicalDataParser EasterCalculator in
/-- Witness of `ashWednesday_date`: the year 2024. -/
theorem ashWednesday_date_witness :
    (1900 : Int) ≤ 2024 ∧ (2024 : Int) ≤ 2100 ∧
    (∀ date : DateTime,
      (getEasterRelatedFeast date (getEasterDate 2024)).map FeastInfo.code
          = some "Ash Wednesday" ↔
        date = (getEasterDate 2024).minus 46) ∧
    ((getEasterDate 2024).minus 46).valueOf = (getEasterDate 2024).valueOf - 46 ∧
    ((getEasterDate 2024).minus 46).weekday = 3 :=
  ⟨by decide, by decide, ashWednesday_date 2024 (by decide) (by decide)⟩

open LiturgicalDataParser EasterCalculator in
/-- C12: for every year in 1900..2100, `getEasterRelatedFeast` reports
`Pentecost` exactly on the date 49 days after `getEasterDate(Y)`, and that date
is a Sunday (luxon weekday 7). -/
theorem pentecost_date (Y : Int) (h1 : 1900 ≤ Y) (h2 : Y ≤ 2100) :
    (∀ date : DateTime,
      (getEasterRelatedFeast date (getEasterDate Y)).map FeastInfo.code = some "Pentecost" ↔
        date = (getEasterDate Y).plus 49) ∧
    ((getEasterDate Y).plus 49).valueOf = (getEasterDate Y).valueOf + 49 ∧
    ((getEasterDate Y).plus 49).weekday = 7 := by
  obtain ⟨_, _, hw⟩ := easter_facts Y h1 h2
  refine ⟨fun date => getEasterRelatedFeast_pentecost date _, DateTime.valueOf_plus _ _, ?_⟩
  simp only [DateTime.weekday, DateTime.valueOf_plus] at hw ⊢
  omega

open LiturgicalDataParser EasterCalculator in
/-- Witness of `pentecost_date`: the year 2024. -/
theorem pentecost_date_witness :
    (1900 : Int) ≤ 2024 ∧ (2024 : Int) ≤ 2100 ∧
    (∀ date : DateTime,
      (getEasterRelatedFeast date (getEasterDate 2024)).map FeastInfo.code = some "Pentecost" ↔
        date = (getEasterDate 2024).plus 49) ∧
    ((getEasterDate 2024).plus 49).valueOf = (getEasterDate 2024).valueOf + 49 ∧
    ((getEasterDate 2024).plus 49).weekday = 7 :=
  ⟨by decide, by decide, pentecost_date 2024 (by decide) (by decide)⟩

/-! ## The loops over the days of a year -/

namespace LiturgicalCalendar

/-- With enough fuel the loop visits `currentDate`, then `currentDate` plus 1, 2, ...
days, up to `endDate`. -/
theorem daysLoop_eq (fuel : Nat) (currentDate endDate : DateTime) (k : Nat)
    (hk : (endDate.valueOf + 1 - currentDate.valueOf).toNat = k) (hf : k ≤ fuel) :
    daysLoop fuel currentDate endDate =
      (List.range k).map (fun (i : Nat) => if i = 0 then currentDate else currentDate.plus (i : Int)) := by
  induction fuel generalizing currentDate k with
  | zero =>
    have : k = 0 := by omega
    subst this
    simp [daysLoop]
  | succ fuel ih =>
    unfold daysLoop
    split_ifs with hc
    · obtain ⟨k', rfl⟩ : ∃ k', k = k' + 1 := ⟨k - 1, by omega⟩
      have hk' : (endDate.valueOf + 1 - (currentDate.plus 1).valueOf).toNat = k' := by
        rw [DateTime.valueOf_plus]
        omega
      rw [ih (currentDate.plus 1) k' hk' (by omega), List.range_succ_eq_map]
      simp only [List.map_cons, List.map_map, if_true]
      congr 1
      apply List.map_congr_left
      intro i _
      simp only [Function.comp, Nat.succ_ne_zero, if_false]
      split_ifs with hi
      · subst hi
        simp
      · simp only [DateTime.plus, DateTime.valueOf_ofDays]
        congr 1
        push_cast
        omega
    · have : k = 0 := by omega
      subst this
      simp

theorem getLiturgicalDayInfo_date (self : LiturgicalCalendar) (dt : DateTime) :
    (self.getLiturgicalDayInfo dt).date = dt := rfl

end LiturgicalCalendar

/-- Day number of 31 December from that of 1 January: 364 days later, 365 in a leap year. -/
theorem december31_valueOf (Y : Int) :
    (DateTime.local Y 12 31).valueOf = (DateTime.local Y 1 1).valueOf + 364 +
      (if Y % 4 = 0 ∧ (Y % 100 ≠ 0 ∨ Y % 400 = 0) then 1 else 0) := by
  have e2 := DateTime.valueOf_march Y 12 31 (by omega) (by omega)
  have e3 := DateTime.valueOf_march1 Y
  simp only [DateTime.local] at e2 e3 ⊢
  split_ifs at e3 ⊢ <;> omega

open LiturgicalCalendar in
/-- C15: for every year `Y`, `getFullYearData(Y)` has one entry per civil day of
`Y` (366 in a leap year, otherwise 365) in calendar order: entry `i` is dated
1 January plus `i` days, so its day number is that of 1 January plus `i`. -/
theorem getFullYearData_days (self : LiturgicalCalendar) (Y : Int) :
    (self.getFullYearData Y).length
      = (if Y % 4 = 0 ∧ (Y % 100 ≠ 0 ∨ Y % 400 = 0) then 366 else 365) ∧
    (self.getFullYearData Y).map (fun info => info.date)
      = (List.range (self.getFullYearData Y).length).map
          (fun (i : Nat) => if i = 0 then DateTime.local Y 1 1
            else (DateTime.local Y 1 1).plus (i : Int)) ∧
    (self.getFullYearData Y).map (fun info => info.date.valueOf)
      = (List.range (self.getFullYearData Y).length).map
          (fun (i : Nat) => (DateTime.local Y 1 1).valueOf + (i : Int)) ∧
    (DateTime.local Y 1 1).valueOf + (((self.getFullYearData Y).length : Nat) : Int) - 1
      = (DateTime.local Y 12 31).valueOf := by
  have hz := december31_valueOf Y
  obtain ⟨k, hk⟩ : ∃ k : Nat,
      ((DateTime.local Y 12 31).valueOf + 1 - (DateTime.local Y 1 1).valueOf).toNat = k := ⟨_, rfl⟩
  have hk365 : k = (if Y % 4 = 0 ∧ (Y % 100 ≠ 0 ∨ Y % 400 = 0) then 366 else 365) := by
    split_ifs at hz ⊢ <;> omega
  have hloop := daysLoop_eq 367 (DateTime.local Y 1 1) (DateTime.local Y 12 31) k hk
    (by rw [hk365]; split_ifs <;> omega)
  have hlen : (self.getFullYearData Y).length = k := by
    simp only [getFullYearData, hloop, List.length_map, List.length_range]
  refine ⟨by rw [hlen, hk365], ?_, ?_, ?_⟩
  · rw [hlen]
    simp only [getFullYearData, hloop, List.map_map]
    apply List.map_congr_left
    intro i _
    simp only [Function.comp, getLiturgicalDayInfo_date]
  · rw [hlen]
    simp only [getFullYearData, hloop, List.map_map]
    apply List.map_congr_left
    intro i _
    simp only [Function.comp, getLiturgicalDayInfo_date]
    split_ifs with hi
    · subst hi; simp
    · rw [DateTime.valueOf_plus]
  · rw [hlen, hk365]
    split_ifs at hz ⊢ <;> push_cast <;> omega

/-! ## The occurrences of a day -/

namespace LiturgicalDataParser

/-- No moveable feast falls later than the 49th day after Easter. -/
theorem getEasterRelatedFeast_none_after (date easterDate : DateTime)
    (h : easterDate.valueOf + 49 < date.valueOf) :
    getEasterRelatedFeast date easterDate = none := by
  have n1 : date ≠ easterDate := DateTime.ne_of_valueOf_ne _ _ (by omega)
  have n2 : date ≠ easterDate.minus 46 :=
    DateTime.ne_of_valueOf_ne _ _ (by rw [DateTime.valueOf_minus]; omega)
  have n3 : date ≠ easterDate.minus 7 :=
    DateTime.ne_of_valueOf_ne _ _ (by rw [DateTime.valueOf_minus]; omega)
  have n4 : date ≠ easterDate.minus 3 :=
    DateTime.ne_of_valueOf_ne _ _ (by rw [DateTime.valueOf_minus]; omega)
  have n5 : date ≠ easterDate.minus 2 :=
    DateTime.ne_of_valueOf_ne _ _ (by rw [DateTime.valueOf_minus]; omega)
  have n6 : date ≠ easterDate.minus 1 :=
    DateTime.ne_of_valueOf_ne _ _ (by rw [DateTime.valueOf_minus]; omega)
  have n7 : date ≠ easterDate.plus 7 :=
    DateTime.ne_of_valueOf_ne _ _ (by rw [DateTime.valueOf_plus]; omega)
  have n8 : date ≠ easterDate.plus 39 :=
    DateTime.ne_of_valueOf_ne _ _ (by rw [DateTime.valueOf_plus]; omega)
  have n9 : date ≠ easterDate.plus 49 :=
    DateTime.ne_of_valueOf_ne _ _ (by rw [DateTime.valueOf_plus]; omega)
  unfold getEasterRelatedFeast
  rw [if_neg n1, if_neg n2, if_neg n3, if_neg n4, if_neg n5, if_neg n6, if_neg n7, if_neg n8,
    if_neg n9]

theorem lookupFeast_december25 :
    lookupFeast loadFixedFeasts 12 25
      = some ⟨"Nativity of the Lord", 31, some "Solemnity", "white"⟩ := by
  decide!

theorem processFeast_nativity :
    processFeast ⟨"Nativity of the Lord", 31, some "Solemnity", "white"⟩
      = ⟨"Nativity of the Lord", 5, "Solemnity", "white", false⟩ := by
  decide!

end LiturgicalDataParser

namespace LiturgicalCalendar

theorem getLiturgicalDayInfo_feastDay (self : LiturgicalCalendar) (dt : DateTime) :
    (self.getLiturgicalDayInfo dt).feastDay
      = (self.dataParser.getFeastForDate dt).map LiturgicalDataParser.processFeast := rfl

theorem getLiturgicalDayInfo_color (self : LiturgicalCalendar) (dt : DateTime) :
    (self.getLiturgicalDayInfo dt).color
      = (match (self.dataParser.getFeastForDate dt).map LiturgicalDataParser.processFeast with
         | some f => if f.color = "" then (LiturgicalDataParser.getLiturgicalSeason dt).color
                     else f.color
         | none => (LiturgicalDataParser.getLiturgicalSeason dt).color) := rfl

theorem create_dataParser (region : String) :
    (create region).dataParser = LiturgicalDataParser.create "general" := rfl

end LiturgicalCalendar

open LiturgicalDataParser EasterCalculator in
/-- The primary occurrence of 25 December is the row of the general table. -/
theorem getFeastForDate_december25 (Y : Int) (h1 : 1900 ≤ Y) (h2 : Y ≤ 2100) :
    (create "general").getFeastForDate ⟨Y, 12, 25⟩
      = some ⟨"Nativity of the Lord", 31, some "Solemnity", "white"⟩ := by
  have hv : (DateTime.mk Y 12 25).isValid := by
    simp [DateTime.isValid, daysInMonth]
  obtain ⟨info, hinfo, _⟩ := getLiturgicalSeasonInfo_defined Y 12 25 h1 h2 hv
  have hE := easter_valueOf_bounds Y h1 h2
  have hdec := december_valueOf Y
  have hnone : getEasterRelatedFeast ⟨Y, 12, 25⟩ (getEasterDate Y) = none := by
    apply getEasterRelatedFeast_none_after
    simp only [DateTime.local] at hdec hE
    omega
  have hne : ¬ ("general" = "india") := by decide
  unfold getFeastForDate
  simp only []
  rw [hinfo, hnone]
  simp only [getFixedFeast, create_region, create_fixedFeasts, hne, if_false,
    lookupFeast_december25]

open LiturgicalCalendar in
/-- C16: for every year in 1900..2100, `getLiturgicalDayInfo` for 25 December has
the primary occurrence `Nativity of the Lord` and the effective colour `white`. -/
theorem getLiturgicalDayInfo_december25 (Y : Int) (h1 : 1900 ≤ Y) (h2 : Y ≤ 2100)
    (region : String) :
    (((create region).getLiturgicalDayInfo ⟨Y, 12, 25⟩).feastDay).map ProcessedFeast.name
      = some "Nativity of the Lord" ∧
    ((create region).getLiturgicalDayInfo ⟨Y, 12, 25⟩).color = "white" := by
  have hf := getFeastForDate_december25 Y h1 h2
  constructor
  · rw [getLiturgicalDayInfo_feastDay, create_dataParser, hf]
    simp only [Option.map, LiturgicalDataParser.processFeast_nativity]
  · rw [getLiturgicalDayInfo_color, create_dataParser, hf]
    simp only [Option.map, LiturgicalDataParser.processFeast_nativity]
    have hne : ¬ ("white" = "") := by decide
    rw [if_neg hne]

open LiturgicalCalendar in
/-- Witness of `getLiturgicalDayInfo_december25`: the year 2024, region `general`. -/
theorem getLiturgicalDayInfo_december25_witness :
    (1900 : Int) ≤ 2024 ∧ (2024 : Int) ≤ 2100 ∧
    (((create "general").getLiturgicalDayInfo ⟨2024, 12, 25⟩).feastDay).map ProcessedFeast.name
      = some "Nativity of the Lord" ∧
    ((create "general").getLiturgicalDayInfo ⟨2024, 12, 25⟩).color = "white" :=
  ⟨by decide, by decide, getLiturgicalDayInfo_december25 2024 (by decide) (by decide) "general"⟩

open LiturgicalDataParser EasterCalculator in
/-- Counterexample to C13: on 25 December 2024 the list of all occurrences is
the season indicator (rank 13.4) followed by `Nativity of the Lord` (rank 3.1):
the ranks are not ascending and the primary occurrence is not the first element. -/
theorem getAllFeastsForDate_not_by_precedence :
    ((create "general").getAllFeastsForDate ⟨2024, 12, 25⟩).map FeastInfo.rank = [134, 31] ∧
    ¬ (((create "general").getAllFeastsForDate ⟨2024, 12, 25⟩).map FeastInfo.rank).Pairwise
        (fun a b => a ≤ b) ∧
    ((create "general").getAllFeastsForDate ⟨2024, 12, 25⟩).head?
      ≠ (create "general").getFeastForDate ⟨2024, 12, 25⟩ := by
  decide!

open LiturgicalDataParser EasterCalculator in
/-- C13 (amended): when the season of the date is defined, the list of all
occurrences is in collection order: the season indicator first, then the
moveable feast, the fixed feast and (region `india`) the India feast when
present; the primary occurrence of `getFeastForDate` is an element of the
list, and it is the first element only when the list holds nothing else. -/
theorem getAllFeastsForDate_collection_order (self : LiturgicalDataParser) (date : DateTime)
    (info : SeasonInfo)
    (h : getLiturgicalSeasonInfo date (getEasterDate date.year) = some info) :
    self.getAllFeastsForDate date =
      [seasonIndicator info]
        ++ (getEasterRelatedFeast date (getEasterDate date.year)).toList
        ++ (self.getFixedFeast date.month date.day).toList
        ++ (if self.region = "india" then (self.getIndiaFeast date.month date.day).toList
            else []) ∧
    ∃ p, self.getFeastForDate date = some p ∧ p ∈ self.getAllFeastsForDate date ∧
      ((self.getAllFeastsForDate date).head? = some p → self.getAllFeastsForDate date = [p]) := by
  have hall : self.getAllFeastsForDate date =
      [seasonIndicator info]
        ++ (getEasterRelatedFeast date (getEasterDate date.year)).toList
        ++ (self.getFixedFeast date.month date.day).toList
        ++ (if self.region = "india" then (self.getIndiaFeast date.month date.day).toList
            else []) := by
    unfold getAllFeastsForDate
    simp only []
    rw [h]
  refine ⟨hall, ?_⟩
  rw [hall]
  unfold getFeastForDate
  simp only []
  rw [h]
  simp only [getFixedFeast, getIndiaFeast]
  cases he : getEasterRelatedFeast date (getEasterDate date.year) with
  | some e =>
    refine ⟨e, rfl, by simp, ?_⟩
    intro hh
    exfalso
    have her := getEasterRelatedFeast_rank _ _ e he
    simp only [List.singleton_append, List.cons_append, List.head?_cons, Option.some.injEq] at hh
    have : e.rank = 134 := by rw [← hh]; rfl
    omega
  | none =>
    by_cases hreg : self.region = "india"
    · simp only [hreg, if_true]
      cases hi : lookupFeast self.indiaFeasts date.month date.day with
      | some i =>
        refine ⟨i, rfl, by simp, ?_⟩
        intro hh
        exfalso
        have hir := lookupFeast_rank _ _ _ i hi
        simp only [Option.toList, List.append_nil, List.singleton_append, List.cons_append,
          List.head?_cons, Option.some.injEq] at hh
        have : i.rank = 134 := by rw [← hh]; rfl
        omega
      | none =>
        cases hf : lookupFeast self.fixedFeasts date.month date.day with
        | some f =>
          refine ⟨f, rfl, by simp, ?_⟩
          intro hh
          exfalso
          have hfr := lookupFeast_rank _ _ _ f hf
          simp only [Option.toList, List.append_nil, List.singleton_append, List.cons_append,
            List.head?_cons, Option.some.injEq] at hh
          have : f.rank = 134 := by rw [← hh]; rfl
          omega
        | none =>
          exact ⟨seasonIndicator info, rfl, by simp, fun _ => by simp⟩
    · simp only [hreg, if_false]
      cases hf : lookupFeast self.fixedFeasts date.month date.day with
      | some f =>
        refine ⟨f, rfl, by simp, ?_⟩
        intro hh
        exfalso
        have hfr := lookupFeast_rank _ _ _ f hf
        simp only [Option.toList, List.append_nil, List.singleton_append, List.cons_append,
          List.head?_cons, Option.some.injEq] at hh
        have : f.rank = 134 := by rw [← hh]; rfl
        omega
      | none =>
        exact ⟨seasonIndicator info, rfl, by simp, fun _ => by simp⟩

open LiturgicalDataParser EasterCalculator in
/-- Witness of `getAllFeastsForDate_collection_order`: 25 December 2024. -/
theorem getAllFeastsForDate_collection_order_witness :
    getLiturgicalSeasonInfo ⟨2024, 12, 25⟩ (getEasterDate (DateTime.mk 2024 12 25).year)
      = some ⟨"Christmas", "CH", "CW01-3Wed", "white", 1⟩ ∧
    ∃ p, (create "general").getFeastForDate ⟨2024, 12, 25⟩ = some p ∧
      p ∈ (create "general").getAllFeastsForDate ⟨2024, 12, 25⟩ :=
  ⟨by decide,
    (getAllFeastsForDate_collection_order (create "general") ⟨2024, 12, 25⟩
      ⟨"Christmas", "CH", "CW01-3Wed", "white", 1⟩ (by decide)).2.imp
      (fun _ hp => ⟨hp.1, hp.2.1⟩)⟩

open LiturgicalCalendar in
/-- C14: `getFeastDays(2023)` lists 10 January 2023, a Tuesday whose only
candidate is the season indicator: the entry is the processed season indicator. -/
theorem getFeastDays_lists_plain_day :
    (LiturgicalDataParser.create "general").getAllFeastsForDate ⟨2023, 1, 10⟩
      = [⟨"OW01-2Tue", 134, none, "green"⟩] ∧
    (⟨"OW01-2Tue", ⟨2023, 1, 10⟩, 1, "OpMem", "green"⟩ : FeastDayEntry)
      ∈ (create "general").getFeastDays 2023 := by
  refine ⟨by decide!, ?_⟩
  have hk : ((DateTime.local 2023 12 31).valueOf + 1 - (DateTime.local 2023 1 1).valueOf).toNat
      = 365 := by decide
  have hloop := daysLoop_eq 367 (DateTime.local 2023 1 1) (DateTime.local 2023 12 31) 365 hk
    (by omega)
  have hmem : DateTime.mk 2023 1 10 ∈ daysLoop 367 (DateTime.local 2023 1 1)
      (DateTime.local 2023 12 31) := by
    rw [hloop, List.mem_map]
    exact ⟨9, List.mem_range.mpr (by omega), by decide⟩
  have hentry : (create "general").feastDayEntry ⟨2023, 1, 10⟩
      = some ⟨"OW01-2Tue", ⟨2023, 1, 10⟩, 1, "OpMem", "green"⟩ := by decide!
  unfold getFeastDays
  simp only []
  rw [List.mem_mergeSort, List.mem_filterMap]
  exact ⟨_, hmem, hentry⟩

/-! ## Week numbers of the season code -/

namespace LiturgicalDataParser

/-- What a returned season records: the triple left by the branch chain, and
the week number parsed from its season code. -/
theorem getLiturgicalSeasonInfo_some (date easterDate : DateTime) (info : SeasonInfo)
    (h : getLiturgicalSeasonInfo date easterDate = some info) :
    ∃ ds, seasonBranch date easterDate = some (info.name, info.seasonCode, info.color) ∧
      matchWeekDigits info.seasonCode.data = some ds ∧ info.week = parseDigits ds := by
  unfold getLiturgicalSeasonInfo at h
  cases hb : seasonBranch date easterDate with
  | none => rw [hb] at h; simp at h
  | some r =>
    obtain ⟨name, code, color⟩ := r
    rw [hb] at h
    simp only [] at h
    cases hm : matchWeekDigits code.data with
    | none => rw [hm] at h; simp at h
    | some ds =>
      rw [hm] at h
      simp only [Option.some.injEq] at h
      subst h
      exact ⟨ds, rfl, hm, rfl⟩

/-- A season named `Lent` comes from the Lent branch, with the week number
`floor(weeks since Ash Wednesday)`. -/
theorem getLiturgicalSeasonInfo_lent (date easterDate : DateTime) (info : SeasonInfo)
    (h : getLiturgicalSeasonInfo date easterDate = some info) (hn : info.name = "Lent") :
    isLent date easterDate ∧ info.week = date.diffWeeksFloor (ashWednesday easterDate) := by
  obtain ⟨ds, hb, hm, hw⟩ := getLiturgicalSeasonInfo_some date easterDate info h
  by_cases c1 : isOrdinaryTimeBeforeLent date easterDate
  · rw [seasonBranch_ordinaryBeforeLent _ _ c1] at hb
    simp only [Option.some.injEq, Prod.mk.injEq] at hb
    rw [← hb.1] at hn
    exact absurd hn (by decide)
  by_cases c2 : isLent date easterDate
  · refine ⟨c2, ?_⟩
    rw [seasonBranch_lent _ _ c1 c2] at hb
    simp only [Option.some.injEq, Prod.mk.injEq] at hb
    have hbound : 0 ≤ date.diffWeeksFloor (ashWednesday easterDate) ∧
        date.diffWeeksFloor (ashWednesday easterDate) ≤ 99 := by
      have c2' := c2
      simp only [isLent, ashWednesday, DateTime.valueOf_minus] at c2'
      simp only [DateTime.diffWeeksFloor_eq, ashWednesday, DateTime.valueOf_minus]
      omega
    obtain ⟨ds', hm', hp'⟩ := matchWeekDigits_seasonCodeOf 'L' (by decide)
      (date.diffWeeksFloor (ashWednesday easterDate)) date.weekday hbound.1 hbound.2
    rw [hb.2.1, hm] at hm'
    simp only [Option.some.injEq] at hm'
    rw [hw, hm', hp']
  by_cases c3 : isEaster date easterDate
  · rw [seasonBranch_easter _ _ c1 c2 c3] at hb
    simp only [Option.some.injEq, Prod.mk.injEq] at hb
    rw [← hb.1] at hn
    exact absurd hn (by decide)
  by_cases c4 : isOrdinaryTimeAfterPentecost date easterDate
  · rw [seasonBranch_ordinaryAfterPentecost _ _ c1 c2 c3 c4] at hb
    simp only [Option.some.injEq, Prod.mk.injEq] at hb
    rw [← hb.1] at hn
    exact absurd hn (by decide)
  by_cases c5 : isAdvent date
  · rw [seasonBranch_advent _ _ c1 c2 c3 c4 c5] at hb
    simp only [Option.some.injEq, Prod.mk.injEq] at hb
    rw [← hb.1] at hn
    exact absurd hn (by decide)
  by_cases c6 : isChristmas date
  · rw [seasonBranch_christmas _ _ c1 c2 c3 c4 c5 c6] at hb
    simp only [Option.some.injEq, Prod.mk.injEq] at hb
    rw [← hb.1] at hn
    exact absurd hn (by decide)
  · simp only [seasonBranch, if_neg c1, if_neg c2, if_neg c3, if_neg c4, if_neg c5, if_neg c6]
      at hb
    exact absurd hb (by simp)

/-- A season named `Easter` comes from the Easter branch, with the week number
`floor(weeks since Easter) + 1`. -/
theorem getLiturgicalSeasonInfo_easter (date easterDate : DateTime) (info : SeasonInfo)
    (h : getLiturgicalSeasonInfo date easterDate = some info) (hn : info.name = "Easter") :
    isEaster date easterDate ∧ info.week = date.diffWeeksFloor easterDate + 1 := by
  obtain ⟨ds, hb, hm, hw⟩ := getLiturgicalSeasonInfo_some date easterDate info h
  by_cases c1 : isOrdinaryTimeBeforeLent date easterDate
  · rw [seasonBranch_ordinaryBeforeLent _ _ c1] at hb
    simp only [Option.some.injEq, Prod.mk.injEq] at hb
    rw [← hb.1] at hn
    exact absurd hn (by decide)
  by_cases c2 : isLent date easterDate
  · rw [seasonBranch_lent _ _ c1 c2] at hb
    simp only [Option.some.injEq, Prod.mk.injEq] at hb
    rw [← hb.1] at hn
    exact absurd hn (by decide)
  by_cases c3 : isEaster date easterDate
  · refine ⟨c3, ?_⟩
    rw [seasonBranch_easter _ _ c1 c2 c3] at hb
    simp only [Option.some.injEq, Prod.mk.injEq] at hb
    have hbound : 0 ≤ date.diffWeeksFloor easterDate + 1 ∧
        date.diffWeeksFloor easterDate + 1 ≤ 99 := by
      have c3' := c3
      simp only [isEaster, pentecost, DateTime.valueOf_plus] at c3'
      simp only [DateTime.diffWeeksFloor_eq]
      omega
    obtain ⟨ds', hm', hp'⟩ := matchWeekDigits_seasonCodeOf 'E' (by decide)
      (date.diffWeeksFloor easterDate + 1) date.weekday hbound.1 hbound.2
    rw [hb.2.1, hm] at hm'
    simp only [Option.some.injEq] at hm'
    rw [hw, hm', hp']
  by_cases c4 : isOrdinaryTimeAfterPentecost date easterDate
  · rw [seasonBranch_ordinaryAfterPentecost _ _ c1 c2 c3 c4] at hb
    simp only [Option.some.injEq, Prod.mk.injEq] at hb
    rw [← hb.1] at hn
    exact absurd hn (by decide)
  by_cases c5 : isAdvent date
  · rw [seasonBranch_advent _ _ c1 c2 c3 c4 c5] at hb
    simp only [Option.some.injEq, Prod.mk.injEq] at hb
    rw [← hb.1] at hn
    exact absurd hn (by decide)
  by_cases c6 : isChristmas date
  · rw [seasonBranch_christmas _ _ c1 c2 c3 c4 c5 c6] at hb
    simp only [Option.some.injEq, Prod.mk.injEq] at hb
    rw [← hb.1] at hn
    exact absurd hn (by decide)
  · simp only [seasonBranch, if_neg c1, if_neg c2, if_neg c3, if_neg c4, if_neg c5, if_neg c6]
      at hb
    exact absurd hb (by simp)

end LiturgicalDataParser

open LiturgicalDataParser EasterCalculator in
/-- C17: on 20 May 2024, the day after Pentecost, the season code carries week
10 (`weeksSincePentecost + 10`) and `getLiturgicalDayInfo` reports week 10,
while 0 whole weeks since Pentecost plus the 5 whole weeks of Ordinary Time
before Lent 2024 plus 1 is 6, the value of the sibling `getLiturgicalWeek`. -/
theorem ordinary_time_week_after_pentecost :
    getLiturgicalSeasonInfo ⟨2024, 5, 20⟩ (getEasterDate 2024)
      = some ⟨"Ordinary Time", "OR", "OW10-1Mon", "green", 10⟩ ∧
    ((LiturgicalCalendar.create "general").getLiturgicalDayInfo ⟨2024, 5, 20⟩).week = 10 ∧
    (DateTime.mk 2024 5 20).diffWeeksFloor (pentecost (getEasterDate 2024))
      + (ashWednesday (getEasterDate 2024)).diffWeeksFloor (baptismOfLord 2024) + 1 = 6 ∧
    (LiturgicalCalendar.getLiturgicalWeek ⟨2024, 5, 20⟩ (getEasterDate 2024)
      ⟨"Ordinary Time (Post-Pentecost)", "OT", "green"⟩).week = 6 := by
  decide!

open LiturgicalDataParser EasterCalculator in
/-- C18: 19 February 2024 is the first Monday after Ash Wednesday
(14 February 2024), five days later; the week number of its season code is 0,
while the sibling `getLiturgicalWeek`, which ends the partial first week of
Lent on the Saturday, gives week 2 for the same day. -/
theorem lent_week_zero_on_monday :
    getLiturgicalSeasonInfo ⟨2024, 2, 19⟩ (getEasterDate 2024)
      = some ⟨"Lent", "LE", "LW00-1Mon", "purple", 0⟩ ∧
    ashWednesday (getEasterDate 2024) = ⟨2024, 2, 14⟩ ∧
    (DateTime.mk 2024 2 19).weekday = 1 ∧
    (DateTime.mk 2024 2 19).valueOf = (ashWednesday (getEasterDate 2024)).valueOf + 5 ∧
    (LiturgicalCalendar.getLiturgicalWeek ⟨2024, 2, 19⟩ (getEasterDate 2024)
      ⟨"Lent", "LT", "purple"⟩).week = 2 := by
  decide!

open LiturgicalDataParser in
/-- The week number that the season code carries for a date in Lent is the
number of whole seven-day blocks since Ash Wednesday: 0 on Ash Wednesday and
the six days after it, and at least 1 from the seventh day on. -/
theorem lent_week_number (date easterDate : DateTime) (info : SeasonInfo)
    (h : getLiturgicalSeasonInfo date easterDate = some info) (hn : info.name = "Lent") :
    info.week = floorDiv (date.diffDays (ashWednesday easterDate)) 7 ∧
    (info.week = 0 ↔ date.valueOf ≤ (ashWednesday easterDate).valueOf + 6) ∧
    ((ashWednesday easterDate).valueOf + 7 ≤ date.valueOf → 1 ≤ info.week) := by
  obtain ⟨hl, hw⟩ := getLiturgicalSeasonInfo_lent date easterDate info h hn
  have hl' := hl.1
  rw [hw, DateTime.diffWeeksFloor_eq, floorDiv_eq _ 7 (by omega)]
  simp only [DateTime.diffDays]
  refine ⟨trivial, ?_, ?_⟩ <;> omega

open LiturgicalDataParser EasterCalculator in
/-- The week number of the season code on 19 February 2024, by `lent_week_number`. -/
theorem lent_week_number_witness :
    getLiturgicalSeasonInfo ⟨2024, 2, 19⟩ (getEasterDate 2024)
      = some ⟨"Lent", "LE", "LW00-1Mon", "purple", 0⟩ ∧
    (0 : Int) = floorDiv ((DateTime.mk 2024 2 19).diffDays (ashWednesday (getEasterDate 2024))) 7 :=
  ⟨by decide,
    (lent_week_number ⟨2024, 2, 19⟩ (getEasterDate 2024)
      ⟨"Lent", "LE", "LW00-1Mon", "purple", 0⟩ (by decide) rfl).1⟩

open LiturgicalDataParser EasterCalculator in
/-- C19: on 8 January 2025, in the Christmas season (Baptism of the Lord is
12 January 2025), the season code carries week 2, while the day index counted
from 25 December is 15, whose `ceil(15 / 7)` is 3, the value of the sibling
`getLiturgicalWeek`. -/
theorem christmas_week_january :
    getLiturgicalSeasonInfo ⟨2025, 1, 8⟩ (getEasterDate 2025)
      = some ⟨"Christmas", "CH", "CW02-3Wed", "white", 2⟩ ∧
    baptismOfLord 2025 = ⟨2025, 1, 12⟩ ∧
    (DateTime.mk 2025 1 8).valueOf - (DateTime.local 2024 12 25).valueOf + 1 = 15 ∧
    LiturgicalCalendar.getLiturgicalWeek ⟨2025, 1, 8⟩ (getEasterDate 2025)
      ⟨"Christmas", "CT", "white"⟩ = ⟨3, 3, 15⟩ := by
  decide!

open LiturgicalDataParser in
/-- C20: for every date that `getLiturgicalSeasonInfo` classifies as Easter
season, the week number of the season code is `floor(days since Easter / 7) + 1`
and lies in 1..7; Easter Sunday itself is in week 1 of the Easter season. -/
theorem easter_week_number (date easterDate : DateTime) (info : SeasonInfo)
    (h : getLiturgicalSeasonInfo date easterDate = some info) (hn : info.name = "Easter") :
    info.week = floorDiv (date.diffDays easterDate) 7 + 1 ∧
    1 ≤ info.week ∧ info.week ≤ 7 ∧
    (getLiturgicalSeasonInfo easterDate easterDate).map (fun i => (i.name, i.week))
      = some ("Easter", 1) := by
  obtain ⟨he, hw⟩ := getLiturgicalSeasonInfo_easter date easterDate info h hn
  have he' := he
  simp only [isEaster, pentecost, DateTime.valueOf_plus] at he'
  refine ⟨?_, ?_, ?_, ?_⟩
  · rw [hw, DateTime.diffWeeksFloor_eq, floorDiv_eq _ 7 (by omega)]
    rfl
  · rw [hw, DateTime.diffWeeksFloor_eq]
    omega
  · rw [hw, DateTime.diffWeeksFloor_eq]
    omega
  · have c1 : ¬ isOrdinaryTimeBeforeLent easterDate easterDate := by
      simp only [isOrdinaryTimeBeforeLent, ashWednesday, DateTime.valueOf_minus]
      omega
    have c2 : ¬ isLent easterDate easterDate := by
      simp only [isLent]
      omega
    have c3 : isEaster easterDate easterDate := by
      simp only [isEaster, pentecost, DateTime.valueOf_plus]
      omega
    have hw1 : easterDate.diffWeeksFloor easterDate + 1 = 1 := by
      rw [DateTime.diffWeeksFloor_eq]
      omega
    have hb := seasonBranch_easter _ _ c1 c2 c3
    rw [hw1] at hb
    rw [getLiturgicalSeasonInfo_of_branch _ _ _ _ 'E' 1 _ (by decide) (by omega) (by omega) hb]
    rfl

open LiturgicalDataParser EasterCalculator in
/-- Witness of `easter_week_number`: 10 April 2024, in the second week of Easter. -/
theorem easter_week_number_witness :
    getLiturgicalSeasonInfo ⟨2024, 4, 10⟩ (getEasterDate 2024)
      = some ⟨"Easter", "EA", "EW02-3Wed", "white", 2⟩ ∧
    (2 : Int) = floorDiv ((DateTime.mk 2024 4 10).diffDays (getEasterDate 2024)) 7 + 1 :=
  ⟨by decide,
    (easter_week_number ⟨2024, 4, 10⟩ (getEasterDate 2024)
      ⟨"Easter", "EA", "EW02-3Wed", "white", 2⟩ (by decide) rfl).1⟩

/-! ## Civil dates from day numbers -/

/-- The year of the era is recovered from the day of the era. -/
theorem yoe_core (r doy : Int) (hr0 : 0 ≤ r) (hr1 : r ≤ 399) (hd0 : 0 ≤ doy) (hd1 : doy ≤ 365)
    (hleap : doy = 365 → (r % 4 = 3 ∧ (r % 100 ≠ 99 ∨ r = 399))) :
    (365 * r + r / 4 - r / 100 + doy
      - (365 * r + r / 4 - r / 100 + doy) / 1460
      + (365 * r + r / 4 - r / 100 + doy) / 36524
      - (365 * r + r / 4 - r / 100 + doy) / 146096) / 365 = r := by
  obtain ⟨a, ha⟩ : ∃ a, a = r / 4 := ⟨_, rfl⟩
  obtain ⟨c, hc⟩ : ∃ c, c = r / 100 := ⟨_, rfl⟩
  have hc03 : 0 ≤ c ∧ c ≤ 3 := by omega
  have hac : c = a / 25 := by omega
  rw [← ha, ← hc]
  have hdoe : 365 * r + a - c + doy = 1460 * a + 365 * (r - 4 * a) + a - c + doy := by ring
  obtain ⟨g, hg⟩ : ∃ g, g = (365 * r + a - c + doy) / 1460 := ⟨_, rfl⟩
  obtain ⟨i, hi⟩ : ∃ i, i = (365 * r + a - c + doy) / 36524 := ⟨_, rfl⟩
  obtain ⟨e, he⟩ : ∃ e, e = (365 * r + a - c + doy) / 146096 := ⟨_, rfl⟩
  rw [← hg, ← hi, ← he]
  have hg' : g = a ∨ g = a + 1 := by omega
  have hi' : i = c ∨ i = c + 1 := by omega
  have he' : e = 0 ∨ e = 1 := by omega
  have hgd : g = a + 1 → 1460 ≤ 365 * (r - 4 * a) + a - c + doy := by omega
  have hga : g = a → 365 * (r - 4 * a) + a - c + doy < 1460 := by omega
  have hic : i = c + 1 → 36524 * (c + 1) ≤ 365 * r + a - c + doy := by omega
  have hee : e = 1 → 146096 ≤ 365 * r + a - c + doy := by omega
  obtain ⟨hc0, hc3⟩ := hc03
  interval_cases c <;> rcases hg' with hg' | hg' <;> rcases hi' with hi' | hi' <;>
    rcases he' with he' | he' <;> subst hg' hi' he' <;> omega

/-- The era decomposition of a day number written as year plus day of the
(March-based) year recovers the year and the day of the year. -/
theorem era_core (y doy : Int) (hd0 : 0 ≤ doy) (hd1 : doy ≤ 365)
    (hleap : doy = 365 → ((y + 1) % 4 = 0 ∧ ((y + 1) % 100 ≠ 0 ∨ (y + 1) % 400 = 0))) :
    ∃ era doe yoe : Int,
      era = (365 * y + y / 4 - y / 100 + y / 400 + doy) / 146097 ∧
      doe = 365 * y + y / 4 - y / 100 + y / 400 + doy - era * 146097 ∧
      yoe = (doe - doe / 1460 + doe / 36524 - doe / 146096) / 365 ∧
      yoe + era * 400 = y ∧
      doe - (365 * yoe + yoe / 4 - yoe / 100) = doy := by
  obtain ⟨q, hq⟩ : ∃ q, q = y / 400 := ⟨_, rfl⟩
  obtain ⟨r, hr⟩ : ∃ r, r = y - 400 * q := ⟨_, rfl⟩
  have hr0 : 0 ≤ r ∧ r ≤ 399 := by omega
  have hsum : 365 * y + y / 4 - y / 100 + y / 400 + doy
      = 146097 * q + (365 * r + r / 4 - r / 100 + doy) := by omega
  have hl : doy = 365 → (r % 4 = 3 ∧ (r % 100 ≠ 99 ∨ r = 399)) := by
    intro h
    have := hleap h
    omega
  have hcore := yoe_core r doy hr0.1 hr0.2 hd0 hd1 hl
  have hdoe0 : 0 ≤ 365 * r + r / 4 - r / 100 + doy := by omega
  have hdoe1 : 365 * r + r / 4 - r / 100 + doy ≤ 146096 := by
    by_cases h : doy = 365
    · have := hl h
      omega
    · omega
  have hera : (365 * y + y / 4 - y / 100 + y / 400 + doy) / 146097 = q := by
    rw [hsum]
    omega
  refine ⟨q, 365 * r + r / 4 - r / 100 + doy, r, hera.symm, ?_, hcore.symm, ?_, ?_⟩
  · rw [hsum]; ring
  · omega
  · ring

/-- The civil date of a day number given as year plus day of the March-based year. -/
theorem DateTime.ofDays_of_year_doy (n y doy : Int)
    (hn : n + 719468 = 365 * y + y / 4 - y / 100 + y / 400 + doy)
    (hd0 : 0 ≤ doy) (hd1 : doy ≤ 365)
    (hleap : doy = 365 → ((y + 1) % 4 = 0 ∧ ((y + 1) % 100 ≠ 0 ∨ (y + 1) % 400 = 0))) :
    DateTime.ofDays n =
      ⟨if (if (5 * doy + 2) / 153 < 10 then (5 * doy + 2) / 153 + 3
            else (5 * doy + 2) / 153 - 9) ≤ 2 then y + 1 else y,
       if (5 * doy + 2) / 153 < 10 then (5 * doy + 2) / 153 + 3 else (5 * doy + 2) / 153 - 9,
       n - DateTime.valueOf
          ⟨if (if (5 * doy + 2) / 153 < 10 then (5 * doy + 2) / 153 + 3
                else (5 * doy + 2) / 153 - 9) ≤ 2 then y + 1 else y,
           if (5 * doy + 2) / 153 < 10 then (5 * doy + 2) / 153 + 3
             else (5 * doy + 2) / 153 - 9, 1⟩ + 1⟩ := by
  obtain ⟨era, doe, yoe, h1, h2, h3, h4, h5⟩ := era_core y doy hd0 hd1 hleap
  unfold DateTime.ofDays
  simp only []
  rw [hn, ← h1, ← h2, ← h3, h4, h5]

/-- The round trip for a date of March..December. -/
theorem DateTime.ofDays_valueOf_march (Y m d : Int) (h3 : 3 ≤ m) (h12 : m ≤ 12)
    (hq : (5 * ((153 * (m - 3) + 2) / 5 + d - 1) + 2) / 153 = m - 3) :
    DateTime.ofDays (DateTime.valueOf ⟨Y, m, d⟩) = ⟨Y, m, d⟩ := by
  have hm2 : ¬ m ≤ 2 := by omega
  have hm2' : m > 2 := by omega
  have h := DateTime.ofDays_of_year_doy (DateTime.valueOf ⟨Y, m, d⟩) Y
    ((153 * (m - 3) + 2) / 5 + d - 1)
    (by simp only [DateTime.valueOf, if_neg hm2, if_pos hm2']; omega) (by omega) (by omega)
    (by omega)
  rw [h, hq]
  have hlt : m - 3 < 10 := by omega
  have hm2'' : ¬ m - 3 + 3 ≤ 2 := by omega
  simp only [if_pos hlt, if_neg hm2'']
  simp only [DateTime.valueOf, if_neg hm2'', show m - 3 + 3 > 2 by omega, if_true,
    if_neg hm2, if_pos hm2']
  congr 1
  · omega
  · omega

/-- A valid civil date is the civil date of its own day number. -/
theorem DateTime.ofDays_valueOf (dt : DateTime) (hv : dt.isValid) :
    DateTime.ofDays dt.valueOf = dt := by
  obtain ⟨Y, m, d⟩ := dt
  have hv' : 1 ≤ m ∧ m ≤ 12 ∧ 1 ≤ d ∧ d ≤ daysInMonth Y m := hv
  obtain ⟨hm1, hm12, hd1, hdm⟩ := hv'
  simp only [daysInMonth] at hdm
  have hm : m = 1 ∨ m = 2 ∨ m = 3 ∨ m = 4 ∨ m = 5 ∨ m = 6 ∨ m = 7 ∨ m = 8 ∨ m = 9 ∨ m = 10 ∨
      m = 11 ∨ m = 12 := by omega
  rcases hm with rfl | rfl | rfl | rfl | rfl | rfl | rfl | rfl | rfl | rfl | rfl | rfl
  · have h := DateTime.ofDays_of_year_doy (DateTime.valueOf ⟨Y, 1, d⟩) (Y - 1) (306 + d - 1)
      (by simp [DateTime.valueOf]; omega) (by omega) (by simp at hdm; omega)
      (by simp at hdm; omega)
    have hq : (5 * (306 + d - 1) + 2) / 153 = 10 := by simp at hdm; omega
    rw [h, hq]
    simp [DateTime.valueOf]
  · have h := DateTime.ofDays_of_year_doy (DateTime.valueOf ⟨Y, 2, d⟩) (Y - 1) (337 + d - 1)
      (by simp [DateTime.valueOf]; omega) (by omega)
      (by simp at hdm; split_ifs at hdm <;> omega)
      (by simp at hdm; split_ifs at hdm <;> omega)
    have hq : (5 * (337 + d - 1) + 2) / 153 = 11 := by
      simp at hdm; split_ifs at hdm <;> omega
    rw [h, hq]
    simp [DateTime.valueOf]
  all_goals
    exact DateTime.ofDays_valueOf_march Y _ d (by omega) (by omega)
      (by simp at hdm; omega)

/-- Valid civil dates with the same day number are equal. -/
theorem DateTime.eq_of_valueOf_eq (a b : DateTime) (ha : a.isValid) (hb : b.isValid)
    (h : a.valueOf = b.valueOf) : a = b := by
  rw [← DateTime.ofDays_valueOf a ha, ← DateTime.ofDays_valueOf b hb, h]

/-! ## Season codes, ranks and colours -/

open LiturgicalDataParser EasterCalculator in
/-- C21: on Easter Sunday 2024 (31 March, luxon weekday 7) the season code is
`EW01-7`, without a weekday abbreviation, and `parseWeekInfo` returns week 0 and
weekday 0 for it instead of the encoded week 1 and weekday 7; the documented
example `OW21-3Wed` parses to week 21, weekday 3. -/
theorem season_code_round_trip_sunday :
    getLiturgicalSeasonInfo ⟨2024, 3, 31⟩ (getEasterDate 2024)
      = some ⟨"Easter", "EA", "EW01-7", "white", 1⟩ ∧
    (DateTime.mk 2024 3 31).weekday = 7 ∧
    getDayAbbreviation 7 = "" ∧
    parseWeekInfo "EW01-7" = (0, 0) ∧
    parseWeekInfo "OW21-3Wed" = (21, 3) := by
  decide!

open LiturgicalDataParser in
/-- C23: `getRankFromType` does not rank `Feast-Lord` strictly above `Feast`:
both get 7, while the table of `RomanCalendarRanks.getRank` gives 5 to
`Feast-Lord` and 7 to `Feast`. -/
theorem getRankFromType_feast_lord_not_above_feast :
    ¬ (getRankFromType "Feast-Lord" < getRankFromType "Feast") ∧
    getRankFromType "Feast-Lord" = 70 ∧ getRankFromType "Feast" = 70 ∧
    RomanCalendarRanks.getRank "Feast-Lord" = 50 ∧ RomanCalendarRanks.getRank "Feast" = 70 := by
  decide

open LiturgicalDataParser in
/-- The values of `getRankFromType`: 3.1 for `Solemnity`, 7 for both
`Feast-Lord` and `Feast`, 10.2 for `Mem` and 12 for `OpMem`. -/
theorem getRankFromType_chain :
    getRankFromType "Solemnity" < getRankFromType "Feast-Lord" ∧
    getRankFromType "Feast-Lord" = getRankFromType "Feast" ∧
    getRankFromType "Feast" < getRankFromType "Mem" ∧
    getRankFromType "Mem" < getRankFromType "OpMem" ∧
    getRankFromType "Solemnity" = 31 ∧ getRankFromType "Feast" = 70 ∧
    getRankFromType "Mem" = 102 ∧ getRankFromType "OpMem" = 120 := by
  decide

open LiturgicalDataParser in
/-- C24: whatever the type tag, a feast code that contains `martyr`,
`passion`, `blood` or `cross` in any letter case gets the colour `red`. -/
theorem getColorFromType_red_keywords (type code : String)
    (h : jsIncludes (jsToLowerCase code) "martyr" = true ∨
      jsIncludes (jsToLowerCase code) "passion" = true ∨
      jsIncludes (jsToLowerCase code) "blood" = true ∨
      jsIncludes (jsToLowerCase code) "cross" = true) :
    getColorFromType type code = "red" := by
  have hne : code ≠ "" := by
    intro hc
    subst hc
    revert h
    decide
  unfold getColorFromType
  rw [if_pos]
  refine ⟨hne, ?_⟩
  rcases h with h | h | h | h
  · exact Or.inl h
  · exact Or.inr (Or.inr (Or.inl h))
  · exact Or.inr (Or.inr (Or.inr h))
  · exact Or.inr (Or.inl h)

open LiturgicalDataParser in
/-- Witness of `getColorFromType_red_keywords`: a memorial of a martyr. -/
theorem getColorFromType_red_keywords_witness :
    jsIncludes (jsToLowerCase "Saint Agnes, virgin and martyr") "martyr" = true ∧
    getColorFromType "Mem" "Saint Agnes, virgin and martyr" = "red" :=
  ⟨by decide, getColorFromType_red_keywords "Mem" "Saint Agnes, virgin and martyr"
    (Or.inl (by decide))⟩

open LiturgicalDataParser in
/-- C26: the occurrence exposed for the India row of 3 July keeps the marker,
its name starts with `IN `, while the record that the sibling
`FixedFeastDays.processFeastData` stores for the same row has the name without
the marker and is flagged as regional. -/
theorem processFeast_keeps_marker :
    ((create "india").getIndiaFeast 7 3).map (fun f => (processFeast f).name)
      = some "IN Saint Thomas the Apostle" ∧
    jsStartsWith "IN Saint Thomas the Apostle" "IN " = true ∧
    (FixedFeastDays.feastRecord
      ⟨7, 3, "IN Saint Thomas the Apostle", none, "Solemnity-PrincipalPartron-Place"⟩).name
      = "Saint Thomas the Apostle" ∧
    (FixedFeastDays.feastRecord
      ⟨7, 3, "IN Saint Thomas the Apostle", none,
        "Solemnity-PrincipalPartron-Place"⟩).isRegionalFeast = some true := by
  decide!

theorem includesChars_of_isPrefixOf (s p : List Char) (h : p.isPrefixOf s = true) :
    includesChars s p = true := by
  cases s with
  | nil =>
    cases p with
    | nil => rfl
    | cons c cs => simp [List.isPrefixOf] at h
  | cons c cs =>
    simp only [includesChars, h, Bool.true_or]

open LiturgicalDataParser in
/-- For a row of a table whose code starts with `IN `, the occurrence found by
the table lookup and passed through `processFeast` has the code as its name,
marker included, and is flagged `isIndianFeast`. -/
theorem processFeast_regional (table : List FeastRecord) (month day : Int) (f : FeastInfo)
    (h : lookupFeast table month day = some f) (hin : jsStartsWith f.code "IN " = true) :
    (∃ r ∈ table, r.feast_month = month ∧ r.feast_date = day ∧ (processFeast f).name = r.feast_code) ∧
    jsStartsWith (processFeast f).name "IN " = true ∧
    (processFeast f).isIndianFeast = true := by
  obtain ⟨r, hr, hm, hd, hf⟩ := lookupFeast_some table month day f h
  have hname : (processFeast f).name = f.code := rfl
  have hflag : (processFeast f).isIndianFeast = jsIncludes f.code "IN " := rfl
  refine ⟨⟨r, hr, hm, hd, ?_⟩, ?_, ?_⟩
  · rw [hname, hf]
  · rw [hname]; exact hin
  · rw [hflag]
    exact includesChars_of_isPrefixOf _ _ hin

open LiturgicalDataParser in
/-- The flag `isIndianFeast` of the India row of 3 July, by `processFeast_regional`. -/
theorem processFeast_regional_witness :
    lookupFeast loadIndiaFeasts 7 3
      = some ⟨"IN Saint Thomas the Apostle", 31, some "Solemnity-PrincipalPartron-Place", "red"⟩ ∧
    (processFeast
      ⟨"IN Saint Thomas the Apostle", 31, some "Solemnity-PrincipalPartron-Place", "red"⟩).isIndianFeast
      = true :=
  ⟨by decide,
    (processFeast_regional loadIndiaFeasts 7 3
      ⟨"IN Saint Thomas the Apostle", 31, some "Solemnity-PrincipalPartron-Place", "red"⟩
      (by decide) (by decide)).2.2⟩

open LiturgicalDataParser in
/-- C27: on 10 January 2023, the third day of Ordinary Time (Baptism of the
Lord is 8 January 2023), `getLiturgicalDayInfo` returns `dayOfSeason` 0: the
week comes from the season code and the day index is never computed. -/
theorem getLiturgicalDayInfo_dayOfSeason_zero :
    ((LiturgicalCalendar.create "general").getLiturgicalDayInfo ⟨2023, 1, 10⟩).dayOfSeason = 0 ∧
    ((LiturgicalCalendar.create "general").getLiturgicalDayInfo ⟨2023, 1, 10⟩).week = 1 ∧
    baptismOfLord 2023 = ⟨2023, 1, 8⟩ ∧
    (DateTime.mk 2023 1 10).valueOf - (baptismOfLord 2023).valueOf + 1 = 3 := by
  decide!

/-- C29: 30 November 2025 is a Sunday (luxon weekday 7) and
`getFirstSundayOfAdvent(2025)` returns 23 November, a week earlier; in 2023,
when 30 November is a Thursday, it returns 26 November, four days away, while
the closest Sunday is 3 December. -/
theorem getFirstSundayOfAdvent_not_closest :
    (DateTime.local 2025 11 30).weekday = 7 ∧
    LiturgicalCalendar.getFirstSundayOfAdvent 2025 = DateTime.local 2025 11 23 ∧
    (DateTime.local 2023 11 30).weekday = 4 ∧
    LiturgicalCalendar.getFirstSundayOfAdvent 2023 = DateTime.local 2023 11 26 ∧
    (DateTime.local 2023 12 3).weekday = 7 := by
  decide!

open LiturgicalDataParser in
/-- C22: for every date and Easter date, `getEasterRelatedFeast` names the
feast of the specification's table at the day offset of the date from Easter,
and returns null at every other offset. -/
theorem getEasterRelatedFeast_by_offset (date easterDate : DateTime)
    (hd : date.isValid) (he : easterDate.isValid) :
    (getEasterRelatedFeast date easterDate).map FeastInfo.code
      = moveableFeastName (date.valueOf - easterDate.valueOf) := by
  have key : ∀ k : Int, date = DateTime.ofDays (easterDate.valueOf + k) ↔
      date.valueOf - easterDate.valueOf = k := by
    intro k
    constructor
    · intro h
      rw [h, DateTime.valueOf_ofDays]
      omega
    · intro h
      rw [← DateTime.ofDays_valueOf date hd]
      congr 1
      omega
  have k0 : date = easterDate ↔ date.valueOf - easterDate.valueOf = 0 := by
    constructor
    · intro h; rw [h]; omega
    · intro h; exact DateTime.eq_of_valueOf_eq _ _ hd he (by omega)
  have km : ∀ k : Int, date = easterDate.minus k ↔ date.valueOf - easterDate.valueOf = -k := by
    intro k
    have h := key (-k)
    have e : easterDate.minus k = DateTime.ofDays (easterDate.valueOf + -k) := by
      unfold DateTime.minus
      congr 1
    rw [e]
    exact h
  have kp : ∀ k : Int, date = easterDate.plus k ↔ date.valueOf - easterDate.valueOf = k :=
    fun k => key k
  have m46 := km 46
  have m7 := km 7
  have m3 := km 3
  have m2 := km 2
  have m1 := km 1
  have p7 := kp 7
  have p39 := kp 39
  have p49 := kp 49
  have e0 : moveableFeastName 0 = some "Easter Sunday" := by decide
  have e46 : moveableFeastName (-46) = some "Ash Wednesday" := by decide
  have e7 : moveableFeastName (-7) = some "Palm Sunday" := by decide
  have e3 : moveableFeastName (-3) = some "Holy Thursday" := by decide
  have e2 : moveableFeastName (-2) = some "Good Friday" := by decide
  have e1 : moveableFeastName (-1) = some "Holy Saturday" := by decide
  have f7 : moveableFeastName 7 = some "Divine Mercy Sunday" := by decide
  have f39 : moveableFeastName 39 = some "Ascension of the Lord" := by decide
  have f49 : moveableFeastName 49 = some "Pentecost" := by decide
  unfold getEasterRelatedFeast
  by_cases c1 : date = easterDate
  · rw [if_pos c1, k0.mp c1, e0]; rfl
  rw [if_neg c1]
  by_cases c2 : date = easterDate.minus 46
  · rw [if_pos c2, m46.mp c2, e46]; rfl
  rw [if_neg c2]
  by_cases c3 : date = easterDate.minus 7
  · rw [if_pos c3, m7.mp c3, e7]; rfl
  rw [if_neg c3]
  by_cases c4 : date = easterDate.minus 3
  · rw [if_pos c4, m3.mp c4, e3]; rfl
  rw [if_neg c4]
  by_cases c5 : date = easterDate.minus 2
  · rw [if_pos c5, m2.mp c5, e2]; rfl
  rw [if_neg c5]
  by_cases c6 : date = easterDate.minus 1
  · rw [if_pos c6, m1.mp c6, e1]; rfl
  rw [if_neg c6]
  by_cases c7 : date = easterDate.plus 7
  · rw [if_pos c7, p7.mp c7, f7]; rfl
  rw [if_neg c7]
  by_cases c8 : date = easterDate.plus 39
  · rw [if_pos c8, p39.mp c8, f39]; rfl
  rw [if_neg c8]
  by_cases c9 : date = easterDate.plus 49
  · rw [if_pos c9, p49.mp c9, f49]; rfl
  rw [if_neg c9]
  have n1 := mt k0.mpr c1
  have n2 := mt m46.mpr c2
  have n3 := mt m7.mpr c3
  have n4 := mt m3.mpr c4
  have n5 := mt m2.mpr c5
  have n6 := mt m1.mpr c6
  have n7 := mt p7.mpr c7
  have n8 := mt p39.mpr c8
  have n9 := mt p49.mpr c9
  unfold moveableFeastName
  rw [if_neg n2, if_neg n3, if_neg n4, if_neg n5, if_neg n6, if_neg n1, if_neg n7, if_neg n8,
    if_neg n9]
  rfl

open LiturgicalDataParser EasterCalculator in
/-- Witness of `getEasterRelatedFeast_by_offset`: Ascension 2024. -/
theorem getEasterRelatedFeast_by_offset_witness :
    (DateTime.mk 2024 5 9).isValid ∧ (getEasterDate 2024).isValid ∧
    (getEasterRelatedFeast ⟨2024, 5, 9⟩ (getEasterDate 2024)).map FeastInfo.code
      = moveableFeastName ((DateTime.mk 2024 5 9).valueOf - (getEasterDate 2024).valueOf) :=
  ⟨by decide, by decide,
    getEasterRelatedFeast_by_offset ⟨2024, 5, 9⟩ (getEasterDate 2024) (by decide) (by decide)⟩

/-! ## FixedFeastDays -/

namespace FixedFeastDays

/-- A slot without a row in the table keeps its record. -/
theorem processFeastData_untouched (rows : List FeastRow) (feasts : FeastMap) (month day : Int)
    (h : ∀ r ∈ rows, ¬ (r.feast_month = month ∧ r.feast_date = day)) :
    processFeastData rows feasts month day = feasts month day := by
  induction rows generalizing feasts with
  | nil => rfl
  | cons r rest ih =>
    have hr := h r (List.mem_cons_self _ _)
    have hrest : ∀ r' ∈ rest, ¬ (r'.feast_month = month ∧ r'.feast_date = day) :=
      fun r' hr' => h r' (List.mem_cons_of_mem _ hr')
    have hstep : processFeastData (r :: rest) feasts
        = processFeastData rest (feasts.set r.feast_month r.feast_date (feastRecord r)) := rfl
    rw [hstep, ih _ hrest]
    unfold FeastMap.set
    have hne : ¬ (month = r.feast_month ∧ day = r.feast_date) := fun hc => hr ⟨hc.1.symm, hc.2.symm⟩
    simp only [hne, if_false]

/-- A slot with a row in the table holds the record of one of its rows. -/
theorem processFeastData_touched (rows : List FeastRow) (feasts : FeastMap) (month day : Int)
    (h : ∃ r ∈ rows, r.feast_month = month ∧ r.feast_date = day) :
    ∃ r ∈ rows, r.feast_month = month ∧ r.feast_date = day ∧
      processFeastData rows feasts month day = some (feastRecord r) := by
  induction rows generalizing feasts with
  | nil =>
    obtain ⟨r, hr, _⟩ := h
    exact absurd hr (List.not_mem_nil _)
  | cons r rest ih =>
    have hstep : processFeastData (r :: rest) feasts
        = processFeastData rest (feasts.set r.feast_month r.feast_date (feastRecord r)) := rfl
    rw [hstep]
    by_cases hrest : ∃ r' ∈ rest, r'.feast_month = month ∧ r'.feast_date = day
    · obtain ⟨r', hr', hm, hd, hv⟩ := ih _ hrest
      exact ⟨r', List.mem_cons_of_mem _ hr', hm, hd, hv⟩
    · have hno : ∀ r' ∈ rest, ¬ (r'.feast_month = month ∧ r'.feast_date = day) :=
        fun r' hr' hc => hrest ⟨r', hr', hc⟩
      rw [processFeastData_untouched rest _ month day hno]
      obtain ⟨r0, hr0, hm0, hd0⟩ := h
      rcases List.mem_cons.mp hr0 with heq | hmem
      · subst heq
        refine ⟨r0, List.mem_cons_self _ _, hm0, hd0, ?_⟩
        unfold FeastMap.set
        simp only [hm0, hd0, and_self, if_true]
      · exact absurd ⟨hm0, hd0⟩ (hno r0 hmem)

/-- C25: when the general table and then the overlay are processed into one
map, a slot defined by the overlay holds the record derived from an overlay row
of that slot alone, and a slot not defined by the overlay keeps the record left
by the general table. -/
theorem processFeastData_overlay (general overlay : List FeastRow) (month day : Int) :
    ((∃ r ∈ overlay, r.feast_month = month ∧ r.feast_date = day) →
      ∃ r ∈ overlay, r.feast_month = month ∧ r.feast_date = day ∧
        processFeastData overlay (processFeastData general FeastMap.empty) month day
          = some (feastRecord r)) ∧
    ((∀ r ∈ overlay, ¬ (r.feast_month = month ∧ r.feast_date = day)) →
      processFeastData overlay (processFeastData general FeastMap.empty) month day
        = processFeastData general FeastMap.empty month day) ∧
    initializeFeastDays "india" (some general) (some overlay)
      = processFeastData overlay (processFeastData general FeastMap.empty) :=
  ⟨processFeastData_touched overlay _ month day,
    processFeastData_untouched overlay _ month day, rfl⟩

/-- Witness of `processFeastData_overlay`: an overlay row for 3 July replaces
the general row of that slot, and the general row of 25 July stays. -/
theorem processFeastData_overlay_witness :
    processFeastData [⟨7, 3, "IN Saint Thomas the Apostle", none, "Solemnity"⟩]
        (processFeastData [⟨7, 3, "Saint Thomas the Apostle", none, "Feast"⟩,
          ⟨7, 25, "Saint James, apostle", none, "Feast"⟩] FeastMap.empty) 7 25
      = processFeastData [⟨7, 3, "Saint Thomas the Apostle", none, "Feast"⟩,
          ⟨7, 25, "Saint James, apostle", none, "Feast"⟩] FeastMap.empty 7 25 ∧
    processFeastData [⟨7, 3, "IN Saint Thomas the Apostle", none, "Solemnity"⟩]
        (processFeastData [⟨7, 3, "Saint Thomas the Apostle", none, "Feast"⟩,
          ⟨7, 25, "Saint James, apostle", none, "Feast"⟩] FeastMap.empty) 7 3
      = some ⟨"Saint Thomas the Apostle", some "", 4, some "white", some "Solemnity", some true⟩ :=
  ⟨(processFeastData_overlay
      [⟨7, 3, "Saint Thomas the Apostle", none, "Feast"⟩,
        ⟨7, 25, "Saint James, apostle", none, "Feast"⟩]
      [⟨7, 3, "IN Saint Thomas the Apostle", none, "Solemnity"⟩] 7 25).2.1 (by decide),
    by decide⟩

end FixedFeastDays

/-! ## Easter in every year -/

/-- For every year from 0 on, the computed Easter date lies between 22 March
and 25 April of that year. -/
theorem easter_month_day (Y : Int) (h : 0 ≤ Y) :
    (EasterCalculator.getEasterDate Y).year = Y ∧
    (((EasterCalculator.getEasterDate Y).month = 3 ∧ 22 ≤ (EasterCalculator.getEasterDate Y).day ∧
        (EasterCalculator.getEasterDate Y).day ≤ 31) ∨
      ((EasterCalculator.getEasterDate Y).month = 4 ∧ 1 ≤ (EasterCalculator.getEasterDate Y).day ∧
        (EasterCalculator.getEasterDate Y).day ≤ 25)) := by
  obtain ⟨a, haa⟩ : ∃ a, a = Y % 19 := ⟨_, rfl⟩
  obtain ⟨b, hbb⟩ : ∃ b, b = Y / 100 := ⟨_, rfl⟩
  obtain ⟨c, hcc⟩ : ∃ c, c = Y % 100 := ⟨_, rfl⟩
  have hb0 : 0 ≤ b := by omega
  have hc0 : 0 ≤ c ∧ c ≤ 99 := by omega
  have ha0 : 0 ≤ a ∧ a ≤ 18 := by omega
  obtain ⟨d, hdd⟩ : ∃ d, d = b / 4 := ⟨_, rfl⟩
  obtain ⟨e, hee⟩ : ∃ e, e = b % 4 := ⟨_, rfl⟩
  obtain ⟨f, hff⟩ : ∃ f, f = (b + 8) / 25 := ⟨_, rfl⟩
  obtain ⟨g, hgg⟩ : ∃ g, g = (b - f + 1) / 3 := ⟨_, rfl⟩
  have hh0 : 0 ≤ 19 * a + b - d - g + 15 := by omega
  have he0 : 0 ≤ e ∧ e ≤ 3 := by omega
  obtain ⟨hv, hhh⟩ : ∃ hv, hv = (19 * a + b - d - g + 15) % 30 := ⟨_, rfl⟩
  have hv0 : 0 ≤ hv ∧ hv ≤ 29 := by omega
  obtain ⟨i, hii⟩ : ∃ i, i = c / 4 := ⟨_, rfl⟩
  obtain ⟨k, hkk⟩ : ∃ k, k = c % 4 := ⟨_, rfl⟩
  have hl0' : 0 ≤ 32 + 2 * e + 2 * i - hv - k := by omega
  obtain ⟨l, hll⟩ : ∃ l, l = (32 + 2 * e + 2 * i - hv - k) % 7 := ⟨_, rfl⟩
  have hl0 : 0 ≤ l ∧ l ≤ 6 := by omega
  obtain ⟨m, hmm⟩ : ∃ m, m = (a + 11 * hv + 22 * l) / 451 := ⟨_, rfl⟩
  have hm0 : m = 0 ∨ m = 1 := by omega
  have hx0 : 0 ≤ hv + l - 7 * m + 114 := by omega
  have hfin : ((hv + l - 7 * m + 114) / 31 = 3 ∧ 22 ≤ (hv + l - 7 * m + 114) % 31 + 1 ∧
        (hv + l - 7 * m + 114) % 31 + 1 ≤ 31) ∨
      ((hv + l - 7 * m + 114) / 31 = 4 ∧ 1 ≤ (hv + l - 7 * m + 114) % 31 + 1 ∧
        (hv + l - 7 * m + 114) % 31 + 1 ≤ 25) := by
    rcases hm0 with hm0 | hm0 <;> omega
  have n4 : (0 : Int) ≤ 4 := by decide
  have n7 : (0 : Int) ≤ 7 := by decide
  have n19 : (0 : Int) ≤ 19 := by decide
  have n25 : (0 : Int) ≤ 25 := by decide
  have n3 : (0 : Int) ≤ 3 := by decide
  have n30 : (0 : Int) ≤ 30 := by decide
  have n31 : (0 : Int) ≤ 31 := by decide
  have n100 : (0 : Int) ≤ 100 := by decide
  have n451 : (0 : Int) ≤ 451 := by decide
  have hE : EasterCalculator.getEasterDate Y
      = ⟨Y, (hv + l - 7 * m + 114) / 31, (hv + l - 7 * m + 114) % 31 + 1⟩ := by
    unfold EasterCalculator.getEasterDate
    simp only [DateTime.local]
    rw [jsMod_eq Y 19 h n19, floorDiv_eq Y 100 n100, jsMod_eq Y 100 h n100, ← haa, ← hbb, ← hcc,
      floorDiv_eq b 4 n4, jsMod_eq b 4 hb0 n4, floorDiv_eq (b + 8) 25 n25, ← hdd, ← hee, ← hff,
      floorDiv_eq (b - f + 1) 3 n3, ← hgg, jsMod_eq _ 30 hh0 n30, ← hhh,
      floorDiv_eq c 4 n4, jsMod_eq c 4 hc0.1 n4, ← hii, ← hkk, jsMod_eq _ 7 hl0' n7, ← hll,
      floorDiv_eq _ 451 n451, ← hmm, floorDiv_eq _ 31 n31, jsMod_eq _ 31 hx0 n31]
  rw [hE]
  exact ⟨rfl, hfin⟩

/-- Easter of a year from 0 on is day 80..115 after 1 January. -/
theorem easter_valueOf_bounds_all (Y : Int) (h : 0 ≤ Y) :
    (DateTime.local Y 1 1).valueOf + 80 ≤ (EasterCalculator.getEasterDate Y).valueOf ∧
    (EasterCalculator.getEasterDate Y).valueOf ≤ (DateTime.local Y 1 1).valueOf + 115 := by
  obtain ⟨hy, hmd⟩ := easter_month_day Y h
  generalize EasterCalculator.getEasterDate Y = E at hy hmd ⊢
  obtain ⟨y, m, d⟩ := E
  simp only at hy hmd
  subst hy
  have e1 := DateTime.valueOf_march y m d (by omega) (by omega)
  have e3 := DateTime.valueOf_march1 y
  simp only [DateTime.local] at e1 e3 ⊢
  rcases hmd with ⟨rfl, h3, h4⟩ | ⟨rfl, h3, h4⟩ <;> simp at e1 <;> split_ifs at e3 <;> omega

open LiturgicalCalendar EasterCalculator in
/-- C28: for every year from 0 on, the windows of `getLiturgicalSeasons` are
non-empty, each starts on the day after the end of the previous one (so they
are in chronological order), and the last one ends on 31 December. -/
theorem getLiturgicalSeasons_contiguous (Y : Int) (h : 0 ≤ Y) :
    (∀ w ∈ getLiturgicalSeasons Y, w.startDate.valueOf ≤ w.endDate.valueOf) ∧
    List.Chain' (fun a b => b.startDate.valueOf = a.endDate.valueOf + 1)
      (getLiturgicalSeasons Y) ∧
    List.Chain' (fun a b => a.startDate.valueOf < b.startDate.valueOf)
      (getLiturgicalSeasons Y) ∧
    (getLiturgicalSeasons Y).getLast?.map (fun w => w.endDate) = some (DateTime.local Y 12 31) := by
  have hb := getBaptismOfLord_bounds Y
  have hdec := december_valueOf Y
  have hadv := getFirstSundayOfAdvent_bounds Y
  have hE := easter_valueOf_bounds_all Y h
  have hprev := previous_christmas_valueOf Y
  unfold getLiturgicalSeasons
  simp only [List.mem_cons, List.mem_singleton, forall_eq_or_imp, forall_eq, List.chain'_cons,
    List.chain'_singleton, DateTime.valueOf_minus, DateTime.valueOf_plus, List.not_mem_nil,
    false_implies, implies_true, and_true]
  generalize (DateTime.local Y 1 1).valueOf = J at *
  generalize (getBaptismOfLord Y).valueOf = B at *
  generalize (getEasterDate Y).valueOf = E at *
  generalize (getFirstSundayOfAdvent Y).valueOf = A at *
  generalize (DateTime.local Y 12 25).valueOf = X at *
  generalize (DateTime.local Y 12 31).valueOf = Z at *
  generalize (DateTime.local (Y - 1) 12 25).valueOf = P at *
  refine ⟨?_, ?_, ?_, rfl⟩
  · refine ⟨?_, ?_, ?_, ?_, ?_, ?_, ?_⟩ <;> omega
  · exact ⟨by omega, by omega, by omega, trivial, by omega, by omega⟩
  · refine ⟨?_, ?_, ?_, ?_, ?_, ?_⟩ <;> omega

open LiturgicalCalendar in
/-- Witness of `getLiturgicalSeasons_contiguous`: the year 2024. -/
theorem getLiturgicalSeasons_contiguous_witness :
    (0 : Int) ≤ 2024 ∧
    (getLiturgicalSeasons 2024).getLast?.map (fun w => w.endDate)
      = some (DateTime.local 2024 12 31) :=
  ⟨by decide, (getLiturgicalSeasons_contiguous 2024 (by decide)).2.2.2⟩

/-- C30: on 17 January 2023 the primary occurrence is the memorial
`Saint Anthony of Egypt, abbot`, with no keyword in its name; the season is
Ordinary Time, of colour `green`, and the effective colour is `white`, while
the record of `FixedFeastDays.processFeastData` for the same row has no colour
of its own. -/
theorem memorial_colour_not_seasonal :
    (LiturgicalDataParser.create "general").getFeastForDate ⟨2023, 1, 17⟩
      = some ⟨"Saint Anthony of Egypt, abbot", 102, some "Mem", "white"⟩ ∧
    ((LiturgicalCalendar.create "general").getLiturgicalDayInfo ⟨2023, 1, 17⟩).season
      = ⟨"Ordinary Time", "OR", "green"⟩ ∧
    ((LiturgicalCalendar.create "general").getLiturgicalDayInfo ⟨2023, 1, 17⟩).color = "white" ∧
    (FixedFeastDays.feastRecord ⟨1, 17, "Saint Anthony of Egypt, abbot", none, "Mem"⟩).color
      = none := by
  decide!

open LiturgicalDataParser in
/-- The colour of a memorial or optional memorial without keyword is `white`. -/
theorem getColorFromType_memorial (type code : String)
    (ht : type = "Mem" ∨ type = "OpMem")
    (h1 : jsIncludes (jsToLowerCase code) "martyr" = false)
    (h2 : jsIncludes (jsToLowerCase code) "cross" = false)
    (h3 : jsIncludes (jsToLowerCase code) "passion" = false)
    (h4 : jsIncludes (jsToLowerCase code) "blood" = false)
    (h5 : jsIncludes (jsToLowerCase code) "apostle" = false)
    (h6 : jsIncludes (jsToLowerCase code) "pentecost" = false) :
    getColorFromType type code = "white" := by
  unfold getColorFromType
  have c1 : ¬ (code ≠ "" ∧ (jsIncludes (jsToLowerCase code) "martyr" = true ∨
      jsIncludes (jsToLowerCase code) "cross" = true ∨
      jsIncludes (jsToLowerCase code) "passion" = true ∨
      jsIncludes (jsToLowerCase code) "blood" = true)) := by
    rw [h1, h2, h3, h4]
    simp
  have c2 : ¬ (code ≠ "" ∧ (jsIncludes (jsToLowerCase code) "apostle" = true ∧
      ¬ jsIncludes (jsToLowerCase code) "virgin" = true)) := by
    rw [h5]
    simp
  have c3 : ¬ (code ≠ "" ∧ jsIncludes (jsToLowerCase code) "pentecost" = true) := by
    rw [h6]
    simp
  have c4 : type ≠ "" ∧ (jsIncludes type "Solemnity" = true ∨ jsIncludes type "Feast" = true ∨
      jsIncludes type "Mem" = true) := by
    rcases ht with rfl | rfl <;> decide
  rw [if_neg c1, if_neg c2, if_neg c3, if_pos c4]

open LiturgicalDataParser in
/-- When the primary occurrence of a date is a table feast of type `Mem` or
`OpMem` whose name has none of the keywords martyr, apostle, cross, passion,
blood, pentecost, the effective colour of `getLiturgicalDayInfo` is `white`,
whatever the colour of the season. -/
theorem memorial_colour_white (self : LiturgicalCalendar) (dt : DateTime) (r : FeastRecord)
    (ht : r.feast_type = "Mem" ∨ r.feast_type = "OpMem")
    (h1 : jsIncludes (jsToLowerCase r.feast_code) "martyr" = false)
    (h2 : jsIncludes (jsToLowerCase r.feast_code) "cross" = false)
    (h3 : jsIncludes (jsToLowerCase r.feast_code) "passion" = false)
    (h4 : jsIncludes (jsToLowerCase r.feast_code) "blood" = false)
    (h5 : jsIncludes (jsToLowerCase r.feast_code) "apostle" = false)
    (h6 : jsIncludes (jsToLowerCase r.feast_code) "pentecost" = false)
    (hp : self.dataParser.getFeastForDate dt
      = some { code := r.feast_code
               rank := getRankFromType r.feast_type
               type := some r.feast_type
               color := getColorFromType r.feast_type r.feast_code }) :
    (self.getLiturgicalDayInfo dt).color = "white" ∧
    ((self.getLiturgicalDayInfo dt).feastDay).map ProcessedFeast.color = some "white" := by
  have hc := getColorFromType_memorial r.feast_type r.feast_code ht h1 h2 h3 h4 h5 h6
  have hne : ¬ ("white" = "") := by decide
  have hpc : (processFeast { code := r.feast_code
                             rank := getRankFromType r.feast_type
                             type := some r.feast_type
                             color := getColorFromType r.feast_type r.feast_code }).color
      = "white" := by
    have : ∀ f : FeastInfo, (processFeast f).color = if f.color = "" then "green" else f.color :=
      fun _ => rfl
    rw [this]
    simp only [hc, if_neg hne]
  constructor
  · rw [LiturgicalCalendar.getLiturgicalDayInfo_color, hp]
    simp only [Option.map, hpc, if_neg hne]
  · rw [LiturgicalCalendar.getLiturgicalDayInfo_feastDay, hp]
    simp only [Option.map, hpc]

/-- The effective colour of 17 January 2023, by `memorial_colour_white`. -/
theorem memorial_colour_white_witness :
    (LiturgicalCalendar.create "general").dataParser.getFeastForDate ⟨2023, 1, 17⟩
      = some ⟨"Saint Anthony of Egypt, abbot", 102, some "Mem", "white"⟩ ∧
    ((LiturgicalCalendar.create "general").getLiturgicalDayInfo ⟨2023, 1, 17⟩).color = "white" :=
  ⟨by decide,
    (memorial_colour_white (LiturgicalCalendar.create "general") ⟨2023, 1, 17⟩
      ⟨1, 17, "Saint Anthony of Egypt, abbot", "Mem"⟩ (Or.inl rfl) (by decide) (by decide)
      (by decide) (by decide) (by decide) (by decide) (by decide)).1⟩

/-! ## The regional table, week numbers and season classifiers -/

open LiturgicalDataParser EasterCalculator in
/-- C31: for a parser built with region `india` and a calendar date of a year
in 1900..2100, `getFeastForDate` returns the moveable feast when the date is an
Easter-relative feast day; otherwise, when the India table has an entry for the
month and the day, it returns that entry, whatever the general table holds for
the same slot. -/
theorem getFeastForDate_india_overlay (Y m d : Int) (h1 : 1900 ≤ Y) (h2 : Y ≤ 2100)
    (hv : (DateTime.mk Y m d).isValid) :
    (∀ e, getEasterRelatedFeast ⟨Y, m, d⟩ (getEasterDate Y) = some e →
      (create "india").getFeastForDate ⟨Y, m, d⟩ = some e) ∧
    (getEasterRelatedFeast ⟨Y, m, d⟩ (getEasterDate Y) = none →
      ∀ i, (create "india").getIndiaFeast m d = some i →
        (create "india").getFeastForDate ⟨Y, m, d⟩ = some i) := by
  obtain ⟨info, hinfo, _⟩ := getLiturgicalSeasonInfo_defined Y m d h1 h2 hv
  unfold getFeastForDate
  simp only []
  rw [hinfo]
  simp only [create_region, if_true]
  refine ⟨?_, ?_⟩
  · intro e he
    rw [he]
  · intro he i hi
    rw [he, hi]

open LiturgicalDataParser EasterCalculator in
/-- Witness of `getFeastForDate_india_overlay`: on 3 July 2024 both tables have
an entry, and the entry of the India table is returned. -/
theorem getFeastForDate_india_overlay_witness :
    (create "india").getFixedFeast 7 3
      = some ⟨"Saint Thomas the Apostle", 70, some "Feast", "red"⟩ ∧
    (create "india").getFeastForDate ⟨2024, 7, 3⟩
      = some ⟨"IN Saint Thomas the Apostle", 31, some "Solemnity-PrincipalPartron-Place",
          "red"⟩ :=
  ⟨by decide,
    (getFeastForDate_india_overlay 2024 7 3 (by decide) (by decide) (by decide)).2
      (by decide) _ (by decide)⟩

/-- C32: on Sunday 12 January 2025, the feast of the Baptism of the Lord, the
season code has no day abbreviation, the week is taken from `getLiturgicalWeek`,
and the week number reported is -14. -/
theorem getLiturgicalDayInfo_week_negative :
    (DateTime.mk 2025 1 12).isValid ∧
    ((LiturgicalCalendar.create "general").getLiturgicalDayInfo ⟨2025, 1, 12⟩).week = -14 := by
  decide!

/-- C33: Saturday 25, Sunday 26 and Monday 27 May 2024 are three consecutive
days of Ordinary Time; their week numbers are 10, 6 and 11: the number drops
on the Sunday and rises by 5 on the Monday. -/
theorem getLiturgicalDayInfo_week_not_monotone :
    (DateTime.mk 2024 5 25).plus 1 = ⟨2024, 5, 26⟩ ∧
    (DateTime.mk 2024 5 26).plus 1 = ⟨2024, 5, 27⟩ ∧
    ((LiturgicalCalendar.create "general").getLiturgicalDayInfo ⟨2024, 5, 25⟩).season.name
      = "Ordinary Time" ∧
    ((LiturgicalCalendar.create "general").getLiturgicalDayInfo ⟨2024, 5, 26⟩).season.name
      = "Ordinary Time" ∧
    ((LiturgicalCalendar.create "general").getLiturgicalDayInfo ⟨2024, 5, 27⟩).season.name
      = "Ordinary Time" ∧
    ((LiturgicalCalendar.create "general").getLiturgicalDayInfo ⟨2024, 5, 25⟩).week = 10 ∧
    ((LiturgicalCalendar.create "general").getLiturgicalDayInfo ⟨2024, 5, 26⟩).week = 6 ∧
    ((LiturgicalCalendar.create "general").getLiturgicalDayInfo ⟨2024, 5, 27⟩).week = 11 := by
  decide!

/-- C34: Monday 25 November 2024 lies in the window `Advent` of
`getLiturgicalSeasons 2024` and in no other window, while `getLiturgicalSeason`
classifies the day as Ordinary Time. -/
theorem season_window_disagrees_with_classifier :
    ((LiturgicalCalendar.getLiturgicalSeasons 2024).filter
        (fun w => w.contains ⟨2024, 11, 25⟩)).map (fun w => w.name) = ["Advent"] ∧
    (LiturgicalDataParser.getLiturgicalSeason ⟨2024, 11, 25⟩).name = "Ordinary Time" := by
  decide!

/-- C35: on 25 December 2024 the fallback classifier `getCalculatedSeason`
answers Advent with the colour purple, and `getLiturgicalSeasonInfo` answers
Christmas with the colour white. -/
theorem getCalculatedSeason_disagrees_on_christmas_day :
    LiturgicalCalendar.getCalculatedSeason ⟨2024, 12, 25⟩ (EasterCalculator.getEasterDate 2024)
      = ⟨"Advent", "AV", "purple"⟩ ∧
    (LiturgicalDataParser.getLiturgicalSeasonInfo ⟨2024, 12, 25⟩
        (EasterCalculator.getEasterDate 2024)).map (fun i => (i.name, i.color))
      = some ("Christmas", "white") := by
  decide!

/-! ## Easter is a civil date -/

/-- C36: for every year from 0 on, `getEasterDate` computes a civil date that
exists, in the year asked for, between 22 March and 25 April: the month is 3
or 4, the day is 22..31 in month 3 and 1..25 in month 4. -/
theorem getEasterDate_valid (Y : Int) (h : 0 ≤ Y) :
    (EasterCalculator.getEasterDate Y).isValid ∧
    (EasterCalculator.getEasterDate Y).year = Y ∧
    ((EasterCalculator.getEasterDate Y).month = 3 ∨
      (EasterCalculator.getEasterDate Y).month = 4) ∧
    ((EasterCalculator.getEasterDate Y).month = 3 →
      22 ≤ (EasterCalculator.getEasterDate Y).day ∧ (EasterCalculator.getEasterDate Y).day ≤ 31) ∧
    ((EasterCalculator.getEasterDate Y).month = 4 →
      1 ≤ (EasterCalculator.getEasterDate Y).day ∧ (EasterCalculator.getEasterDate Y).day ≤ 25) := by
  obtain ⟨hy, hmd⟩ := easter_month_day Y h
  generalize EasterCalculator.getEasterDate Y = E at *
  obtain ⟨y, m, d⟩ := E
  simp only at hy hmd ⊢
  unfold DateTime.isValid daysInMonth
  simp only
  rcases hmd with ⟨hm, h1, h2⟩ | ⟨hm, h1, h2⟩
  · subst hm
    refine ⟨⟨by decide, by decide, by omega, ?_⟩, hy, Or.inl rfl, fun _ => ⟨h1, h2⟩, ?_⟩
    · rw [if_neg (by decide), if_neg (by decide)]
      exact h2
    · intro h4
      exact absurd h4 (by decide)
  · subst hm
    refine ⟨⟨by decide, by decide, h1, ?_⟩, hy, Or.inr rfl, ?_, fun _ => ⟨h1, h2⟩⟩
    · rw [if_neg (by decide), if_pos (Or.inl rfl)]
      omega
    · intro h3
      exact absurd h3 (by decide)

/-- Witness of `getEasterDate_valid`: the year 2024. -/
theorem getEasterDate_valid_witness :
    (0 : Int) ≤ 2024 ∧
    (EasterCalculator.getEasterDate 2024).isValid ∧
    (EasterCalculator.getEasterDate 2024).year = 2024 ∧
    ((EasterCalculator.getEasterDate 2024).month = 3 ∨
      (EasterCalculator.getEasterDate 2024).month = 4) ∧
    ((EasterCalculator.getEasterDate 2024).month = 3 →
      22 ≤ (EasterCalculator.getEasterDate 2024).day ∧
      (EasterCalculator.getEasterDate 2024).day ≤ 31) ∧
    ((EasterCalculator.getEasterDate 2024).month = 4 →
      1 ≤ (EasterCalculator.getEasterDate 2024).day ∧
      (EasterCalculator.getEasterDate 2024).day ≤ 25) :=
  ⟨by decide, getEasterDate_valid 2024 (by decide)⟩

/-! ## Importance ranks -/

namespace LiturgicalDataParser

/-- The importance rank given by `processFeast` to an occurrence with a
numeric rank: the thresholds 3.2, 5, 7 and 10.2. -/
theorem processFeast_rank_of_pos (f : FeastInfo) (h : 0 < f.rank) :
    (processFeast f).rank =
      if f.rank ≤ 32 then 5 else if f.rank ≤ 50 then 4 else if f.rank ≤ 70 then 3
      else if f.rank ≤ 102 then 2 else 1 := by
  have hne : f.rank ≠ 0 := by omega
  unfold processFeast
  simp only []
  rw [if_pos hne]
  split_ifs <;> rfl

/-- An occurrence returned by `getFeastForDate` has a numeric rank, and the
rank is at most 5 exactly when the occurrence is the moveable feast of the day
or its type tag contains `Solemnity`. -/
theorem getFeastForDate_rank (self : LiturgicalDataParser) (dt : DateTime) (f : FeastInfo)
    (h : self.getFeastForDate dt = some f) :
    0 < f.rank ∧
    (f.rank ≤ 50 ↔
      (getEasterRelatedFeast dt (EasterCalculator.getEasterDate dt.year) = some f ∨
        ∃ t, f.type = some t ∧ jsIncludes t "Solemnity" = true)) := by
  have htable : ∀ table m d, lookupFeast table m d = some f →
      0 < f.rank ∧ (f.rank ≤ 50 ↔ ∃ t, f.type = some t ∧ jsIncludes t "Solemnity" = true) := by
    intro table m d hl
    obtain ⟨r, _, _, _, rfl⟩ := lookupFeast_some table m d f hl
    simp only [Option.some.injEq, exists_eq_left']
    unfold getRankFromType
    split_ifs with c1 c2 c3
    · exact ⟨by decide, by simp [c1]⟩
    · exact ⟨by decide, by simp [c1]⟩
    · exact ⟨by decide, by simp [c1]⟩
    · exact ⟨by decide, by simp [c1]⟩
  unfold getFeastForDate at h
  simp only [] at h
  cases hs : getLiturgicalSeasonInfo dt (EasterCalculator.getEasterDate dt.year) with
  | none => rw [hs] at h; simp at h
  | some season =>
    rw [hs] at h
    simp only [] at h
    cases he : getEasterRelatedFeast dt (EasterCalculator.getEasterDate dt.year) with
    | some e =>
      rw [he] at h
      simp only [Option.some.injEq] at h
      subst h
      have hr := getEasterRelatedFeast_rank _ _ e he
      have hpos : 0 < e.rank := by
        unfold getEasterRelatedFeast at he
        split_ifs at he <;>
          (have h' := (Option.some.inj he).symm; subst h'; decide)
      exact ⟨hpos, ⟨fun _ => Or.inl rfl, fun _ => by omega⟩⟩
    | none =>
      rw [he] at h
      simp only [] at h
      have hno : ∀ g : FeastInfo, ¬ ((none : Option FeastInfo) = some g) := by
        intro g hg; cases hg
      cases hi : (if self.region = "india" then self.getIndiaFeast dt.month dt.day else none) with
      | some i =>
        rw [hi] at h
        simp only [Option.some.injEq] at h
        subst h
        split_ifs at hi
        · obtain ⟨hp, hiff⟩ := htable _ _ _ hi
          exact ⟨hp, hiff.trans ⟨Or.inr, fun hh => hh.resolve_left (hno _)⟩⟩
      | none =>
        rw [hi] at h
        simp only [] at h
        cases hf : self.getFixedFeast dt.month dt.day with
        | some x =>
          rw [hf] at h
          simp only [Option.some.injEq] at h
          subst h
          obtain ⟨hp, hiff⟩ := htable _ _ _ hf
          exact ⟨hp, hiff.trans ⟨Or.inr, fun hh => hh.resolve_left (hno _)⟩⟩
        | none =>
          rw [hf] at h
          simp only [Option.some.injEq] at h
          subst h
          simp only [seasonIndicator]
          refine ⟨by decide, ⟨fun hh => absurd hh (by decide), fun hh => ?_⟩⟩
          rcases hh with hh | ⟨t, ht, _⟩
          · exact absurd hh (hno _)
          · cases ht

end LiturgicalDataParser

open LiturgicalDataParser in
/-- C38: for numeric ranks in tenths, `processFeast` turns the lower-wins
numeric rank into the higher-wins importance rank antitonically: for positive
ranks `r1 <= r2` the importance of `r2` is at most the importance of `r1`, and
both importances lie in 1..5. -/
theorem processFeast_rank_antitone (f1 f2 : FeastInfo) (h0 : 0 < f1.rank)
    (h : f1.rank ≤ f2.rank) :
    (processFeast f2).rank ≤ (processFeast f1).rank ∧
    1 ≤ (processFeast f1).rank ∧ (processFeast f1).rank ≤ 5 ∧
    1 ≤ (processFeast f2).rank ∧ (processFeast f2).rank ≤ 5 := by
  rw [processFeast_rank_of_pos f1 h0, processFeast_rank_of_pos f2 (by omega)]
  split_ifs <;> omega

open LiturgicalDataParser in
/-- Witness of `processFeast_rank_antitone`: the ranks 3.1 of a solemnity and
10.2 of a memorial, with the importances 5 and 2. -/
theorem processFeast_rank_antitone_witness :
    (processFeast ⟨"a", 31, none, ""⟩).rank = 5 ∧ (processFeast ⟨"b", 102, none, ""⟩).rank = 2 ∧
    ((processFeast ⟨"b", 102, none, ""⟩).rank ≤ (processFeast ⟨"a", 31, none, ""⟩).rank ∧
      1 ≤ (processFeast ⟨"a", 31, none, ""⟩).rank ∧ (processFeast ⟨"a", 31, none, ""⟩).rank ≤ 5 ∧
      1 ≤ (processFeast ⟨"b", 102, none, ""⟩).rank ∧
      (processFeast ⟨"b", 102, none, ""⟩).rank ≤ 5) :=
  ⟨by decide, by decide,
    processFeast_rank_antitone ⟨"a", 31, none, ""⟩ ⟨"b", 102, none, ""⟩ (by decide) (by decide)⟩

/-! ## Solemnities -/

theorem LiturgicalCalendar.getLiturgicalDayInfo_isSolemnity (self : LiturgicalCalendar)
    (dt : DateTime) :
    (self.getLiturgicalDayInfo dt).isSolemnity
      = (match (self.dataParser.getFeastForDate dt).map LiturgicalDataParser.processFeast with
         | some f => decide (f.rank ≥ 4)
         | none => false) := rfl

/-- C37, counterexample: on Ash Wednesday, 14 February 2024, the primary
occurrence has the type tag `Special`, which does not contain `Solemnity`, and
`getLiturgicalDayInfo` reports `isSolemnity = true`. -/
theorem ashWednesday_isSolemnity :
    (LiturgicalCalendar.create "general").dataParser.getFeastForDate ⟨2024, 2, 14⟩
      = some ⟨"Ash Wednesday", 22, some "Special", "purple"⟩ ∧
    jsIncludes "Special" "Solemnity" = false ∧
    ((LiturgicalCalendar.create "general").getLiturgicalDayInfo ⟨2024, 2, 14⟩).isSolemnity
      = true := by
  decide!

open LiturgicalDataParser in
/-- C37, amended: `getLiturgicalDayInfo` reports `isSolemnity = true` exactly
when the day has a primary occurrence whose numeric rank is at most 5; such an
occurrence is the moveable feast of the day, whatever its type tag, or an
occurrence whose type tag contains `Solemnity`. -/
theorem isSolemnity_iff_rank (region : String) (dt : DateTime) :
    (((LiturgicalCalendar.create region).getLiturgicalDayInfo dt).isSolemnity = true ↔
      ∃ f, (LiturgicalCalendar.create region).dataParser.getFeastForDate dt = some f ∧
        f.rank ≤ 50) ∧
    (∀ f, (LiturgicalCalendar.create region).dataParser.getFeastForDate dt = some f →
      (f.rank ≤ 50 ↔
        (getEasterRelatedFeast dt (EasterCalculator.getEasterDate dt.year) = some f ∨
          ∃ t, f.type = some t ∧ jsIncludes t "Solemnity" = true))) := by
  refine ⟨?_, fun f hf => (getFeastForDate_rank _ dt f hf).2⟩
  rw [LiturgicalCalendar.getLiturgicalDayInfo_isSolemnity]
  cases hf : (LiturgicalCalendar.create region).dataParser.getFeastForDate dt with
  | none => simp
  | some f =>
    have hpos := (getFeastForDate_rank _ dt f hf).1
    simp only [Option.map_some', decide_eq_true_eq, Option.some.injEq, exists_eq_left']
    rw [processFeast_rank_of_pos f hpos]
    split_ifs <;> omega

/-! ## The loops of the month grid -/

namespace calendarViewController

/-- The inner loop advances `currentDate` by one day per iteration. -/
theorem weekLoop_currentDate (calendarInstance : LiturgicalCalendar) (month : Int) (n : Nat)
    (currentDate : DateTime) :
    (weekLoop calendarInstance month n currentDate).2.valueOf = currentDate.valueOf + n := by
  induction n generalizing currentDate with
  | zero => simp [weekLoop]
  | succ n ih =>
    unfold weekLoop
    simp only []
    rw [ih, DateTime.valueOf_plus]
    push_cast
    omega

/-- The inner loop pushes one cell per iteration. -/
theorem weekLoop_length (calendarInstance : LiturgicalCalendar) (month : Int) (n : Nat)
    (currentDate : DateTime) :
    (weekLoop calendarInstance month n currentDate).1.length = n := by
  induction n generalizing currentDate with
  | zero => simp [weekLoop]
  | succ n ih =>
    unfold weekLoop
    simp only [List.length_cons]
    rw [ih]

/-- The outer loop stops by itself once fewer than `7 * fuel` days separate
`currentDate` from `endDate`: more fuel does not change the grid. -/
theorem gridLoop_fuel (calendarInstance : LiturgicalCalendar) (month : Int) (fuel k : Nat)
    (currentDate endDate : DateTime)
    (h : endDate.valueOf - currentDate.valueOf < 7 * (fuel : Int)) :
    gridLoop calendarInstance month (fuel + k) currentDate endDate
      = gridLoop calendarInstance month fuel currentDate endDate := by
  induction fuel generalizing currentDate with
  | zero =>
    have hlt : ¬ (currentDate.valueOf ≤ endDate.valueOf) := by
      simp only [Nat.cast_zero, mul_zero] at h
      omega
    cases k with
    | zero => rfl
    | succ k =>
      rw [Nat.zero_add]
      unfold gridLoop
      rw [if_neg hlt]
  | succ fuel ih =>
    rw [Nat.add_right_comm]
    unfold gridLoop
    by_cases hc : currentDate.valueOf ≤ endDate.valueOf
    · rw [if_pos hc, if_pos hc]
      simp only []
      rw [ih]
      rw [weekLoop_currentDate]
      push_cast at h ⊢
      omega
    · rw [if_neg hc, if_neg hc]

/-- Seven iterations of the outer loop are enough for every month: with more
fuel the grid of `generateMonthData` is the same. -/
theorem generateMonthData_fuel (year month : Int) (calendarInstance : LiturgicalCalendar)
    (k : Nat) :
    gridLoop calendarInstance month (7 + k)
        (if (DateTime.local year month 1).weekday ≠ 0 then
          (DateTime.local year month 1).minus (DateTime.local year month 1).weekday
         else DateTime.local year month 1)
        (if (DateTime.local year month (daysInMonth year month)).weekday ≠ 6 then
          (DateTime.local year month (daysInMonth year month)).plus
            (6 - (DateTime.local year month (daysInMonth year month)).weekday)
         else DateTime.local year month (daysInMonth year month))
      = (generateMonthData year month calendarInstance).calendarGrid := by
  unfold generateMonthData
  simp only []
  apply gridLoop_fuel
  have hw1 := (DateTime.local year month 1).weekday_bounds
  have hw2 := (DateTime.local year month (daysInMonth year month)).weekday_bounds
  have hne := (DateTime.local year month 1).weekday_ne_zero
  have hd : (DateTime.local year month (daysInMonth year month)).valueOf
      = (DateTime.local year month 1).valueOf + (daysInMonth year month - 1) := by
    simp only [DateTime.local, DateTime.valueOf]
    omega
  have hdim : daysInMonth year month ≤ 31 := by
    unfold daysInMonth
    split_ifs <;> omega
  rw [if_pos hne]
  rw [DateTime.valueOf_minus]
  split_ifs
  · rw [DateTime.valueOf_plus]
    push_cast
    omega
  · push_cast
    omega

end calendarViewController

/-! ## The month grid and the colour table -/

open calendarViewController in
/-- C39: March 2024 has 31 days and ends on a Sunday. The grid built by
`generateMonthData 2024 3` has five rows of seven consecutive days, from
25 February to 30 March: no cell holds 31 March 2024. -/
theorem generateMonthData_omits_last_day :
    daysInMonth 2024 3 = 31 ∧ (DateTime.mk 2024 3 31).weekday = 7 ∧
    (generateMonthData 2024 3 (LiturgicalCalendar.create "general")).calendarGrid.map
        (fun week => week.map (fun cell => cell.fullDate))
      = [[⟨2024, 2, 25⟩, ⟨2024, 2, 26⟩, ⟨2024, 2, 27⟩, ⟨2024, 2, 28⟩, ⟨2024, 2, 29⟩,
          ⟨2024, 3, 1⟩, ⟨2024, 3, 2⟩],
         [⟨2024, 3, 3⟩, ⟨2024, 3, 4⟩, ⟨2024, 3, 5⟩, ⟨2024, 3, 6⟩, ⟨2024, 3, 7⟩,
          ⟨2024, 3, 8⟩, ⟨2024, 3, 9⟩],
         [⟨2024, 3, 10⟩, ⟨2024, 3, 11⟩, ⟨2024, 3, 12⟩, ⟨2024, 3, 13⟩, ⟨2024, 3, 14⟩,
          ⟨2024, 3, 15⟩, ⟨2024, 3, 16⟩],
         [⟨2024, 3, 17⟩, ⟨2024, 3, 18⟩, ⟨2024, 3, 19⟩, ⟨2024, 3, 20⟩, ⟨2024, 3, 21⟩,
          ⟨2024, 3, 22⟩, ⟨2024, 3, 23⟩],
         [⟨2024, 3, 24⟩, ⟨2024, 3, 25⟩, ⟨2024, 3, 26⟩, ⟨2024, 3, 27⟩, ⟨2024, 3, 28⟩,
          ⟨2024, 3, 29⟩, ⟨2024, 3, 30⟩]] ∧
    (∀ week ∈ (generateMonthData 2024 3 (LiturgicalCalendar.create "general")).calendarGrid,
      ∀ cell ∈ week, cell.fullDate ≠ ⟨2024, 3, 31⟩) := by
  decide!

open LiturgicalDataParser in
/-- C40: on Monday 2 December 2024 (Advent) and on Tuesday 20 February 2024
(Lent), without a feast, `getLiturgicalSeasonInfo` assigns the colour `purple`
and `LiturgicalColors.getColor` returns `violet` for the season of the day. -/
theorem getColor_violet_where_parser_purple :
    (getLiturgicalSeasonInfo ⟨2024, 12, 2⟩ (EasterCalculator.getEasterDate 2024)).map
        (fun i => (i.name, i.color)) = some ("Advent", "purple") ∧
    LiturgicalColors.getColor ⟨2024, 12, 2⟩ (getLiturgicalSeason ⟨2024, 12, 2⟩) none
      = "violet" ∧
    (getLiturgicalSeasonInfo ⟨2024, 2, 20⟩ (EasterCalculator.getEasterDate 2024)).map
        (fun i => (i.name, i.color)) = some ("Lent", "purple") ∧
    LiturgicalColors.getColor ⟨2024, 2, 20⟩ (getLiturgicalSeason ⟨2024, 2, 20⟩) none
      = "violet" := by
  decide!
